import Mathlib

/-!
# Source block cache of xdelta3 (`xdelta3-blkcache.h`)

A shallow embedding of `main_set_source`, `main_getblk_lru`,
`main_read_seek_source` and `main_getblk_func`, with the module-level
globals (`lru`, `lru_list`, `lru_size`, `do_src_fifo`, the counters) gathered
in one explicit `Session` record that every operation takes and returns.

Conventions of the embedding.
* `xoff_t` is a 64-bit unsigned integer: block numbers are naturals, the
  sentinel `(xoff_t) -1` is `2^64 - 1`, and offsets computed by the code are
  reduced modulo `2^64`.
* Memory is a flat byte map `Nat → Nat` addressed relative to the start of the
  buffer returned by `main_bufalloc`; `lru[i].blk` is such a relative address.
  A write never fails: a write that runs past the end of the buffer is
  recorded at the addresses it hits.
* A result `none` means that the C code yields no result there (a loop that
  does not terminate, a division by zero, popping an empty list).
* `XD3_ASSERT` is compiled out: assertions have no effect on the run.
-/

namespace Xdelta

set_option maxRecDepth 8192

/-- Number of slot descriptors, `#define MAX_LRU_SIZE 32U`. -/
def MAX_LRU_SIZE : Nat := 32

/-- Modulus of `xoff_t` arithmetic. -/
def XOFF : Nat := 2 ^ 64

/-- The sentinel `(xoff_t) -1` marking an empty slot. -/
def NOBLK : Nat := 2 ^ 64 - 1

/-- Modelled from the spec: the named "too far back" error; the constant itself
is declared in `xdelta3.h`, which is not part of the analysed unit. -/
def XD3_TOOFARBACK : Int := -17709

/-- Modelled from the spec: the "invalid input" error of a short mandatory
read; the constant itself is declared in `xdelta3.h`. -/
def XD3_INVALID_INPUT : Int := -17712

/-- Out-of-memory error code of the C library. -/
def ENOMEM : Int := 12

/-- One slot descriptor, `struct _main_blklru` (the list linkage lives in
`Session.lru_list`). -/
structure main_blklru where
  blk : Nat
  blkno : Nat
  size : Nat

/-- The source file, `main_file`, together with the byte stream behind it.
`contents`, `length` and `offset` are the stream's bytes, its length and the
operating system's read offset; `open_ret`, `stat_ret`, `seek_ret` and
`read_ret` are what the collaborator calls return (`0` is success); `nseek`
and `nread` count the calls of `main_file_seek` and
`main_read_primary_input`. -/
structure main_file where
  size_known : Bool
  seek_failed : Bool
  source_position : Nat
  contents : Nat → Nat
  length : Nat
  offset : Nat
  open_ret : Int
  stat_ret : Int
  seek_ret : Nat → Int
  read_ret : Nat → Int
  nseek : Nat
  nread : Nat

/-- The fields of `xd3_source` the cache writes; `curblk = none` is `NULL`. -/
structure xd3_source where
  curblkno : Nat
  curblk : Option Nat
  onblk : Nat
  blksize : Nat
  max_winsize : Nat

/-- All state of one session: the globals of the unit, the memory, the file
and the `xd3_source`. `alloc_fails` and `set_source_ret` stand for the
allocator and for `xd3_set_source` / `xd3_set_source_and_size`;
`src_size` records the size handed to `xd3_set_source_and_size`. -/
structure Session where
  allow_fake_source : Bool
  option_srcwinsz : Nat
  alloc_fails : Bool
  set_source_ret : Int
  src_size : Option Nat
  lru_size : Nat
  lru : Nat → main_blklru
  lru_list : List Nat
  do_src_fifo : Bool
  lru_hits : Nat
  lru_misses : Nat
  lru_filled : Nat
  mem : Nat → Nat
  sfile : main_file
  source : xd3_source

/-- Assignment `lru[i].blkno = b`. -/
def set_blkno (s : Session) (i b : Nat) : Session :=
  { s with lru := fun j => if j = i then { s.lru i with blkno := b } else s.lru j }

/-- Assignment `lru[i].size = n`. -/
def set_size (s : Session) (i n : Nat) : Session :=
  { s with lru := fun j => if j = i then { s.lru i with size := n } else s.lru j }

/-- Assignment `sfile->source_position = p`. -/
def set_position (s : Session) (p : Nat) : Session :=
  { s with sfile := { s.sfile with source_position := p } }

/-- Loop of `xd3_pow2_roundup`: double `i` while `x > i`. -/
def pow2_loop : Nat → Nat → Nat → Nat
  | 0, _, i => i
  | fuel + 1, x, i => if x > i then pow2_loop fuel x (2 * i) else i

/-- Modelled from the spec: `xd3_pow2_roundup` (declared outside the analysed
unit) rounds the window size up to the next power of two. -/
def xd3_pow2_roundup (x : Nat) : Nat := pow2_loop 64 x 1

/-- Modelled from the spec: `main_file_seek` (declared outside the analysed
unit) either repositions the stream at `pos` and returns `0`, or returns the
distinguished failure and leaves the stream where it was. -/
def main_file_seek (f : main_file) (pos : Nat) : Int × main_file :=
  if f.seek_ret pos = 0 then (0, { f with offset := pos, nseek := f.nseek + 1 })
  else (f.seek_ret pos, { f with nseek := f.nseek + 1 })

/-- Modelled from the spec: `main_read_primary_input` (declared outside the
analysed unit) reads exactly `size` bytes at the stream's offset into memory
at `buf`, fewer only at the true end of the stream, and reports the count;
an error of the underlying stream is returned unchanged and reads nothing. -/
def main_read_primary_input (s : Session) (buf size : Nat) : Int × Nat × Session :=
  let f := s.sfile
  if f.read_ret f.offset ≠ 0 then
    (f.read_ret f.offset, 0, { s with sfile := { f with nread := f.nread + 1 } })
  else
    let n := min size (f.length - f.offset)
    (0, n,
      { s with
        mem := fun a => if buf ≤ a ∧ a < buf + n then f.contents (f.offset + (a - buf)) else s.mem a
        sfile := { f with offset := f.offset + n, nread := f.nread + 1 } })

/-- The sequential search of `main_getblk_lru`: the first `i < lru_size` with
`lru[i].blkno == blkno`. -/
def lru_search (s : Session) (blkno : Nat) : Option Nat :=
  (List.range s.lru_size).find? (fun i => decide ((s.lru i).blkno = blkno))

/-- Embedding of `main_getblk_lru`: result code, index of the slot stored in
`*blrup`, `*is_new`, and the new state. The list operations are those of
`XD3_MAKELIST`: `push_back` appends at the back, `pop_front` takes the head,
`remove` unlinks the element. -/
def main_getblk_lru (s : Session) (blkno : Nat) : Option (Int × Nat × Bool × Session) :=
  if s.do_src_fifo then
    if s.lru_size = 0 then none
    else
      let idx := blkno % s.lru_size
      if (s.lru idx).blkno = blkno then some (0, idx, false, s)
      else if (s.lru idx).blkno ≠ NOBLK ∧ (s.lru idx).blkno > blkno then
        some (XD3_TOOFARBACK, idx, false, s)
      else
        some (0, idx, true, set_blkno { s with lru_filled := s.lru_filled + 1 } idx NOBLK)
  else
    match lru_search s blkno with
    | some i => some (0, i, false, { s with lru_list := s.lru_list.erase i ++ [i] })
    | none =>
      match s.lru_list with
      | [] => none
      | f :: rest =>
        some (0, f, true,
          set_blkno { s with lru_list := rest ++ [f], lru_filled := s.lru_filled + 1 } f NOBLK)

/-- The `while (sfile->source_position < pos)` loop of `main_read_seek_source`;
`xd3_blksize_div` is division by the block size. -/
def skip_loop : Nat → Session → Nat → Option (Int × Session)
  | 0, s, pos => if s.sfile.source_position < pos then none else some (0, s)
  | fuel + 1, s, pos =>
    if s.sfile.source_position < pos then
      let skip_blkno := s.sfile.source_position / s.source.blksize
      match main_getblk_lru s skip_blkno with
      | none => none
      | some (ret, b, _, s1) =>
        if ret ≠ 0 then some (ret, s1)
        else
          let s2 := set_blkno s1 b skip_blkno
          match main_read_primary_input s2 (s2.lru b).blk s2.source.blksize with
          | (rret, nread, s3) =>
            if rret ≠ 0 then some (rret, s3)
            else if nread ≠ s3.source.blksize then some (XD3_INVALID_INPUT, s3)
            else
              let s4 := set_position s3 ((s3.sfile.source_position + nread) % XOFF)
              skip_loop fuel (set_size s4 b nread) pos
    else some (0, s)

/-- Embedding of `main_read_seek_source`. The loop is given
`pos - source_position` iterations, which it cannot exhaust when the block
size is positive and the position does not wrap. -/
def main_read_seek_source (s : Session) (blkno : Nat) : Option (Int × Session) :=
  let pos := (blkno * s.source.blksize) % XOFF
  let r : Int × Session :=
    if !s.sfile.seek_failed then
      match main_file_seek s.sfile pos with
      | (ret, f) =>
        if ret = 0 then (ret, { s with sfile := { f with source_position := pos } })
        else (ret, { s with sfile := f })
    else (0, s)
  let ret := r.1
  let s1 := r.2
  if s1.sfile.seek_failed ∨ ret ≠ 0 then
    if s1.sfile.source_position > pos then
      some (XD3_TOOFARBACK, { s1 with sfile := { s1.sfile with seek_failed := true } })
    else
      let s2 := { s1 with sfile := { s1.sfile with seek_failed := true } }
      skip_loop (pos - s2.sfile.source_position) s2 pos
  else some (0, s1)

/-- Embedding of `main_getblk_func`. -/
def main_getblk_func (s : Session) (blkno : Nat) : Option (Int × Session) :=
  let pos := (blkno * s.source.blksize) % XOFF
  if s.allow_fake_source then
    some (0, set_size
      { s with source := { s.source with curblkno := blkno, onblk := 0, curblk := some (s.lru 0).blk } }
      0 0)
  else
    match main_getblk_lru s blkno with
    | none => none
    | some (ret, b, is_new, s1) =>
      if ret ≠ 0 then some (ret, s1)
      else if !is_new then
        some (0, { s1 with
          source := { s1.source with curblkno := blkno, onblk := (s1.lru b).size, curblk := some (s1.lru b).blk }
          lru_hits := s1.lru_hits + 1 })
      else
        let s2 := { s1 with lru_misses := s1.lru_misses + 1 }
        let located : Option (Int × Nat × Session) :=
          if pos ≠ s2.sfile.source_position then
            match main_read_seek_source s2 blkno with
            | none => none
            | some (ret1, s3) =>
              if ret1 ≠ 0 then some (ret1, b, s3)
              else
                match main_getblk_lru s3 blkno with
                | none => none
                | some (ret2, b2, _, s4) => some (ret2, b2, s4)
          else some (0, b, s2)
        match located with
        | none => none
        | some (ret3, b3, s5) =>
          if ret3 ≠ 0 then some (ret3, s5)
          else
            match main_read_primary_input s5 (s5.lru b3).blk s5.source.blksize with
            | (rret, nread, s6) =>
              if rret ≠ 0 then some (rret, s6)
              else
                let s7 := set_position s6 ((pos + nread) % XOFF)
                let s8 := { s7 with
                  source := { s7.source with curblk := some (s7.lru b3).blk, curblkno := blkno, onblk := nread } }
                some (0, set_blkno (set_size s8 b3 nread) b3 blkno)

/-- The setup loop `for (i = MAX_LRU_SIZE - 1; i >= 0; --i)` of
`main_set_source`: `setup_loop n` runs the body for `i = n-1, ..., 0`. -/
def setup_loop (w : Nat) : Nat → Session → Session
  | 0, s => s
  | i + 1, s =>
    setup_loop w i
      { s with
        lru := fun j => if j = i then ⟨(w / MAX_LRU_SIZE) * i, NOBLK, 0⟩ else s.lru j
        lru_list := s.lru_list ++ [i] }

/-- The split loop `for (i = 0; i < MAX_LRU_SIZE; ++i)` of `main_set_source`,
whose iterations are independent of each other. -/
def split_slots (s : Session) : Session :=
  { s with lru := fun i =>
      if i < MAX_LRU_SIZE then { s.lru i with blkno := i, size := s.source.blksize } else s.lru i }

/-- Embedding of `main_set_source`. `main_file_open` and `main_file_stat`
return `open_ret` and `stat_ret`; a successful stat reports the stream's
length. -/
def main_set_source (s : Session) : Option (Int × Session) :=
  let s0 := { s with lru_list := [] }
  let opened : Int × Nat × Session :=
    if s0.allow_fake_source then (0, 0, s0)
    else if s0.sfile.open_ret ≠ 0 then (s0.sfile.open_ret, 0, s0)
    else
      (0, (if s0.sfile.stat_ret = 0 then s0.sfile.length else 0),
        { s0 with sfile := { s0.sfile with size_known := decide (s0.sfile.stat_ret = 0) } })
  match opened with
  | (oret, source_size, s1) =>
    if oret ≠ 0 then some (oret, s1)
    else
      let w := xd3_pow2_roundup s1.option_srcwinsz
      let s2 := { s1 with option_srcwinsz := w }
      if s2.alloc_fails then some (ENOMEM, s2)
      else
        let s3 := setup_loop w MAX_LRU_SIZE { s2 with lru := fun _ => ⟨0, 0, 0⟩ }
        let s4 := { s3 with
          source := { s3.source with curblkno := NOBLK, curblk := none, max_winsize := w, blksize := w }
          lru_size := 1 }
        match main_getblk_func s4 0 with
        | none => none
        | some (ret, s5) =>
          if ret ≠ 0 then some (ret, s5)
          else
            let r : Nat × Session :=
              if s5.source.onblk < s5.source.blksize then
                (s5.source.onblk, { s5 with sfile := { s5.sfile with size_known := true } })
              else
                let s6 := { s5 with
                  source := { s5.source with blksize := w / MAX_LRU_SIZE, onblk := w / MAX_LRU_SIZE }
                  lru_size := MAX_LRU_SIZE }
                (source_size, split_slots s6)
            let s7 := r.2
            let s8 : Session :=
              if s7.sfile.size_known then { s7 with src_size := some r.1 }
              else { s7 with do_src_fifo := true }
            if s8.set_source_ret ≠ 0 then some (s8.set_source_ret, s8)
            else some (0, s8)

/-- Embedding of `main_lru_reset`. -/
def main_lru_reset (s : Session) : Session :=
  { s with lru_size := 0, do_src_fifo := false, lru_hits := 0, lru_misses := 0, lru_filled := 0 }

/-- A stream of `len` bytes with contents `c`, not yet opened: position and
offset at the start, no seek failure seen. -/
def fresh_file (c : Nat → Nat) (len : Nat) (open_ret stat_ret : Int)
    (seek_ret read_ret : Nat → Int) : main_file :=
  { size_known := false, seek_failed := false, source_position := 0,
    contents := c, length := len, offset := 0,
    open_ret := open_ret, stat_ret := stat_ret, seek_ret := seek_ret, read_ret := read_ret,
    nseek := 0, nread := 0 }

/-- The state before `main_set_source`: the globals as `main_lru_reset` leaves
them, window size `w`, memory `m`, file `f`. -/
def reset_session (w : Nat) (m : Nat → Nat) (f : main_file) : Session :=
  { allow_fake_source := false, option_srcwinsz := w, alloc_fails := false,
    set_source_ret := 0, src_size := none,
    lru_size := 0, lru := fun _ => ⟨0, 0, 0⟩, lru_list := [],
    do_src_fifo := false, lru_hits := 0, lru_misses := 0, lru_filled := 0,
    mem := m, sfile := f,
    source := { curblkno := 0, curblk := none, onblk := 0, blksize := 0, max_winsize := 0 } }

/-- The state `main_set_source` starts from in a session on a real source:
window `2^k`, no fake source, recency discipline, the file opens, memory is
available, the stream stands at its start and the first read succeeds. -/
structure Fresh (s : Session) (k : Nat) : Prop where
  hk : k ≤ 63
  hw : s.option_srcwinsz = 2 ^ k
  hfake : s.allow_fake_source = false
  hfifo : s.do_src_fifo = false
  hopen : s.sfile.open_ret = 0
  halloc : s.alloc_fails = false
  hpos : s.sfile.source_position = 0
  hoff : s.sfile.offset = 0
  hread : s.sfile.read_ret 0 = 0

/-- The recency list after the setup loop and the probe: slot 31 was popped
from the front and pushed to the back. -/
def rev31 : List Nat :=
  [30, 29, 28, 27, 26, 25, 24, 23, 22, 21, 20, 19, 18, 17, 16, 15, 14, 13, 12, 11, 10,
    9, 8, 7, 6, 5, 4, 3, 2, 1, 0, 31]

/-- Closed form of the state right after the probe `main_getblk_func (.., 0)`
inside `main_set_source` (proved equal to the run in `main_set_source_eq`). -/
def probed (s : Session) (w : Nat) : Session :=
  { s with
    option_srcwinsz := w
    lru_size := 1
    lru_list := rev31
    lru := fun j =>
      if j < 32 then
        ⟨w / 32 * j, if j = 31 then 0 else NOBLK, if j = 31 then min w s.sfile.length else 0⟩
      else ⟨0, 0, 0⟩
    lru_misses := s.lru_misses + 1
    lru_filled := s.lru_filled + 1
    mem := fun a =>
      if w / 32 * 31 ≤ a ∧ a < w / 32 * 31 + min w s.sfile.length then
        s.sfile.contents (a - w / 32 * 31)
      else s.mem a
    sfile := { s.sfile with
      size_known := decide (s.sfile.stat_ret = 0)
      source_position := min w s.sfile.length
      offset := min w s.sfile.length
      nread := s.sfile.nread + 1 }
    source := { curblkno := 0, curblk := some (w / 32 * 31), onblk := min w s.sfile.length,
                blksize := w, max_winsize := w } }

/-- Closed form of the state `main_set_source` returns from a `Fresh` state
(proved equal to the run in `main_set_source_eq`). -/
def configured (s : Session) (w : Nat) : Session :=
  if s.sfile.length < w then
    { probed s w with
      sfile := { (probed s w).sfile with size_known := true }
      src_size := some s.sfile.length }
  else
    { probed s w with
      lru_size := 32
      lru := fun j => if j < 32 then ⟨w / 32 * j, j, w / 32⟩ else ⟨0, 0, 0⟩
      source := { (probed s w).source with blksize := w / 32, onblk := w / 32 }
      src_size := if s.sfile.stat_ret = 0 then some s.sfile.length else s.src_size
      do_src_fifo := decide (s.sfile.stat_ret ≠ 0) }

/-- A regular file of `len` bytes (byte `i` is `i % 251`): stat and seek
succeed. -/
def regular_file (len : Nat) : main_file :=
  fresh_file (fun i => i % 251) len 0 0 (fun _ => 0) (fun _ => 0)

/-- A pipe carrying `len` bytes (byte `i` is `i % 251`): stat and seek fail. -/
def pipe_file (len : Nat) : main_file :=
  fresh_file (fun i => i % 251) len 0 1 (fun _ => 29) (fun _ => 0)

/-- Session about to be set up on a regular file of 10000 bytes, window 4096. -/
def demo_regular : Session := reset_session 4096 (fun _ => 0) (regular_file 10000)

/-- Session about to be set up on a regular file of 1000 bytes, window 4096. -/
def demo_small : Session := reset_session 4096 (fun _ => 0) (regular_file 1000)

/-- Session about to be set up on a pipe of 10000 bytes, window 4096. -/
def demo_pipe : Session := reset_session 4096 (fun _ => 0) (pipe_file 10000)

/-- Session about to be set up on a regular file of 1 MiB with the minimum
window of 512 KiB; memory initially holds the byte 255 everywhere. -/
def demo_large : Session := reset_session 524288 (fun _ => 255) (regular_file 1048576)

/-- What a caller of `main_getblk_func` sees: the result code, `curblkno`,
`onblk`, `curblk` and the byte found at address `a`. -/
def view (r : Option (Int × Session)) (a : Nat) : Option (Int × Nat × Nat × Option Nat × Nat) :=
  r.map (fun x => (x.1, x.2.source.curblkno, x.2.source.onblk, x.2.source.curblk, x.2.mem a))

/-- The counters after a call: result code, `lru_hits`, `lru_misses`,
`lru_filled`, number of seeks and number of reads so far. -/
def stats (r : Option (Int × Session)) : Option (Int × Nat × Nat × Nat × Nat × Nat) :=
  r.map (fun x => (x.1, x.2.lru_hits, x.2.lru_misses, x.2.lru_filled, x.2.sfile.nseek, x.2.sfile.nread))

/-- Two calls in a row: `main_getblk_func (a)` and then, on the state it
leaves, `main_getblk_func (b)`. -/
def twice (s : Session) (a b : Nat) : Option (Int × Session) :=
  (main_getblk_func s a).bind (fun r => main_getblk_func r.2 b)

/-- The configuration a call leaves alone: discipline, number of searched
slots, fake-source flag and block size. -/
def Cfg (s s1 : Session) : Prop :=
  s1.do_src_fifo = s.do_src_fifo ∧ s1.lru_size = s.lru_size ∧
    s1.allow_fake_source = s.allow_fake_source ∧ s1.source.blksize = s.source.blksize
/-- The state `main_getblk_func` returns on a cache hit in slot `b`. -/
def hit_state (s1 : Session) (b blkno : Nat) : Session :=
  { s1 with
    source := { s1.source with curblkno := blkno, onblk := (s1.lru b).size, curblk := some (s1.lru b).blk }
    lru_hits := s1.lru_hits + 1 }

/-- The repositioning part of `main_getblk_func` (source lines 479-493): when
the position is wrong, `main_read_seek_source` and then the second lookup;
yields the result code, the slot to fill and the state. -/
def getblk_locate (s2 : Session) (b blkno pos : Nat) : Option (Int × Nat × Session) :=
  if pos ≠ s2.sfile.source_position then
    match main_read_seek_source s2 blkno with
    | none => none
    | some (ret1, s3) =>
      if ret1 ≠ 0 then some (ret1, b, s3)
      else
        match main_getblk_lru s3 blkno with
        | none => none
        | some (ret2, b2, _, s4) => some (ret2, b2, s4)
  else some (0, b, s2)

/-- The final part of `main_getblk_func` (source lines 497-543): read the
block into slot `b3` and publish it. -/
def getblk_fill (s5 : Session) (b3 blkno pos : Nat) : Int × Session :=
  match main_read_primary_input s5 (s5.lru b3).blk s5.source.blksize with
  | (rret, nread, s6) =>
    if rret ≠ 0 then (rret, s6)
    else
      let s7 := set_position s6 ((pos + nread) % XOFF)
      let s8 := { s7 with
        source := { s7.source with curblk := some (s7.lru b3).blk, curblkno := blkno, onblk := nread } }
      (0, set_blkno (set_size s8 b3 nread) b3 blkno)

/-- A sequence of `main_getblk_func` calls, one per index of the list, each
on the state the previous one left, whatever it returned. -/
def run_calls : Session → List Nat → Option Session
  | s, [] => some s
  | s, b :: bs =>
    match main_getblk_func s b with
    | none => none
    | some (_, s1) => run_calls s1 bs

/-- The three `XD3_ASSERT`s of one iteration of the skip loop of
`main_read_seek_source` (source lines 389-402), evaluated in state `s` for the
target `pos`: `pos - source_position >= blksize`, `skip_offset == 0`, and
`is_new` after the lookup of `skip_blkno`. -/
def skip_asserts (s : Session) (pos : Nat) : Option (Bool × Bool × Bool) :=
  let skip_blkno := s.sfile.source_position / s.source.blksize
  let skip_offset := s.sfile.source_position % s.source.blksize
  (main_getblk_lru s skip_blkno).map (fun r =>
    (decide (pos - s.sfile.source_position ≥ s.source.blksize), decide (skip_offset = 0), r.2.2.1))

/-- Invariant of a session on a real source with block size `B`: the block
size is positive and divides `2^64`, the stream length fits `xoff_t`, the
recorded position does not exceed the stream's offset, and the position is a
multiple of the block size unless the stream is at its end. -/
def GInv (B : Nat) (s : Session) : Prop :=
  s.allow_fake_source = false ∧ s.source.blksize = B ∧ 0 < B ∧ B ∣ XOFF ∧
    s.sfile.length < XOFF ∧ s.sfile.source_position ≤ s.sfile.offset ∧
    (B ∣ s.sfile.source_position ∨ s.sfile.length ≤ s.sfile.offset)

/-- The lookup can return: a slot count to divide by in the forward
discipline, a slot to pop in the recency discipline. -/
def Live (s : Session) : Prop :=
  if s.do_src_fifo then s.lru_size ≠ 0 else s.lru_list ≠ []

/-- Forward discipline: no read reports `XD3_TOOFARBACK`, and every searched
slot is empty or holds a block that starts at or before the position. -/
def FA (B : Nat) (s : Session) : Prop :=
  s.do_src_fifo = true ∧ (∀ p, s.sfile.read_ret p ≠ XD3_TOOFARBACK) ∧
    ∀ i, i < s.lru_size → (s.lru i).blkno = NOBLK ∨ (s.lru i).blkno * B ≤ s.sfile.source_position

/-- Forward discipline: every block from `m` on that starts before the
position is resident in its slot. -/
def Res (B m : Nat) (s : Session) : Prop :=
  ∀ c, m ≤ c → c * B < s.sfile.source_position → (s.lru (c % s.lru_size)).blkno = c

/-- The result codes of a sequence of `main_getblk_func` calls, one per index
of the list, each on the state the previous one left. -/
def run_codes : Session → List Nat → Option (List Int)
  | _, [] => some []
  | s, b :: bs =>
    match main_getblk_func s b with
    | none => none
    | some (r, s1) => (run_codes s1 bs).map (fun rs => r :: rs)

/-- The skip loop read the `n` blocks `c, c+1, ..., c+n-1` one after the
other, leading from state `s` to state `s1`: for each block the position is
at its start, `main_getblk_lru` is asked for the block and returns 0 with a
slot, the read into that slot succeeds with exactly `B` bytes, and the
iteration leaves that slot with `blkno` the block, `size = B` and the position
at the start of the next block. -/
def SkipChain (B : Nat) : Nat → Nat → Session → Session → Prop
  | 0, _, s, s1 => s1 = s
  | n + 1, c, s, s1 =>
    ∃ b is_new u v t,
      s.sfile.source_position = c * B ∧
      main_getblk_lru s c = some (0, b, is_new, u) ∧
      main_read_primary_input (set_blkno u b c) ((set_blkno u b c).lru b).blk B = (0, B, v) ∧
      t = set_size (set_position v ((c + 1) * B)) b B ∧
      (t.lru b).blkno = c ∧ (t.lru b).size = B ∧
      t.sfile.source_position = (c + 1) * B ∧
      t.sfile.nread = s.sfile.nread + 1 ∧
      SkipChain B n (c + 1) t s1

/-- Invariant of a session in the recency discipline on a regular file of `L`
bytes with block size `B`: seeking and reading always succeed, the recorded
position is the stream's offset, and every searched slot that holds a block
has as `size` the number of bytes the file has in that block. -/
def RInv (L B : Nat) (s : Session) : Prop :=
  s.allow_fake_source = false ∧ s.do_src_fifo = false ∧ s.lru_list ≠ [] ∧
    s.source.blksize = B ∧ s.sfile.length = L ∧ L < XOFF ∧
    s.sfile.seek_failed = false ∧ (∀ p, s.sfile.seek_ret p = 0) ∧
    (∀ p, s.sfile.read_ret p = 0) ∧
    s.sfile.source_position = s.sfile.offset ∧
    ∀ i, i < s.lru_size → (s.lru i).blkno ≠ NOBLK →
      (s.lru i).size = min B (L - (s.lru i).blkno * B)

/-- Session about to be set up on a regular file of 20000 bytes, window 4096. -/
def demo_mid : Session := reset_session 4096 (fun _ => 0) (regular_file 20000)

/-- Session about to be set up on a regular file of 4 MiB with the window of
512 KiB. -/
def demo_wide : Session := reset_session 524288 (fun _ => 0) (regular_file 4194304)

/-- Session about to be set up on a pipe of 4 MiB with the window of 512 KiB. -/
def demo_wide_pipe : Session := reset_session 524288 (fun _ => 0) (pipe_file 4194304)

theorem pow2_loop_pow (f k j : Nat) (hjk : j ≤ k) (hf : k - j ≤ f) :
    pow2_loop f (2 ^ k) (2 ^ j) = 2 ^ k := by
  induction f generalizing j with
  | zero =>
    have : j = k := by omega
    subst this; rfl
  | succ f ih =>
    unfold pow2_loop
    by_cases h : j = k
    · subst h; simp
    · have hlt : j < k := by omega
      have : 2 ^ j < 2 ^ k := Nat.pow_lt_pow_right (by norm_num) hlt
      rw [if_pos this]
      have e : 2 * 2 ^ j = 2 ^ (j + 1) := by rw [pow_succ]; ring
      rw [e]
      exact ih (j + 1) (by omega) (by omega)

theorem xd3_pow2_roundup_pow (k : Nat) (hk : k ≤ 64) : xd3_pow2_roundup (2 ^ k) = 2 ^ k := by
  have := pow2_loop_pow 64 k 0 (by omega) (by omega)
  simpa [xd3_pow2_roundup] using this

theorem setup_loop_eq (w n : Nat) (s : Session) :
    setup_loop w n s =
      { s with
        lru := fun j => if j < n then ⟨(w / MAX_LRU_SIZE) * j, NOBLK, 0⟩ else s.lru j
        lru_list := s.lru_list ++ (List.range n).reverse } := by
  induction n generalizing s with
  | zero => simp [setup_loop]
  | succ n ih =>
    rw [setup_loop, ih]
    simp only [List.range_succ, List.reverse_append, List.reverse_cons, List.reverse_nil,
      List.nil_append, List.append_assoc, List.singleton_append]
    congr 1
    funext j
    by_cases h1 : j < n
    · simp [h1, Nat.lt_succ_of_lt h1]
    · by_cases h2 : j = n
      · simp [h2]
      · have : ¬ j < n + 1 := by omega
        simp [h1, h2, this]

theorem range32_reverse : (List.range 32).reverse =
    [31, 30, 29, 28, 27, 26, 25, 24, 23, 22, 21, 20, 19, 18, 17, 16, 15, 14, 13, 12, 11, 10,
      9, 8, 7, 6, 5, 4, 3, 2, 1, 0] := by decide

theorem ite_ret (r : Int) (X : Session) :
    (if r = 0 then some ((0 : Int), X) else some (r, X)) = some (r, X) := by
  split
  · next h => rw [h]
  · rfl

theorem pow2_lt_xoff (k : Nat) (hk : k ≤ 63) : 2 ^ k < 18446744073709551616 :=
  lt_of_lt_of_le (Nat.pow_lt_pow_right (by norm_num) (by omega : k < 64)) (by norm_num)

/-- From a `Fresh` state `main_set_source` returns what `xd3_set_source` /
`xd3_set_source_and_size` returns, in the state `configured`. -/
theorem main_set_source_eq (s : Session) (k : Nat) (h : Fresh s k) :
    main_set_source s = some (s.set_source_ret, configured s (2 ^ k)) := by
  obtain ⟨hk, hw, hfake, hfifo, hopen, halloc, hpos, hoff, hread⟩ := h
  have hW : xd3_pow2_roundup (2 ^ k) = 2 ^ k := xd3_pow2_roundup_pow k (by omega)
  have hWlt : 2 ^ k < 18446744073709551616 := pow2_lt_xoff k hk
  by_cases hL : s.sfile.length < 2 ^ k
  · have hm : min (2 ^ k) s.sfile.length = s.sfile.length := min_eq_right (le_of_lt hL)
    have hm2 : s.sfile.length % 18446744073709551616 = s.sfile.length :=
      Nat.mod_eq_of_lt (lt_trans hL hWlt)
    simp [main_set_source, hfake, hopen, hw, hW, halloc, setup_loop_eq, MAX_LRU_SIZE,
      range32_reverse, main_getblk_func, main_getblk_lru, hfifo, lru_search, set_blkno,
      NOBLK, main_read_primary_input, hpos, hoff, hread, XOFF, set_position, set_size,
      List.range_succ, hL, hm, hm2, configured, probed, rev31, ite_ret]
    funext j
    by_cases h31 : j = 31
    · simp [h31]
    · by_cases hj : j < 32 <;> simp [h31, hj]
  · have hL2 : 2 ^ k ≤ s.sfile.length := not_lt.mp hL
    have hm : min (2 ^ k) s.sfile.length = 2 ^ k := min_eq_left hL2
    have hm2 : 2 ^ k % 18446744073709551616 = 2 ^ k := Nat.mod_eq_of_lt hWlt
    by_cases hst : s.sfile.stat_ret = 0
    · simp [main_set_source, hfake, hopen, hw, hW, halloc, setup_loop_eq, MAX_LRU_SIZE,
        range32_reverse, main_getblk_func, main_getblk_lru, hfifo, lru_search, set_blkno,
        NOBLK, main_read_primary_input, hpos, hoff, hread, XOFF, set_position, set_size,
        List.range_succ, hL, hm, hm2, configured, probed, rev31, hst, split_slots, ite_ret]
      funext j
      by_cases h31 : j = 31
      · simp [h31]
      · by_cases hj : j < 32 <;> simp [h31, hj]
    · simp [main_set_source, hfake, hopen, hw, hW, halloc, setup_loop_eq, MAX_LRU_SIZE,
        range32_reverse, main_getblk_func, main_getblk_lru, hfifo, lru_search, set_blkno,
        NOBLK, main_read_primary_input, hpos, hoff, hread, XOFF, set_position, set_size,
        List.range_succ, hL, hm, hm2, configured, probed, rev31, hst, split_slots, ite_ret]
      funext j
      by_cases h31 : j = 31
      · simp [h31]
      · by_cases hj : j < 32 <;> simp [h31, hj]

theorem fresh_demo_regular : Fresh demo_regular 12 :=
  ⟨by decide, rfl, rfl, rfl, rfl, rfl, rfl, rfl, rfl⟩

theorem fresh_demo_small : Fresh demo_small 12 :=
  ⟨by decide, rfl, rfl, rfl, rfl, rfl, rfl, rfl, rfl⟩

theorem fresh_demo_pipe : Fresh demo_pipe 12 :=
  ⟨by decide, rfl, rfl, rfl, rfl, rfl, rfl, rfl, rfl⟩

/-- C2: window-mode selection. From a fresh state with window `2^k` and a
successful probe read, `main_set_source` returns; if the source is shorter than
the window then `lru_size = 1`, the block size is the window, the size is known
and the size passed on is the source length; if the source is at least as long
as the window then `lru_size = 32`, the block size is a 32nd of the window and
every slot has that size. -/
theorem C2_window_mode_selection (s : Session) (k : Nat) (h : Fresh s k) :
    ∃ s1, main_set_source s = some (s.set_source_ret, s1) ∧
      (s.sfile.length < 2 ^ k →
        s1.lru_size = 1 ∧ s1.source.blksize = 2 ^ k ∧ s1.sfile.size_known = true ∧
          s1.src_size = some s.sfile.length) ∧
      (2 ^ k ≤ s.sfile.length →
        s1.lru_size = MAX_LRU_SIZE ∧ s1.source.blksize = 2 ^ k / MAX_LRU_SIZE ∧
          ∀ i, i < MAX_LRU_SIZE → (s1.lru i).size = 2 ^ k / MAX_LRU_SIZE) := by
  refine ⟨configured s (2 ^ k), main_set_source_eq s k h, ?_, ?_⟩
  · intro hL
    simp [configured, hL, probed]
  · intro hL
    have hL2 : ¬ s.sfile.length < 2 ^ k := not_lt.mpr hL
    refine ⟨?_, ?_, ?_⟩
    · simp [configured, hL2, MAX_LRU_SIZE]
    · simp [configured, hL2, MAX_LRU_SIZE]
    · intro i hi
      have hi2 : i < 32 := hi
      simp [configured, hL2, MAX_LRU_SIZE, hi2]

/-- Witness of C2 on a regular file of 10000 bytes with window 4096. -/
theorem C2_window_mode_selection_witness :
    Fresh demo_regular 12 ∧
    ∃ s1, main_set_source demo_regular = some (demo_regular.set_source_ret, s1) ∧
      (demo_regular.sfile.length < 2 ^ 12 →
        s1.lru_size = 1 ∧ s1.source.blksize = 2 ^ 12 ∧ s1.sfile.size_known = true ∧
          s1.src_size = some demo_regular.sfile.length) ∧
      (2 ^ 12 ≤ demo_regular.sfile.length →
        s1.lru_size = MAX_LRU_SIZE ∧ s1.source.blksize = 2 ^ 12 / MAX_LRU_SIZE ∧
          ∀ i, i < MAX_LRU_SIZE → (s1.lru i).size = 2 ^ 12 / MAX_LRU_SIZE) :=
  ⟨fresh_demo_regular, C2_window_mode_selection demo_regular 12 fresh_demo_regular⟩

/-- C3: policy selection. Starting with `do_src_fifo = 0` on a stream standing
at its start, whenever `main_set_source` returns 0 the forward discipline is
active exactly when the source is real, `main_file_stat` failed and the probe
read filled the whole window (the source has at least `2^k` bytes), which is
exactly when the size is not known; in every other case `do_src_fifo` is
still 0. -/
theorem C3_policy_selection (s s1 : Session) (k : Nat) (hk : k ≤ 63)
    (hw : s.option_srcwinsz = 2 ^ k) (hfifo : s.do_src_fifo = false)
    (hpos : s.sfile.source_position = 0) (hoff : s.sfile.offset = 0)
    (hret : main_set_source s = some (0, s1)) :
    (s1.do_src_fifo = true ↔
      (s.allow_fake_source = false ∧ s.sfile.stat_ret ≠ 0 ∧ 2 ^ k ≤ s.sfile.length)) ∧
    (s1.do_src_fifo = true ↔ s1.sfile.size_known = false) := by
  have hW : xd3_pow2_roundup (2 ^ k) = 2 ^ k := xd3_pow2_roundup_pow k (by omega)
  have hWpos : 0 < 2 ^ k := Nat.pos_pow_of_pos k (by norm_num)
  by_cases hfake : s.allow_fake_source = true
  · by_cases hal : s.alloc_fails = true
    · simp [main_set_source, hfake, hal, ENOMEM] at hret
    · simp [main_set_source, hfake, hal, hw, hW, main_getblk_func, set_size, hWpos,
        setup_loop_eq] at hret
      split at hret
      · simp at hret
        subst hret
        simp [hfake, hfifo]
      · rename_i h0
        simp at hret
        exact absurd hret.1 h0
  · have hfake2 : s.allow_fake_source = false := by simpa using hfake
    by_cases hopen : s.sfile.open_ret = 0
    · by_cases hal : s.alloc_fails = false
      · by_cases hread : s.sfile.read_ret 0 = 0
        · have hF : Fresh s k := ⟨hk, hw, hfake2, hfifo, hopen, hal, hpos, hoff, hread⟩
          rw [main_set_source_eq s k hF] at hret
          simp at hret
          obtain ⟨_, hs1⟩ := hret
          subst hs1
          by_cases hL : s.sfile.length < 2 ^ k
          · simp [configured, hL, probed, hfifo, hfake2]
          · simp [configured, hL, probed, hfifo, hfake2, not_lt.mp hL]
        · exfalso
          simp [main_set_source, hfake2, hopen, hw, hW, hal, setup_loop_eq, MAX_LRU_SIZE,
            range32_reverse, main_getblk_func, main_getblk_lru, hfifo, lru_search, set_blkno,
            NOBLK, main_read_primary_input, hpos, hoff, hread, XOFF, set_position, set_size,
            List.range_succ] at hret
      · simp [main_set_source, hfake2, hopen, hal, ENOMEM] at hret
    · simp [main_set_source, hfake2, hopen] at hret

/-- Witness of C3 on a pipe of 10000 bytes with window 4096: setup succeeds. -/
theorem C3_policy_selection_witness :
    main_set_source demo_pipe = some (0, configured demo_pipe (2 ^ 12)) ∧
    (((configured demo_pipe (2 ^ 12)).do_src_fifo = true ↔
      (demo_pipe.allow_fake_source = false ∧ demo_pipe.sfile.stat_ret ≠ 0 ∧
        2 ^ 12 ≤ demo_pipe.sfile.length)) ∧
    ((configured demo_pipe (2 ^ 12)).do_src_fifo = true ↔
      (configured demo_pipe (2 ^ 12)).sfile.size_known = false)) :=
  ⟨main_set_source_eq demo_pipe 12 fresh_demo_pipe,
    C3_policy_selection demo_pipe (configured demo_pipe (2 ^ 12)) 12 (by decide) rfl rfl rfl rfl
      (main_set_source_eq demo_pipe 12 fresh_demo_pipe)⟩

theorem fresh_demo_large : Fresh demo_large 19 :=
  ⟨by decide, rfl, rfl, rfl, rfl, rfl, rfl, rfl, rfl⟩

/-- C1 (the code at the failing input): on a regular file of 1 MiB with window
512 KiB (split mode, block size 16384) the set-up succeeds; then
`main_getblk_func (31)` returns 0 with `curblkno = 31`, `onblk = 16384` and
`curblk` at address 507904, whose first byte is source byte 0 (value 0), not
source byte `31 * 16384` (value 131); and `main_getblk_func (0)` returns 0 with
`curblk` at address 0, whose first byte is the initial memory content 255, not
source byte 0. -/
theorem C1_split_mode_serves_foreign_data :
    main_set_source demo_large = some (0, configured demo_large (2 ^ 19)) ∧
    view (main_getblk_func (configured demo_large (2 ^ 19)) 31) 507904
      = some (0, 31, 16384, some 507904, 0) ∧
    demo_large.sfile.contents 0 = 0 ∧
    demo_large.sfile.contents (31 * 16384) = 131 ∧
    view (main_getblk_func (configured demo_large (2 ^ 19)) 0) 0
      = some (0, 0, 16384, some 0, 255) :=
  ⟨main_set_source_eq demo_large 19 fresh_demo_large, by decide, by decide, by decide, by decide⟩

/-- C4 (the code at the failing input): on a regular file of 1000 bytes with
window 4096 (single-slot mode) the set-up succeeds with one miss, one fill and
one read; `main_getblk_func (0)` then returns 0 as a miss, and the immediately
following second `main_getblk_func (0)` returns 0 as a miss again: `lru_hits`
stays 0, `lru_misses` goes from 2 to 3, `lru_filled` from 3 to 5, and one more
seek and one more read are performed. -/
theorem C4_second_call_is_a_miss :
    main_set_source demo_small = some (0, configured demo_small (2 ^ 12)) ∧
    stats (some (0, configured demo_small (2 ^ 12))) = some (0, 0, 1, 1, 0, 1) ∧
    stats (main_getblk_func (configured demo_small (2 ^ 12)) 0) = some (0, 0, 2, 3, 1, 2) ∧
    stats (twice (configured demo_small (2 ^ 12)) 0 0) = some (0, 0, 3, 5, 2, 3) :=
  ⟨main_set_source_eq demo_small 12 fresh_demo_small, by decide, by decide, by decide⟩

theorem lru_search_some {s : Session} {b i : Nat} (h : lru_search s b = some i) :
    i < s.lru_size ∧ (s.lru i).blkno = b := by
  unfold lru_search at h
  have h1 := List.mem_of_find?_eq_some h
  have h2 := List.find?_some h
  exact ⟨List.mem_range.mp h1, by simpa using h2⟩

theorem lru_search_none {s : Session} {b : Nat} :
    lru_search s b = none ↔ ∀ j, j < s.lru_size → (s.lru j).blkno ≠ b := by
  unfold lru_search
  rw [List.find?_eq_none]
  constructor
  · intro h j hj
    simpa using h j (List.mem_range.mpr hj)
  · intro h j hj
    simpa using h j (List.mem_range.mp hj)

/-- Recency discipline, hit: the slot found by the search is returned, no slot
changes, the slot moves to the back of the list. -/
theorem lru_hit (s : Session) (b i : Nat) (hfifo : s.do_src_fifo = false)
    (h : lru_search s b = some i) :
    main_getblk_lru s b = some (0, i, false, { s with lru_list := s.lru_list.erase i ++ [i] }) := by
  simp [main_getblk_lru, hfifo, h]

/-- Recency discipline, miss: the head of the list is returned as new, marked
empty and moved to the back. -/
theorem lru_miss (s : Session) (b f : Nat) (rest : List Nat) (hfifo : s.do_src_fifo = false)
    (h : lru_search s b = none) (hl : s.lru_list = f :: rest) :
    main_getblk_lru s b = some (0, f, true,
      set_blkno { s with lru_list := rest ++ [f], lru_filled := s.lru_filled + 1 } f NOBLK) := by
  simp [main_getblk_lru, hfifo, h, hl]

theorem cfg_refl (s : Session) : Cfg s s := ⟨rfl, rfl, rfl, rfl⟩

theorem cfg_trans {a b c : Session} (h1 : Cfg a b) (h2 : Cfg b c) : Cfg a c :=
  ⟨h2.1.trans h1.1, h2.2.1.trans h1.2.1, h2.2.2.1.trans h1.2.2.1, h2.2.2.2.trans h1.2.2.2⟩

/-- The lookup touches only the slots' `blkno`, the list and `lru_filled`. -/
theorem lru_frame {s s1 : Session} {b i : Nat} {r : Int} {n : Bool}
    (h : main_getblk_lru s b = some (r, i, n, s1)) :
    Cfg s s1 ∧ s1.sfile = s.sfile ∧ s1.mem = s.mem ∧ s1.source = s.source ∧
      (∀ j, (s1.lru j).blk = (s.lru j).blk) := by
  unfold main_getblk_lru at h
  split at h
  · split at h
    · exact absurd h (by simp)
    · simp only at h
      split at h
      · simp only [Option.some.injEq, Prod.mk.injEq] at h
        obtain ⟨_, _, _, rfl⟩ := h
        exact ⟨cfg_refl _, rfl, rfl, rfl, fun _ => rfl⟩
      · split at h
        · simp only [Option.some.injEq, Prod.mk.injEq] at h
          obtain ⟨_, _, _, rfl⟩ := h
          exact ⟨cfg_refl _, rfl, rfl, rfl, fun _ => rfl⟩
        · simp only [Option.some.injEq, Prod.mk.injEq] at h
          obtain ⟨_, _, _, rfl⟩ := h
          refine ⟨⟨rfl, rfl, rfl, rfl⟩, rfl, rfl, rfl, fun j => ?_⟩
          simp only [set_blkno]
          split
          · next e => rw [e]
          · rfl
  · split at h
    · simp only [Option.some.injEq, Prod.mk.injEq] at h
      obtain ⟨_, _, _, rfl⟩ := h
      exact ⟨cfg_refl _, rfl, rfl, rfl, fun _ => rfl⟩
    · split at h
      · exact absurd h (by simp)
      · simp only [Option.some.injEq, Prod.mk.injEq] at h
        obtain ⟨_, _, _, rfl⟩ := h
        refine ⟨⟨rfl, rfl, rfl, rfl⟩, rfl, rfl, rfl, fun j => ?_⟩
        simp only [set_blkno]
        split
        · next e => rw [e]
        · rfl

/-- A read touches only the memory, the stream offset and the read counter. -/
theorem read_frame {s s1 : Session} {buf sz n : Nat} {r : Int}
    (h : main_read_primary_input s buf sz = (r, n, s1)) :
    Cfg s s1 ∧ s1.lru = s.lru ∧ s1.lru_list = s.lru_list ∧ s1.lru_filled = s.lru_filled ∧
      s1.sfile.seek_failed = s.sfile.seek_failed ∧ s1.sfile.nseek = s.sfile.nseek ∧
      s1.sfile.source_position = s.sfile.source_position ∧ s1.source = s.source := by
  unfold main_read_primary_input at h
  simp only at h
  split at h
  · simp only [Prod.mk.injEq] at h
    obtain ⟨_, _, rfl⟩ := h
    exact ⟨⟨rfl, rfl, rfl, rfl⟩, rfl, rfl, rfl, rfl, rfl, rfl, rfl⟩
  · simp only [Prod.mk.injEq] at h
    obtain ⟨_, _, rfl⟩ := h
    exact ⟨⟨rfl, rfl, rfl, rfl⟩, rfl, rfl, rfl, rfl, rfl, rfl, rfl⟩
theorem set_blkno_cfg (s : Session) (i b : Nat) : Cfg s (set_blkno s i b) := ⟨rfl, rfl, rfl, rfl⟩

/-- The skip loop leaves the configuration alone, never calls
`main_file_seek` and never touches `seek_failed`. -/
theorem skip_frame : ∀ (fuel : Nat) (s : Session) (pos : Nat) (r : Int) (s1 : Session),
    skip_loop fuel s pos = some (r, s1) →
    Cfg s s1 ∧ s1.sfile.seek_failed = s.sfile.seek_failed ∧ s1.sfile.nseek = s.sfile.nseek := by
  intro fuel
  induction fuel with
  | zero =>
    intro s pos r s1 h
    simp only [skip_loop] at h
    split at h
    · exact absurd h (by simp)
    · simp only [Option.some.injEq, Prod.mk.injEq] at h
      obtain ⟨_, rfl⟩ := h
      exact ⟨cfg_refl _, rfl, rfl⟩
  | succ fuel ih =>
    intro s pos r s1 h
    simp only [skip_loop] at h
    split at h
    · cases hl : main_getblk_lru s (s.sfile.source_position / s.source.blksize) with
      | none => rw [hl] at h; exact absurd h (by simp)
      | some x =>
        obtain ⟨ret, b, n, t⟩ := x
        rw [hl] at h
        simp only at h
        obtain ⟨hc, hsf, -, -, -⟩ := lru_frame hl
        split at h
        · simp only [Option.some.injEq, Prod.mk.injEq] at h
          obtain ⟨_, rfl⟩ := h
          exact ⟨hc, by rw [hsf], by rw [hsf]⟩
        · cases hr : main_read_primary_input
              (set_blkno t b (s.sfile.source_position / s.source.blksize))
              ((set_blkno t b (s.sfile.source_position / s.source.blksize)).lru b).blk
              (set_blkno t b (s.sfile.source_position / s.source.blksize)).source.blksize with
          | mk rret y =>
            obtain ⟨nread, u⟩ := y
            rw [hr] at h
            simp only at h
            obtain ⟨hc2, -, -, -, hsf2, hns2, -, -⟩ := read_frame hr
            have hcu : Cfg s u := cfg_trans hc (cfg_trans (set_blkno_cfg _ _ _) hc2)
            have hsfu : u.sfile.seek_failed = s.sfile.seek_failed := by
              rw [hsf2]; show t.sfile.seek_failed = _; rw [hsf]
            have hnsu : u.sfile.nseek = s.sfile.nseek := by
              rw [hns2]; show t.sfile.nseek = _; rw [hsf]
            split at h
            · simp only [Option.some.injEq, Prod.mk.injEq] at h
              obtain ⟨_, rfl⟩ := h
              exact ⟨hcu, hsfu, hnsu⟩
            · split at h
              · simp only [Option.some.injEq, Prod.mk.injEq] at h
                obtain ⟨_, rfl⟩ := h
                exact ⟨hcu, hsfu, hnsu⟩
              · obtain ⟨hc3, hsf3, hns3⟩ := ih _ _ _ _ h
                exact ⟨cfg_trans hcu hc3, hsf3.trans hsfu, hns3.trans hnsu⟩
    · simp only [Option.some.injEq, Prod.mk.injEq] at h
      obtain ⟨_, rfl⟩ := h
      exact ⟨cfg_refl _, rfl, rfl⟩
/-- Repositioning leaves the configuration alone; once `seek_failed` is set it
stays set and `main_file_seek` is not called. -/
theorem seek_frame {s s1 : Session} {blkno : Nat} {r : Int}
    (h : main_read_seek_source s blkno = some (r, s1)) :
    Cfg s s1 ∧ (s.sfile.seek_failed = true →
      s1.sfile.seek_failed = true ∧ s1.sfile.nseek = s.sfile.nseek) := by
  unfold main_read_seek_source at h
  cases hsf : s.sfile.seek_failed with
  | true =>
    simp only [hsf, Bool.not_true, Bool.false_eq_true, if_false, true_or, if_true] at h
    split at h
    · simp only [Option.some.injEq, Prod.mk.injEq] at h
      obtain ⟨_, rfl⟩ := h
      exact ⟨⟨rfl, rfl, rfl, rfl⟩, fun _ => ⟨rfl, rfl⟩⟩
    · obtain ⟨hc, h1, h2⟩ := skip_frame _ _ _ _ _ h
      exact ⟨hc, fun _ => ⟨h1, h2⟩⟩
  | false =>
    refine ⟨?_, fun e => absurd e (by simp)⟩
    simp only [hsf, Bool.not_false, if_true, main_file_seek] at h
    by_cases hk : s.sfile.seek_ret (blkno * s.source.blksize % XOFF) = 0
    · simp only [hk, if_true, hsf, Bool.false_eq_true, ne_eq, not_true_eq_false, or_self,
        if_false, Option.some.injEq, Prod.mk.injEq] at h
      obtain ⟨_, rfl⟩ := h
      exact ⟨rfl, rfl, rfl, rfl⟩
    · simp only [hk, if_false, hsf, Bool.false_eq_true, ne_eq, not_false_eq_true, or_true,
        if_true] at h
      split at h
      · simp only [Option.some.injEq, Prod.mk.injEq] at h
        obtain ⟨_, rfl⟩ := h
        exact ⟨rfl, rfl, rfl, rfl⟩
      · exact (skip_frame _ _ _ _ _ h).1
theorem fill_eq (s5 : Session) (b3 blkno pos : Nat) :
    (match main_read_primary_input s5 (s5.lru b3).blk s5.source.blksize with
      | (rret, nread, s6) =>
        if rret ≠ 0 then some (rret, s6)
        else
          some ((0 : Int), set_blkno (set_size
            { set_position s6 ((pos + nread) % XOFF) with
              source := { (set_position s6 ((pos + nread) % XOFF)).source with
                curblk := some ((set_position s6 ((pos + nread) % XOFF)).lru b3).blk,
                curblkno := blkno, onblk := nread } } b3 nread) b3 blkno))
      = some (getblk_fill s5 b3 blkno pos) := by
  unfold getblk_fill
  split
  split <;> rfl

/-- The function `main_getblk_func` on a real source, in terms of its parts. -/
theorem main_getblk_func_eq (s : Session) (blkno : Nat) (hfake : s.allow_fake_source = false) :
    main_getblk_func s blkno =
      match main_getblk_lru s blkno with
      | none => none
      | some (ret, b, is_new, s1) =>
        if ret ≠ 0 then some (ret, s1)
        else if !is_new then some (0, hit_state s1 b blkno)
        else
          match getblk_locate { s1 with lru_misses := s1.lru_misses + 1 } b blkno
              ((blkno * s.source.blksize) % XOFF) with
          | none => none
          | some (ret3, b3, s5) =>
            if ret3 ≠ 0 then some (ret3, s5)
            else some (getblk_fill s5 b3 blkno ((blkno * s.source.blksize) % XOFF)) := by
  simp only [main_getblk_func, hfake, Bool.false_eq_true, if_false]
  cases main_getblk_lru s blkno with
  | none => rfl
  | some x =>
    obtain ⟨ret, b, is_new, s1⟩ := x
    simp only
    split
    · rfl
    · split
      · rfl
      · change (match getblk_locate { s1 with lru_misses := s1.lru_misses + 1 } b blkno
              ((blkno * s.source.blksize) % XOFF) with
          | none => none
          | some (ret3, b3, s5) =>
            if ret3 ≠ 0 then some (ret3, s5)
            else
              match main_read_primary_input s5 (s5.lru b3).blk s5.source.blksize with
              | (rret, nread, s6) =>
                if rret ≠ 0 then some (rret, s6)
                else
                  some ((0 : Int), set_blkno (set_size
                    { set_position s6 ((blkno * s.source.blksize % XOFF + nread) % XOFF) with
                      source := { (set_position s6 ((blkno * s.source.blksize % XOFF + nread) % XOFF)).source with
                        curblk := some ((set_position s6 ((blkno * s.source.blksize % XOFF + nread) % XOFF)).lru b3).blk,
                        curblkno := blkno, onblk := nread } } b3 nread) b3 blkno)) = _
        cases getblk_locate { s1 with lru_misses := s1.lru_misses + 1 } b blkno
              ((blkno * s.source.blksize) % XOFF) with
        | none => rfl
        | some y =>
          obtain ⟨ret3, b3, s5⟩ := y
          simp only
          split
          · rfl
          · exact fill_eq s5 b3 blkno _

theorem locate_frame {s2 s5 : Session} {b blkno pos b3 : Nat} {r : Int}
    (h : getblk_locate s2 b blkno pos = some (r, b3, s5)) :
    Cfg s2 s5 ∧ (s2.sfile.seek_failed = true →
      s5.sfile.seek_failed = true ∧ s5.sfile.nseek = s2.sfile.nseek) := by
  unfold getblk_locate at h
  split at h
  · cases hs : main_read_seek_source s2 blkno with
    | none => rw [hs] at h; exact absurd h (by simp)
    | some x =>
      obtain ⟨ret1, s3⟩ := x
      rw [hs] at h
      simp only at h
      obtain ⟨hc, hsf⟩ := seek_frame hs
      split at h
      · simp only [Option.some.injEq, Prod.mk.injEq] at h
        obtain ⟨_, _, rfl⟩ := h
        exact ⟨hc, hsf⟩
      · cases hl : main_getblk_lru s3 blkno with
        | none => rw [hl] at h; exact absurd h (by simp)
        | some y =>
          obtain ⟨ret2, b2, n, s4⟩ := y
          rw [hl] at h
          simp only [Option.some.injEq, Prod.mk.injEq] at h
          obtain ⟨_, _, rfl⟩ := h
          obtain ⟨hc2, hf2, -, -, -⟩ := lru_frame hl
          refine ⟨cfg_trans hc hc2, fun e => ?_⟩
          rw [hf2]
          exact hsf e
  · simp only [Option.some.injEq, Prod.mk.injEq] at h
    obtain ⟨_, _, rfl⟩ := h
    exact ⟨cfg_refl _, fun e => ⟨e, rfl⟩⟩

theorem fill_frame {s5 s1 : Session} {b3 blkno pos : Nat} {r : Int}
    (h : getblk_fill s5 b3 blkno pos = (r, s1)) :
    Cfg s5 s1 ∧ s1.sfile.seek_failed = s5.sfile.seek_failed ∧ s1.sfile.nseek = s5.sfile.nseek ∧
      (r = 0 → (s1.lru b3).blkno = blkno) := by
  unfold getblk_fill at h
  cases hr : main_read_primary_input s5 (s5.lru b3).blk s5.source.blksize with
  | mk rret y =>
    obtain ⟨nread, s6⟩ := y
    rw [hr] at h
    simp only at h
    obtain ⟨hc, -, -, -, hsf, hns, -, hsrc⟩ := read_frame hr
    split at h
    · next hne =>
      simp only [Prod.mk.injEq] at h
      obtain ⟨rfl, rfl⟩ := h
      exact ⟨hc, hsf, hns, fun e => absurd e hne⟩
    · simp only [Prod.mk.injEq] at h
      obtain ⟨_, rfl⟩ := h
      refine ⟨?_, hsf, hns, fun _ => ?_⟩
      · exact ⟨hc.1, hc.2.1, hc.2.2.1, hc.2.2.2⟩
      · simp [set_blkno]

/-- A call of `main_getblk_func` on a real source leaves the configuration
alone; once `seek_failed` is set it stays set and `main_file_seek` is not
called. -/
theorem getblk_frame {s s1 : Session} {blkno : Nat} {r : Int}
    (hfake : s.allow_fake_source = false) (h : main_getblk_func s blkno = some (r, s1)) :
    Cfg s s1 ∧ (s.sfile.seek_failed = true →
      s1.sfile.seek_failed = true ∧ s1.sfile.nseek = s.sfile.nseek) := by
  rw [main_getblk_func_eq s blkno hfake] at h
  cases hl : main_getblk_lru s blkno with
  | none => rw [hl] at h; exact absurd h (by simp)
  | some x =>
    obtain ⟨ret, b, n, t⟩ := x
    rw [hl] at h
    simp only at h
    obtain ⟨hc, hf, -, -, -⟩ := lru_frame hl
    split at h
    · simp only [Option.some.injEq, Prod.mk.injEq] at h
      obtain ⟨_, rfl⟩ := h
      exact ⟨hc, fun e => by rw [hf]; exact ⟨e, rfl⟩⟩
    · split at h
      · simp only [Option.some.injEq, Prod.mk.injEq] at h
        obtain ⟨_, rfl⟩ := h
        refine ⟨⟨hc.1, hc.2.1, hc.2.2.1, hc.2.2.2⟩, fun e => ?_⟩
        show t.sfile.seek_failed = true ∧ t.sfile.nseek = s.sfile.nseek
        rw [hf]; exact ⟨e, rfl⟩
      · cases hloc : getblk_locate { t with lru_misses := t.lru_misses + 1 } b blkno
            ((blkno * s.source.blksize) % XOFF) with
        | none => rw [hloc] at h; exact absurd h (by simp)
        | some y =>
          obtain ⟨ret3, b3, s5⟩ := y
          rw [hloc] at h
          simp only at h
          obtain ⟨hc2, hsf2⟩ := locate_frame hloc
          have hc02 : Cfg s s5 := cfg_trans hc (cfg_trans ⟨rfl, rfl, rfl, rfl⟩ hc2)
          have hsf02 : s.sfile.seek_failed = true →
              s5.sfile.seek_failed = true ∧ s5.sfile.nseek = s.sfile.nseek := by
            intro e
            have := hsf2 (by show t.sfile.seek_failed = true; rw [hf]; exact e)
            refine ⟨this.1, this.2.trans ?_⟩
            show t.sfile.nseek = _
            rw [hf]
          split at h
          · simp only [Option.some.injEq, Prod.mk.injEq] at h
            obtain ⟨_, rfl⟩ := h
            exact ⟨hc02, hsf02⟩
          · simp only [Option.some.injEq] at h
            obtain ⟨hc3, hsf3, hns3, -⟩ := fill_frame h
            refine ⟨cfg_trans hc02 hc3, fun e => ?_⟩
            rw [hsf3, hns3]
            exact hsf02 e
/-- C10: `main_read_seek_source (blkno)` when direct repositioning is
unavailable (`seek_failed` already set, or `main_file_seek` fails at the
target `pos`). If `source_position > pos` it returns `XD3_TOOFARBACK` with
`seek_failed` set, and no slot, no memory, not the recency list, not
`source_position`, not the stream offset and not the read counter change. If
`source_position <= pos` the check does not fire: the result is that of the
skip loop entered with `seek_failed` set and everything else as before. -/
theorem C10_seek_unavailable (s : Session) (blkno : Nat)
    (hun : s.sfile.seek_failed = true ∨
      s.sfile.seek_ret ((blkno * s.source.blksize) % XOFF) ≠ 0) :
    (s.sfile.source_position > (blkno * s.source.blksize) % XOFF →
      ∃ s1, main_read_seek_source s blkno = some (XD3_TOOFARBACK, s1) ∧
        s1.sfile.seek_failed = true ∧ s1.lru = s.lru ∧ s1.lru_list = s.lru_list ∧
        s1.lru_filled = s.lru_filled ∧ s1.mem = s.mem ∧
        s1.sfile.source_position = s.sfile.source_position ∧
        s1.sfile.offset = s.sfile.offset ∧ s1.sfile.nread = s.sfile.nread) ∧
    (s.sfile.source_position ≤ (blkno * s.source.blksize) % XOFF →
      main_read_seek_source s blkno =
        skip_loop ((blkno * s.source.blksize) % XOFF - s.sfile.source_position)
          { s with sfile := { s.sfile with
              seek_failed := true
              nseek := if s.sfile.seek_failed then s.sfile.nseek else s.sfile.nseek + 1 } }
          ((blkno * s.source.blksize) % XOFF)) := by
  cases hsf : s.sfile.seek_failed with
  | true =>
    refine ⟨fun hgt => ?_, fun hle => ?_⟩
    · refine ⟨{ s with sfile := { s.sfile with seek_failed := true } }, ?_, rfl, rfl, rfl, rfl,
        rfl, rfl, rfl, rfl⟩
      simp [main_read_seek_source, hsf, hgt]
    · have hng : ¬ (blkno * s.source.blksize) % XOFF < s.sfile.source_position := not_lt.mpr hle
      simp [main_read_seek_source, hsf, hng]
  | false =>
    have hk : s.sfile.seek_ret ((blkno * s.source.blksize) % XOFF) ≠ 0 := by
      rcases hun with h | h
      · rw [hsf] at h; exact absurd h (by simp)
      · exact h
    refine ⟨fun hgt => ?_, fun hle => ?_⟩
    · refine ⟨{ s with sfile := { s.sfile with seek_failed := true, nseek := s.sfile.nseek + 1 } },
        ?_, rfl, rfl, rfl, rfl, rfl, rfl, rfl, rfl⟩
      simp [main_read_seek_source, hsf, main_file_seek, hk, hgt]
    · have hng : ¬ (blkno * s.source.blksize) % XOFF < s.sfile.source_position := not_lt.mpr hle
      simp [main_read_seek_source, hsf, main_file_seek, hk, hng]

/-- Witness of C10: in the session set up on a pipe of 10000 bytes (window
4096, position 4096 after the set-up) the seek to block 40 fails. -/
theorem C10_seek_unavailable_witness :
    ((configured demo_pipe (2 ^ 12)).sfile.seek_failed = true ∨
      (configured demo_pipe (2 ^ 12)).sfile.seek_ret
        ((40 * (configured demo_pipe (2 ^ 12)).source.blksize) % XOFF) ≠ 0) ∧
    ((configured demo_pipe (2 ^ 12)).sfile.source_position
        ≤ (40 * (configured demo_pipe (2 ^ 12)).source.blksize) % XOFF →
      main_read_seek_source (configured demo_pipe (2 ^ 12)) 40 =
        skip_loop ((40 * (configured demo_pipe (2 ^ 12)).source.blksize) % XOFF
            - (configured demo_pipe (2 ^ 12)).sfile.source_position)
          { configured demo_pipe (2 ^ 12) with sfile := { (configured demo_pipe (2 ^ 12)).sfile with
              seek_failed := true
              nseek := if (configured demo_pipe (2 ^ 12)).sfile.seek_failed
                then (configured demo_pipe (2 ^ 12)).sfile.nseek
                else (configured demo_pipe (2 ^ 12)).sfile.nseek + 1 } }
          ((40 * (configured demo_pipe (2 ^ 12)).source.blksize) % XOFF)) :=
  ⟨Or.inr (by decide),
    (C10_seek_unavailable (configured demo_pipe (2 ^ 12)) 40 (Or.inr (by decide))).2⟩
theorem getblk_sticky {s s1 : Session} {blkno : Nat} {r : Int}
    (h : main_getblk_func s blkno = some (r, s1)) (hsf : s.sfile.seek_failed = true) :
    s1.sfile.seek_failed = true ∧ s1.sfile.nseek = s.sfile.nseek := by
  cases hfake : s.allow_fake_source with
  | false => exact (getblk_frame hfake h).2 hsf
  | true =>
    simp only [main_getblk_func, hfake, if_true, Option.some.injEq, Prod.mk.injEq] at h
    obtain ⟨_, rfl⟩ := h
    exact ⟨hsf, rfl⟩

theorem run_sticky : ∀ (bs : List Nat) (s s1 : Session), run_calls s bs = some s1 →
    s.sfile.seek_failed = true → s1.sfile.seek_failed = true ∧ s1.sfile.nseek = s.sfile.nseek := by
  intro bs
  induction bs with
  | nil =>
    intro s s1 h hsf
    simp only [run_calls, Option.some.injEq] at h
    subst h
    exact ⟨hsf, rfl⟩
  | cons b bs ih =>
    intro s s1 h hsf
    simp only [run_calls] at h
    cases hg : main_getblk_func s b with
    | none => rw [hg] at h; exact absurd h (by simp)
    | some x =>
      obtain ⟨r, t⟩ := x
      rw [hg] at h
      obtain ⟨h1, h2⟩ := getblk_sticky hg hsf
      obtain ⟨h3, h4⟩ := ih t s1 h h1
      exact ⟨h3, h4.trans h2⟩

/-- C12: `seek_failed` is sticky. Whenever `main_file_seek` returns non-zero
inside `main_read_seek_source`, the call leaves `seek_failed` set; a call of
`main_read_seek_source` made while `seek_failed` is set leaves it set and does
not call `main_file_seek` (the seek counter is unchanged); and the same holds
for every sequence of `main_getblk_func` calls started while `seek_failed` is
set. -/
theorem C12_seek_failed_sticky (s : Session) :
    (∀ blkno r s1, s.sfile.seek_failed = false →
      s.sfile.seek_ret ((blkno * s.source.blksize) % XOFF) ≠ 0 →
      main_read_seek_source s blkno = some (r, s1) → s1.sfile.seek_failed = true) ∧
    (∀ blkno r s1, s.sfile.seek_failed = true →
      main_read_seek_source s blkno = some (r, s1) →
      s1.sfile.seek_failed = true ∧ s1.sfile.nseek = s.sfile.nseek) ∧
    (∀ bs s1, s.sfile.seek_failed = true → run_calls s bs = some s1 →
      s1.sfile.seek_failed = true ∧ s1.sfile.nseek = s.sfile.nseek) := by
  refine ⟨?_, ?_, ?_⟩
  · intro blkno r s1 hsf hk h
    simp only [main_read_seek_source, hsf, Bool.not_false, if_true, main_file_seek, hk,
      if_false, Bool.false_eq_true, ne_eq, not_false_eq_true, or_true] at h
    split at h
    · simp only [Option.some.injEq, Prod.mk.injEq] at h
      obtain ⟨_, rfl⟩ := h
      rfl
    · exact (skip_frame _ _ _ _ _ h).2.1
  · intro blkno r s1 hsf h
    exact (seek_frame h).2 hsf
  · intro bs s1 hsf h
    exact run_sticky bs s s1 h hsf

/-- Witness of C12 in the session set up on a pipe of 10000 bytes: the seek to
block 40 fails, the skip loop runs, and the call returns 0 with `seek_failed`
set. -/
theorem C12_seek_failed_sticky_witness :
    ∃ s1, main_read_seek_source (configured demo_pipe (2 ^ 12)) 40 = some (0, s1) ∧
      s1.sfile.seek_failed = true := by
  have hm : (main_read_seek_source (configured demo_pipe (2 ^ 12)) 40).map (fun x => x.1)
      = some 0 := by decide
  cases hs : main_read_seek_source (configured demo_pipe (2 ^ 12)) 40 with
  | none => rw [hs] at hm; exact absurd hm (by simp)
  | some x =>
    obtain ⟨r, s1⟩ := x
    have hr : r = 0 := by
      rw [hs] at hm
      simpa using hm
    subst hr
    exact ⟨s1, rfl, (C12_seek_failed_sticky (configured demo_pipe (2 ^ 12))).1 40 0 s1
      (by decide) (by decide) hs⟩

/-- C14: the forward-discipline lookup. With `do_src_fifo = 1` (and a
non-zero `lru_size`) `main_getblk_lru (blkno)` returns with the slot
`blkno mod lru_size`; (a) if that slot holds `blkno` the result is 0 with
`is_new = 0` and nothing changes; (b) the result is `XD3_TOOFARBACK` exactly
when the slot's `blkno` is not the sentinel and greater than the request, and
then nothing changes; (c) otherwise the result is 0 with `is_new = 1`, the
slot's `blkno` reset to the sentinel, `lru_filled` incremented by 1, and every
other slot and the recency list unchanged. -/
theorem C14_forward_lookup (s : Session) (blkno : Nat) (hfifo : s.do_src_fifo = true)
    (hn : s.lru_size ≠ 0) :
    ∃ ret is_new s1,
      main_getblk_lru s blkno = some (ret, blkno % s.lru_size, is_new, s1) ∧
      ((s.lru (blkno % s.lru_size)).blkno = blkno → ret = 0 ∧ is_new = false ∧ s1 = s) ∧
      (ret = XD3_TOOFARBACK ↔
        ((s.lru (blkno % s.lru_size)).blkno ≠ NOBLK ∧ (s.lru (blkno % s.lru_size)).blkno > blkno)) ∧
      (ret = XD3_TOOFARBACK → s1 = s) ∧
      ((s.lru (blkno % s.lru_size)).blkno ≠ blkno →
        ¬ ((s.lru (blkno % s.lru_size)).blkno ≠ NOBLK ∧
            (s.lru (blkno % s.lru_size)).blkno > blkno) →
        ret = 0 ∧ is_new = true ∧ (s1.lru (blkno % s.lru_size)).blkno = NOBLK ∧
          s1.lru_filled = s.lru_filled + 1 ∧
          (∀ j, j ≠ blkno % s.lru_size → s1.lru j = s.lru j) ∧ s1.lru_list = s.lru_list) := by
  by_cases h1 : (s.lru (blkno % s.lru_size)).blkno = blkno
  · refine ⟨0, false, s, by simp [main_getblk_lru, hfifo, hn, h1], fun _ => ⟨rfl, rfl, rfl⟩, ?_,
      fun _ => rfl, fun h => absurd h1 h⟩
    constructor
    · intro h; exact absurd h (by decide)
    · intro h; rw [h1] at h; exact absurd h.2 (lt_irrefl _)
  · by_cases h2 : (s.lru (blkno % s.lru_size)).blkno ≠ NOBLK ∧
        (s.lru (blkno % s.lru_size)).blkno > blkno
    · refine ⟨XD3_TOOFARBACK, false, s, by simp [main_getblk_lru, hfifo, hn, h1, h2],
        fun h => absurd h h1, ⟨fun _ => h2, fun _ => rfl⟩, fun _ => rfl, fun _ h => absurd h2 h⟩
    · refine ⟨0, true,
        set_blkno { s with lru_filled := s.lru_filled + 1 } (blkno % s.lru_size) NOBLK, ?_,
        fun h => absurd h h1, ⟨fun h => absurd h (by decide), fun h => absurd h h2⟩,
        fun h => absurd h (by decide), fun _ _ => ⟨rfl, rfl, ?_, rfl, ?_, rfl⟩⟩
      · simp only [main_getblk_lru, hfifo, if_true, hn, if_false, h1]
        rw [if_neg h2]
      · simp [set_blkno]
      · intro j hj
        simp [set_blkno, hj]

/-- Witness of C14 in the session set up on a pipe of 10000 bytes. -/
theorem C14_forward_lookup_witness :
    ∃ ret is_new s1,
      main_getblk_lru (configured demo_pipe (2 ^ 12)) 40
        = some (ret, 40 % (configured demo_pipe (2 ^ 12)).lru_size, is_new, s1) ∧
      (ret = XD3_TOOFARBACK → s1 = configured demo_pipe (2 ^ 12)) := by
  obtain ⟨ret, is_new, s1, h, -, -, h3, -⟩ :=
    C14_forward_lookup (configured demo_pipe (2 ^ 12)) 40 (by decide) (by decide)
  exact ⟨ret, is_new, s1, h, h3⟩

/-- C13 (the code at the failing input): on a regular file of 1 MiB with
window 512 KiB (memory initially 255 everywhere, source byte `i` is
`i % 251`) the set-up succeeds in split mode; slot 0 has `blkno = 0`,
`size = 16384` and region start 0, but the first byte of that region is still
the initial 255, not source byte 0; the probe's data starts at arena offset
`31 * 16384 = 507904` and runs past the end of the arena: the byte at offset
524288 (the first one after the arena) is source byte 16384. -/
theorem C13_probe_data_not_at_arena_start :
    main_set_source demo_large = some (0, configured demo_large (2 ^ 19)) ∧
    ((configured demo_large (2 ^ 19)).lru 0).blkno = 0 ∧
    ((configured demo_large (2 ^ 19)).lru 0).size = 16384 ∧
    ((configured demo_large (2 ^ 19)).lru 0).blk = 0 ∧
    (configured demo_large (2 ^ 19)).mem 0 = 255 ∧
    demo_large.sfile.contents 0 = 0 ∧
    (configured demo_large (2 ^ 19)).mem 507904 = demo_large.sfile.contents 0 ∧
    (configured demo_large (2 ^ 19)).option_srcwinsz = 524288 ∧
    (configured demo_large (2 ^ 19)).mem 524288 = demo_large.sfile.contents 16384 ∧
    demo_large.sfile.contents 16384 = 69 :=
  ⟨main_set_source_eq demo_large 19 fresh_demo_large, by decide, by decide, by decide,
    by decide, by decide, by decide, by decide, by decide, by decide⟩

/-- C17 (the code at the failing input): in the single-slot session set up on
a regular file of 1000 bytes (window 4096) one call `main_getblk_func (0)`
returns 0 and leaves the two distinct slots 29 and 31 both holding block 0. -/
theorem C17_two_slots_hold_block_zero :
    main_set_source demo_small = some (0, configured demo_small (2 ^ 12)) ∧
    (main_getblk_func (configured demo_small (2 ^ 12)) 0).map (fun x => x.1) = some 0 ∧
    (run_calls (configured demo_small (2 ^ 12)) [0]).map
      (fun x => ((x.lru 29).blkno, (x.lru 31).blkno)) = some (0, 0) ∧
    (0 : Nat) ≠ NOBLK :=
  ⟨main_set_source_eq demo_small 12 fresh_demo_small, by decide, by decide, by decide⟩

/-- C19 (the code): the set-up loop of `main_set_source`, started on the
empty list, leaves the recency list `[31, 30, ..., 0]`: slot 31 is at the
front and slot 0 at the back; and the first lookup that misses (here with
`lru_size = 1` as at the probe) hands out slot 31. -/
theorem C19_setup_loop_order (w : Nat) (s : Session) :
    (setup_loop w MAX_LRU_SIZE { s with lru_list := [] }).lru_list =
      [31, 30, 29, 28, 27, 26, 25, 24, 23, 22, 21, 20, 19, 18, 17, 16, 15, 14, 13, 12, 11, 10,
        9, 8, 7, 6, 5, 4, 3, 2, 1, 0] ∧
    (main_getblk_lru
      { setup_loop 4096 MAX_LRU_SIZE { demo_regular with lru_list := [] } with lru_size := 1 } 0).map
      (fun r => (r.1, r.2.1, r.2.2.1)) = some (0, 31, true) := by
  refine ⟨?_, by decide⟩
  simp [setup_loop_eq, MAX_LRU_SIZE, range32_reverse]

/-- C20 (the code at the failing input): in the session set up on a pipe of
10000 bytes (window 4096, block size 128), after `main_getblk_func (78)` has
returned 0 (position 10000, `seek_failed` set), the call
`main_getblk_func (79)` misses, needs repositioning to 10112 and enters the
skip loop; in its first iteration all three assertions are false
(`pos - source_position = 112 < 128`, `skip_offset = 16`, and block 78 is
resident so `is_new = 0`); the call then returns `XD3_INVALID_INPUT`. -/
theorem C20_skip_assertions_fail :
    main_set_source demo_pipe = some (0, configured demo_pipe (2 ^ 12)) ∧
    (main_getblk_func (configured demo_pipe (2 ^ 12)) 78).map (fun x => x.1) = some 0 ∧
    (run_calls (configured demo_pipe (2 ^ 12)) [78]).map
      (fun x => (x.sfile.seek_failed, x.sfile.source_position, x.source.blksize))
      = some (true, 10000, 128) ∧
    ((run_calls (configured demo_pipe (2 ^ 12)) [78]).bind (fun s1 => main_getblk_lru s1 79)).map
      (fun l => (l.1, l.2.2.1)) = some (0, true) ∧
    ((run_calls (configured demo_pipe (2 ^ 12)) [78]).bind (fun s1 =>
      (main_getblk_lru s1 79).bind (fun l =>
        skip_asserts { l.2.2.2 with lru_misses := l.2.2.2.lru_misses + 1 } (79 * 128))))
      = some (false, false, false) ∧
    ((run_calls (configured demo_pipe (2 ^ 12)) [78]).bind (fun s1 => main_getblk_func s1 79)).map
      (fun x => x.1) = some XD3_INVALID_INPUT :=
  ⟨main_set_source_eq demo_pipe 12 fresh_demo_pipe, by decide, by decide, by decide, by decide,
    by decide⟩

/-- A direct seek: `seek_failed` clear and `main_file_seek` succeeding. -/
theorem seek_direct (t : Session) (blkno : Nat) (hsf : t.sfile.seek_failed = false)
    (hseek : t.sfile.seek_ret ((blkno * t.source.blksize) % XOFF) = 0) :
    main_read_seek_source t blkno = some (0, { t with sfile := { t.sfile with
      offset := (blkno * t.source.blksize) % XOFF
      nseek := t.sfile.nseek + 1
      source_position := (blkno * t.source.blksize) % XOFF } }) := by
  simp [main_read_seek_source, main_file_seek, hsf, hseek]

/-- The state after a successful read of `n` bytes into slot `b3` for block
`blkno` at target `pos`. -/
theorem fill_ok (t : Session) (b3 blkno pos : Nat)
    (hread : t.sfile.read_ret t.sfile.offset = 0) :
    getblk_fill t b3 blkno pos = (0,
      { t with
        lru := fun j => if j = b3 then
            ⟨(t.lru b3).blk, blkno, min t.source.blksize (t.sfile.length - t.sfile.offset)⟩
          else t.lru j
        mem := fun a =>
          if (t.lru b3).blk ≤ a ∧
              a < (t.lru b3).blk + min t.source.blksize (t.sfile.length - t.sfile.offset) then
            t.sfile.contents (t.sfile.offset + (a - (t.lru b3).blk))
          else t.mem a
        sfile := { t.sfile with
          offset := t.sfile.offset + min t.source.blksize (t.sfile.length - t.sfile.offset)
          nread := t.sfile.nread + 1
          source_position :=
            (pos + min t.source.blksize (t.sfile.length - t.sfile.offset)) % XOFF }
        source := { t.source with
          curblk := some (t.lru b3).blk
          curblkno := blkno
          onblk := min t.source.blksize (t.sfile.length - t.sfile.offset) } }) := by
  simp only [getblk_fill, main_read_primary_input, hread, ne_eq, not_true_eq_false, if_false,
    set_position, set_size, set_blkno, Prod.mk.injEq, true_and]
  congr 1
  funext j
  by_cases hj : j = b3 <;> simp [hj]
/-- C16 (amended): recency discipline, a miss that needs repositioning with
`main_file_seek` succeeding directly. The lookup is run a second time all the
same: the slot `f` taken by the first lookup stays empty, a second slot `g` is
taken for the block, `lru_filled` goes up by 2 and `lru_misses` by 1, with one
seek and one read; the other slots are unchanged and `f`, `g` end at the back
of the recency list. -/
theorem C16_second_lookup_evicts_again (s : Session) (blkno f g : Nat) (rest : List Nat)
    (hfake : s.allow_fake_source = false) (hfifo : s.do_src_fifo = false)
    (hsf : s.sfile.seek_failed = false) (hb : blkno ≠ NOBLK)
    (hmiss : ∀ j, j < s.lru_size → (s.lru j).blkno ≠ blkno)
    (hl : s.lru_list = f :: g :: rest) (hfg : f ≠ g)
    (hpos : (blkno * s.source.blksize) % XOFF ≠ s.sfile.source_position)
    (hseek : s.sfile.seek_ret ((blkno * s.source.blksize) % XOFF) = 0)
    (hread : s.sfile.read_ret ((blkno * s.source.blksize) % XOFF) = 0) :
    ∃ s1, main_getblk_func s blkno = some (0, s1) ∧
      s1.lru_filled = s.lru_filled + 2 ∧ s1.lru_misses = s.lru_misses + 1 ∧
      (s1.lru f).blkno = NOBLK ∧ (s1.lru g).blkno = blkno ∧
      (∀ j, j ≠ f → j ≠ g → s1.lru j = s.lru j) ∧
      s1.lru_list = rest ++ [f, g] ∧
      s1.sfile.nseek = s.sfile.nseek + 1 ∧ s1.sfile.nread = s.sfile.nread + 1 := by
  obtain ⟨t1, h1, e1⟩ : ∃ t1, main_getblk_lru s blkno = some (0, f, true, t1) ∧
      t1 = set_blkno { s with lru_list := (g :: rest) ++ [f], lru_filled := s.lru_filled + 1 }
        f NOBLK :=
    ⟨_, lru_miss s blkno f (g :: rest) hfifo (lru_search_none.mpr hmiss) hl, rfl⟩
  have hsrc1 : t1.source = s.source := by rw [e1]; rfl
  have hfile1 : t1.sfile = s.sfile := by rw [e1]; rfl
  obtain ⟨t3, h3, e3⟩ : ∃ t3, main_read_seek_source
        { t1 with lru_misses := t1.lru_misses + 1 } blkno = some (0, t3) ∧
      t3 = { t1 with
        lru_misses := t1.lru_misses + 1
        sfile := { t1.sfile with
          offset := (blkno * t1.source.blksize) % XOFF
          nseek := t1.sfile.nseek + 1
          source_position := (blkno * t1.source.blksize) % XOFF } } :=
    ⟨_, seek_direct _ blkno (by show t1.sfile.seek_failed = false; rw [hfile1]; exact hsf)
      (by show t1.sfile.seek_ret ((blkno * t1.source.blksize) % XOFF) = 0
          rw [hfile1, hsrc1]; exact hseek), rfl⟩
  have hnone2 : lru_search t3 blkno = none := by
    apply lru_search_none.mpr
    intro j hj
    rw [e3, e1]
    show ((set_blkno _ f NOBLK).lru j).blkno ≠ blkno
    simp only [set_blkno]
    split
    · exact fun e => hb e.symm
    · exact hmiss j (by rw [e3, e1] at hj; exact hj)
  obtain ⟨t4, h4, e4⟩ : ∃ t4, main_getblk_lru t3 blkno = some (0, g, true, t4) ∧
      t4 = set_blkno { t3 with lru_list := (rest ++ [f]) ++ [g], lru_filled := t3.lru_filled + 1 }
        g NOBLK :=
    ⟨_, lru_miss t3 blkno g (rest ++ [f]) (by rw [e3, e1]; exact hfifo) hnone2
      (by rw [e3, e1]; rfl), rfl⟩
  have hloc : getblk_locate { t1 with lru_misses := t1.lru_misses + 1 } f blkno
      ((blkno * s.source.blksize) % XOFF) = some (0, g, t4) := by
    have hp : (blkno * s.source.blksize) % XOFF ≠ t1.sfile.source_position := by
      rw [hfile1]; exact hpos
    simp only [getblk_locate, ne_eq, hp, not_false_eq_true, if_true, h3, not_true_eq_false,
      if_false, h4]
  have hread4 : t4.sfile.read_ret t4.sfile.offset = 0 := by
    rw [e4, e3]
    show t1.sfile.read_ret ((blkno * t1.source.blksize) % XOFF) = 0
    rw [hfile1, hsrc1]; exact hread
  rw [main_getblk_func_eq s blkno hfake, h1]
  simp only [ne_eq, not_true_eq_false, if_false, Bool.not_true, Bool.false_eq_true, hloc,
    fill_ok t4 g blkno _ hread4]
  refine ⟨_, rfl, ?_, ?_, ?_, ?_, ?_, ?_, ?_, ?_⟩
  · rw [e4, e3, e1]; rfl
  · rw [e4, e3, e1]; rfl
  · have hfg2 : ¬ f = g := hfg
    simp only [hfg2, if_false]
    rw [e4, e3, e1]
    simp [set_blkno, hfg2]
  · simp
  · intro j hjf hjg
    simp only [hjg, if_false]
    rw [e4, e3, e1]
    simp [set_blkno, hjf, hjg]
  · rw [e4, e3, e1]
    simp [set_blkno]
  · rw [e4, e3, e1]; rfl
  · rw [e4, e3, e1]; rfl

/-- Witness of C16 in the session set up on a regular file of 10000 bytes
(window 4096): the request for block 78. -/
theorem C16_second_lookup_evicts_again_witness :
    ∃ s1, main_getblk_func (configured demo_regular (2 ^ 12)) 78 = some (0, s1) ∧
      s1.lru_filled = (configured demo_regular (2 ^ 12)).lru_filled + 2 ∧
      (s1.lru 30).blkno = NOBLK ∧ (s1.lru 29).blkno = 78 := by
  obtain ⟨s1, h, h1, -, h2, h3, -⟩ :=
    C16_second_lookup_evicts_again (configured demo_regular (2 ^ 12)) 78 30 29
      [28, 27, 26, 25, 24, 23, 22, 21, 20, 19, 18, 17, 16, 15, 14, 13, 12, 11, 10,
        9, 8, 7, 6, 5, 4, 3, 2, 1, 0, 31]
      (by decide) (by decide) (by decide) (by decide) (by decide) (by decide) (by decide)
      (by decide) (by decide) (by decide)
  exact ⟨s1, h, h1, h2, h3⟩

/-- C16 (counterexample): in the session set up on a regular file of 10000
bytes (window 4096, recency discipline) `main_getblk_func (78)` misses,
`main_file_seek` succeeds directly (one seek, one read, no skip-read), and yet
`lru_filled` goes from 1 to 3 and two slots change: slot 30 (block 30 before)
is left empty and slot 29 (block 29 before) receives block 78. -/
theorem C16_direct_seek_changes_two_slots :
    stats (some (0, configured demo_regular (2 ^ 12))) = some (0, 0, 1, 1, 0, 1) ∧
    (((configured demo_regular (2 ^ 12)).lru 30).blkno,
      ((configured demo_regular (2 ^ 12)).lru 29).blkno) = (30, 29) ∧
    stats (main_getblk_func (configured demo_regular (2 ^ 12)) 78) = some (0, 0, 2, 3, 1, 2) ∧
    (run_calls (configured demo_regular (2 ^ 12)) [78]).map
      (fun x => ((x.lru 30).blkno, (x.lru 29).blkno)) = some (NOBLK, 78) :=
  ⟨by decide, by decide, by decide, by decide⟩

theorem ginv_frame {B : Nat} {s t : Session} (h : GInv B s)
    (h1 : t.allow_fake_source = s.allow_fake_source) (h2 : t.source.blksize = s.source.blksize)
    (h3 : t.sfile.length = s.sfile.length)
    (h4 : t.sfile.source_position = s.sfile.source_position)
    (h5 : t.sfile.offset = s.sfile.offset) : GInv B t := by
  unfold GInv at *
  rw [h1, h2, h3, h4, h5]
  exact h

/-- The lookup returns whenever the session is live, and leaves it live. -/
theorem lookup_total (s : Session) (b : Nat) (hl : Live s) :
    ∃ ret i n t, main_getblk_lru s b = some (ret, i, n, t) ∧ Live t := by
  unfold Live at hl
  unfold main_getblk_lru
  cases hf : s.do_src_fifo with
  | true =>
    simp only [hf, if_true] at hl ⊢
    simp only [hl, if_false]
    split
    · exact ⟨_, _, _, _, rfl, by simp [Live, hf, hl]⟩
    · split
      · exact ⟨_, _, _, _, rfl, by simp [Live, hf, hl]⟩
      · exact ⟨_, _, _, _, rfl, by simp [Live, hf, hl, set_blkno]⟩
  | false =>
    simp only [hf, Bool.false_eq_true, if_false] at hl ⊢
    cases hs : lru_search s b with
    | some i => exact ⟨_, _, _, _, rfl, by simp [Live, hf]⟩
    | none =>
      cases hlist : s.lru_list with
      | nil => exact absurd hlist hl
      | cons f rest => exact ⟨_, _, _, _, rfl, by simp [Live, hf, set_blkno]⟩

/-- The three outcomes of the forward-discipline lookup. -/
theorem fifo_cases {s t : Session} {b i : Nat} {ret : Int} {n : Bool}
    (hf : s.do_src_fifo = true) (h : main_getblk_lru s b = some (ret, i, n, t)) :
    i = b % s.lru_size ∧
    ((ret = 0 ∧ n = false ∧ t = s ∧ (s.lru i).blkno = b) ∨
     (ret = XD3_TOOFARBACK ∧ t = s ∧ (s.lru i).blkno ≠ NOBLK ∧ (s.lru i).blkno > b) ∨
     (ret = 0 ∧ n = true ∧ t = set_blkno { s with lru_filled := s.lru_filled + 1 } i NOBLK ∧
        (s.lru i).blkno ≠ b ∧ ¬ ((s.lru i).blkno ≠ NOBLK ∧ (s.lru i).blkno > b))) := by
  unfold main_getblk_lru at h
  rw [if_pos hf] at h
  split at h
  · exact absurd h (by simp)
  · simp only at h
    split at h
    · next hb =>
      simp only [Option.some.injEq, Prod.mk.injEq] at h
      obtain ⟨rfl, rfl, rfl, rfl⟩ := h
      exact ⟨rfl, Or.inl ⟨rfl, rfl, rfl, hb⟩⟩
    · next hb =>
      split at h
      · next hgt =>
        simp only [Option.some.injEq, Prod.mk.injEq] at h
        obtain ⟨rfl, rfl, rfl, rfl⟩ := h
        exact ⟨rfl, Or.inr (Or.inl ⟨rfl, rfl, hgt⟩)⟩
      · next hgt =>
        simp only [Option.some.injEq, Prod.mk.injEq] at h
        obtain ⟨rfl, rfl, rfl, rfl⟩ := h
        exact ⟨rfl, Or.inr (Or.inr ⟨rfl, rfl, rfl, hb, hgt⟩)⟩

/-- What a read does: either the stream reports an error and nothing moves,
or `min size (length - offset)` bytes are read and the offset advances. -/
theorem read_spec {s s1 : Session} {buf sz n : Nat} {r : Int}
    (h : main_read_primary_input s buf sz = (r, n, s1)) :
    s1.sfile.length = s.sfile.length ∧ s1.sfile.read_ret = s.sfile.read_ret ∧
    ((r ≠ 0 ∧ r = s.sfile.read_ret s.sfile.offset ∧ s1.sfile.offset = s.sfile.offset) ∨
     (r = 0 ∧ n = min sz (s.sfile.length - s.sfile.offset) ∧
        s1.sfile.offset = s.sfile.offset + n)) := by
  unfold main_read_primary_input at h
  simp only at h
  split at h
  · next hne =>
    simp only [Prod.mk.injEq] at h
    obtain ⟨rfl, rfl, rfl⟩ := h
    exact ⟨rfl, rfl, Or.inl ⟨hne, rfl, rfl⟩⟩
  · simp only [Prod.mk.injEq] at h
    obtain ⟨rfl, rfl, rfl⟩ := h
    exact ⟨rfl, rfl, Or.inr ⟨rfl, rfl, rfl⟩⟩
theorem live_frame {s t : Session} (h : Live s) (h1 : t.do_src_fifo = s.do_src_fifo)
    (h2 : t.lru_size = s.lru_size) (h3 : t.lru_list = s.lru_list) : Live t := by
  unfold Live at *
  rw [h1, h2, h3]
  exact h

/-- The lookup changes no slot but the one it returns. -/
theorem lru_frame_slots {s t : Session} {b i : Nat} {ret : Int} {n : Bool}
    (h : main_getblk_lru s b = some (ret, i, n, t)) : ∀ j, j ≠ i → t.lru j = s.lru j := by
  intro j hj
  unfold main_getblk_lru at h
  split at h
  · split at h
    · exact absurd h (by simp)
    · simp only at h
      split at h
      · simp only [Option.some.injEq, Prod.mk.injEq] at h
        obtain ⟨_, _, _, rfl⟩ := h
        rfl
      · split at h
        · simp only [Option.some.injEq, Prod.mk.injEq] at h
          obtain ⟨_, _, _, rfl⟩ := h
          rfl
        · simp only [Option.some.injEq, Prod.mk.injEq] at h
          obtain ⟨_, rfl, _, rfl⟩ := h
          simp [set_blkno, hj]
  · split at h
    · simp only [Option.some.injEq, Prod.mk.injEq] at h
      obtain ⟨_, _, _, rfl⟩ := h
      rfl
    · split at h
      · exact absurd h (by simp)
      · simp only [Option.some.injEq, Prod.mk.injEq] at h
        obtain ⟨_, rfl, _, rfl⟩ := h
        simp [set_blkno, hj]

/-- Forward discipline: the lookup of a block `c` that no resident block
exceeds returns 0. -/
theorem fa_lookup_ok {B : Nat} {s t : Session} {c i : Nat} {ret : Int} {n : Bool}
    (hfa : FA B s) (hl : Live s)
    (hc : ∀ v, v * B ≤ s.sfile.source_position → v ≤ c)
    (h : main_getblk_lru s c = some (ret, i, n, t)) : ret = 0 := by
  obtain ⟨hf, -, hslots⟩ := hfa
  have hn : s.lru_size ≠ 0 := by simpa [Live, hf] using hl
  obtain ⟨hi, hcases⟩ := fifo_cases hf h
  rcases hcases with ⟨h0, -⟩ | ⟨-, -, hne, hgt⟩ | ⟨h0, -⟩
  · exact h0
  · exfalso
    have hilt : i < s.lru_size := by rw [hi]; exact Nat.mod_lt _ (Nat.pos_of_ne_zero hn)
    rcases hslots i hilt with h1 | h1
    · exact hne h1
    · exact absurd (hc _ h1) (not_le.mpr hgt)
  · exact h0

/-- Forward discipline: after the lookup of `c` and the assignment of `c` to
the slot, the slot invariant holds again at any position from the old one on. -/
theorem fa_after {B : Nat} {s t u : Session} {c i : Nat} {ret : Int} {n : Bool}
    (hfa : FA B s) (h : main_getblk_lru s c = some (ret, i, n, t))
    (hc : c * B ≤ u.sfile.source_position)
    (h1 : u.do_src_fifo = s.do_src_fifo) (h2 : u.lru_size = s.lru_size)
    (h3 : u.sfile.read_ret = s.sfile.read_ret)
    (h4 : ∀ j, (u.lru j).blkno = ((set_blkno t i c).lru j).blkno)
    (h5 : s.sfile.source_position ≤ u.sfile.source_position) : FA B u := by
  obtain ⟨hf, hrd, hslots⟩ := hfa
  refine ⟨h1.trans hf, fun p => by rw [h3]; exact hrd p, fun j hj => ?_⟩
  rw [h4 j]
  by_cases hji : j = i
  · right
    subst hji
    simpa [set_blkno] using hc
  · have : ((set_blkno t i c).lru j).blkno = (s.lru j).blkno := by
      simp only [set_blkno, hji, if_false]
      rw [lru_frame_slots h j hji]
    rw [this]
    rcases hslots j (h2 ▸ hj) with h6 | h6
    · exact Or.inl h6
    · exact Or.inr (le_trans h6 h5)
theorem aligned_step {B sp pos : Nat} (h1 : B ∣ sp) (h2 : B ∣ pos) (h3 : sp < pos) :
    sp + B ≤ pos := by
  obtain ⟨a, rfl⟩ := h1
  obtain ⟨b, rfl⟩ := h2
  have hB : 0 < B := by
    rcases Nat.eq_zero_or_pos B with h | h
    · subst h; simp at h3
    · exact h
  have hab : a < b := lt_of_mul_lt_mul_left h3 (Nat.zero_le B)
  calc B * a + B = B * (a + 1) := by ring
    _ ≤ B * b := Nat.mul_le_mul_left B hab

/-- The skip loop under the session invariant: it returns, keeps the
invariant, never moves the position backwards or past an aligned target,
reaches the target when it returns 0, and in the forward discipline keeps the
slot invariant and does not return `XD3_TOOFARBACK`. -/
theorem skip_loop_spec (B : Nat) : ∀ (fuel : Nat) (s : Session) (pos : Nat),
    GInv B s → Live s → B ∣ pos → pos < XOFF → pos - s.sfile.source_position ≤ fuel →
    ∃ r s1, skip_loop fuel s pos = some (r, s1) ∧ GInv B s1 ∧ Live s1 ∧
      s.sfile.source_position ≤ s1.sfile.source_position ∧
      (s.sfile.source_position ≤ pos → s1.sfile.source_position ≤ pos) ∧
      (r = 0 → pos ≤ s1.sfile.source_position) ∧
      (FA B s → FA B s1 ∧ r ≠ XD3_TOOFARBACK) := by
  intro fuel
  induction fuel with
  | zero =>
    intro s pos hg hl _ _ hfuel
    have hnlt : ¬ s.sfile.source_position < pos := by omega
    exact ⟨0, s, by simp [skip_loop, hnlt], hg, hl, le_refl _, fun h => h,
      fun _ => not_lt.mp hnlt, fun h => ⟨h, by decide⟩⟩
  | succ fuel ih =>
    intro s pos hg hl hpos hposlt hfuel
    by_cases hlt : s.sfile.source_position < pos
    swap
    · exact ⟨0, s, by simp [skip_loop, hlt], hg, hl, le_refl _, fun h => h,
        fun _ => not_lt.mp hlt, fun h => ⟨h, by decide⟩⟩
    obtain ⟨hfake, hblk, hB, hBX, hL, hQ, hal⟩ := hg
    obtain ⟨ret, i, n, t1, hlk, hl1⟩ := lookup_total s (s.sfile.source_position / s.source.blksize) hl
    obtain ⟨hc1, hf1, -, hsrc1, -⟩ := lru_frame hlk
    have hcB : s.sfile.source_position / s.source.blksize * B ≤ s.sfile.source_position := by
      rw [hblk]; exact Nat.div_mul_le_self _ _
    have hcmax : ∀ v, v * B ≤ s.sfile.source_position →
        v ≤ s.sfile.source_position / s.source.blksize := by
      intro v hv
      rw [hblk]
      exact (Nat.le_div_iff_mul_le hB).mpr hv
    simp only [skip_loop, hlt, if_true, hlk]
    by_cases hret : ret = 0
    swap
    · refine ⟨ret, t1, by simp [hret], ?_, hl1, by rw [hf1], fun h => by rw [hf1]; exact h,
        fun h => absurd h hret, fun hfa => absurd (fa_lookup_ok hfa hl hcmax hlk) hret⟩
      exact ⟨hc1.2.2.1.trans hfake, hc1.2.2.2.trans hblk, hB, hBX, by rw [hf1]; exact hL,
        by rw [hf1]; exact hQ, by rw [hf1]; exact hal⟩
    simp only [hret, ne_eq, not_true_eq_false, if_false]
    cases hr : main_read_primary_input
        (set_blkno t1 i (s.sfile.source_position / s.source.blksize))
        ((set_blkno t1 i (s.sfile.source_position / s.source.blksize)).lru i).blk
        (set_blkno t1 i (s.sfile.source_position / s.source.blksize)).source.blksize with
    | mk rret y =>
      obtain ⟨nread, s3⟩ := y
      simp only
      obtain ⟨hc3, hlru3, hlist3, -, -, -, hsp3, hsrc3⟩ := read_frame hr
      obtain ⟨hlen3, hrd3, hcase3⟩ := read_spec hr
      have hsp3s : s3.sfile.source_position = s.sfile.source_position := by
        rw [hsp3]; show t1.sfile.source_position = _; rw [hf1]
      have hlen3s : s3.sfile.length = s.sfile.length := by
        rw [hlen3]; show t1.sfile.length = _; rw [hf1]
      have hrd3s : s3.sfile.read_ret = s.sfile.read_ret := by
        rw [hrd3]; show t1.sfile.read_ret = _; rw [hf1]
      have hoff2 : (set_blkno t1 i (s.sfile.source_position / s.source.blksize)).sfile.offset
          = s.sfile.offset := by
        show t1.sfile.offset = _; rw [hf1]
      have hlen2 : (set_blkno t1 i (s.sfile.source_position / s.source.blksize)).sfile.length
          = s.sfile.length := by
        show t1.sfile.length = _; rw [hf1]
      have hblk2 : (set_blkno t1 i (s.sfile.source_position / s.source.blksize)).source.blksize
          = B := by
        show t1.source.blksize = _; rw [hsrc1]; exact hblk
      have hblk3 : s3.source.blksize = B := by rw [hsrc3]; exact hblk2
      have hfake3 : s3.allow_fake_source = false := by
        rw [hc3.2.2.1]; show t1.allow_fake_source = _; rw [hc1.2.2.1]; exact hfake
      have hfifo3 : s3.do_src_fifo = s.do_src_fifo := by
        rw [hc3.1]; show t1.do_src_fifo = _; exact hc1.1
      have hsize3 : s3.lru_size = s.lru_size := by
        rw [hc3.2.1]; show t1.lru_size = _; exact hc1.2.1
      have hlive3 : Live s3 := live_frame hl1 (by rw [hc3.1]; rfl) (by rw [hc3.2.1]; rfl)
        (by rw [hlist3]; rfl)
      have hfa3 : FA B s → FA B s3 := fun hfa =>
        fa_after hfa hlk (by rw [hsp3s]; exact hcB) hfifo3 hsize3 hrd3s
          (fun j => by rw [hlru3]) (by rw [hsp3s])
      by_cases hrr : rret = 0
      swap
      · rcases hcase3 with ⟨-, hrv, hoff⟩ | ⟨h0, -⟩
        swap
        · exact absurd h0 hrr
        refine ⟨rret, s3, by simp [hrr], ?_, hlive3, by rw [hsp3s],
          fun h => by rw [hsp3s]; exact h, fun h => absurd h hrr,
          fun hfa => ⟨hfa3 hfa, ?_⟩⟩
        · refine ⟨hfake3, hblk3, hB, hBX, by rw [hlen3s]; exact hL, ?_, ?_⟩
          · rw [hsp3s, hoff, hoff2]; exact hQ
          · rw [hsp3s, hoff, hoff2, hlen3s]; exact hal
        · rw [hrv]
          show t1.sfile.read_ret t1.sfile.offset ≠ XD3_TOOFARBACK
          rw [hf1]
          exact hfa.2.1 _
      rcases hcase3 with ⟨hne, -⟩ | ⟨-, hn, hoff⟩
      · exact absurd hrr hne
      rw [hoff2, hlen2, hblk2] at hn
      rw [hoff2] at hoff
      simp only [hrr, ne_eq, not_true_eq_false, if_false]
      by_cases hfull : nread = s3.source.blksize
      swap
      · refine ⟨XD3_INVALID_INPUT, s3, by simp [hfull], ?_, hlive3, by rw [hsp3s],
          fun h => by rw [hsp3s]; exact h, fun h => absurd h (by decide),
          fun hfa => ⟨hfa3 hfa, by decide⟩⟩
        refine ⟨hfake3, hblk3, hB, hBX, by rw [hlen3s]; exact hL, ?_, ?_⟩
        · rw [hsp3s, hoff]; exact le_trans hQ (Nat.le_add_right _ _)
        · rw [hsp3s, hoff, hlen3s]
          rcases hal with h | h
          · exact Or.inl h
          · exact Or.inr (le_trans h (Nat.le_add_right _ _))
      rw [hblk3] at hfull
      have hdiv : B ∣ s.sfile.source_position := by
        rcases hal with h | h
        · exact h
        · exfalso
          have : s.sfile.length - s.sfile.offset = 0 := Nat.sub_eq_zero_of_le h
          rw [this, Nat.min_zero] at hn
          omega
      have hstep : s.sfile.source_position + B ≤ pos := aligned_step hdiv hpos hlt
      have hmod : (s3.sfile.source_position + nread) % XOFF = s.sfile.source_position + B := by
        rw [hsp3s, hfull]
        exact Nat.mod_eq_of_lt (lt_of_le_of_lt hstep hposlt)
      simp only [hfull, hblk3, not_true_eq_false, if_false]
      rw [hfull] at hmod
      rw [hmod]
      have hg5 : GInv B (set_size (set_position s3 (s.sfile.source_position + B)) i B) := by
        refine ⟨hfake3, hblk3, hB, hBX, by show s3.sfile.length < XOFF; rw [hlen3s]; exact hL,
          ?_, ?_⟩
        · show s.sfile.source_position + B ≤ s3.sfile.offset
          rw [hoff, hfull]; omega
        · left
          show B ∣ s.sfile.source_position + B
          exact Dvd.dvd.add hdiv (dvd_refl B)
      have hl5 : Live (set_size (set_position s3 (s.sfile.source_position + B)) i B) :=
        live_frame hlive3 rfl rfl rfl
      obtain ⟨r, s1, hres, hg1, hlv1, hmono, hle, hr0, hfa1⟩ :=
        ih (set_size (set_position s3 (s.sfile.source_position + B)) i B) pos hg5 hl5 hpos hposlt
          (by show pos - (s.sfile.source_position + B) ≤ fuel; omega)
      have hsp5 : (set_size (set_position s3 (s.sfile.source_position + B)) i B).sfile.source_position
          = s.sfile.source_position + B := rfl
      rw [hsp5] at hmono hle
      refine ⟨r, s1, hres, hg1, hlv1, by omega, fun _ => hle hstep, hr0, fun hfa => hfa1 ?_⟩
      exact fa_after hfa hlk (by rw [hsp5]; exact le_trans hcB (Nat.le_add_right _ _))
        hfifo3 hsize3 hrd3s
        (fun j => by
          show ((set_size (set_position s3 _) i B).lru j).blkno = _
          simp only [set_size, set_position]
          split
          · next e => subst e; rw [hlru3]
          · rw [hlru3])
        (by rw [hsp5]; omega)

theorem fa_frame {B : Nat} {s t : Session} (h : FA B s) (h1 : t.do_src_fifo = s.do_src_fifo)
    (h2 : t.lru_size = s.lru_size) (h3 : t.sfile.read_ret = s.sfile.read_ret)
    (h4 : ∀ j, (t.lru j).blkno = (s.lru j).blkno)
    (h5 : s.sfile.source_position ≤ t.sfile.source_position) : FA B t := by
  obtain ⟨hf, hrd, hslots⟩ := h
  refine ⟨h1.trans hf, fun p => by rw [h3]; exact hrd p, fun j hj => ?_⟩
  rw [h4 j]
  rcases hslots j (h2 ▸ hj) with h6 | h6
  · exact Or.inl h6
  · exact Or.inr (le_trans h6 h5)

/-- Forward discipline: a lookup keeps the slot invariant. -/
theorem fa_lookup {B : Nat} {s t : Session} {c i : Nat} {ret : Int} {n : Bool}
    (hfa : FA B s) (h : main_getblk_lru s c = some (ret, i, n, t)) : FA B t := by
  obtain ⟨hf, hrd, hslots⟩ := hfa
  obtain ⟨-, hcases⟩ := fifo_cases hf h
  rcases hcases with ⟨-, -, rfl, -⟩ | ⟨-, rfl, -⟩ | ⟨-, -, rfl, -⟩
  · exact ⟨hf, hrd, hslots⟩
  · exact ⟨hf, hrd, hslots⟩
  · refine ⟨hf, hrd, fun j hj => ?_⟩
    by_cases hji : j = i
    · left
      simp [set_blkno, hji]
    · have : ((set_blkno { s with lru_filled := s.lru_filled + 1 } i NOBLK).lru j) = s.lru j := by
        simp [set_blkno, hji]
      rw [this]
      exact hslots j hj

/-- The two outcomes of `main_read_seek_source` when direct repositioning is
unavailable. -/
theorem seek_unavail (t : Session) (blkno : Nat)
    (hun : t.sfile.seek_failed = true ∨
      t.sfile.seek_ret ((blkno * t.source.blksize) % XOFF) ≠ 0) :
    (t.sfile.source_position > (blkno * t.source.blksize) % XOFF →
      main_read_seek_source t blkno = some (XD3_TOOFARBACK,
        { t with sfile := { t.sfile with
            seek_failed := true
            nseek := if t.sfile.seek_failed then t.sfile.nseek else t.sfile.nseek + 1 } })) ∧
    (t.sfile.source_position ≤ (blkno * t.source.blksize) % XOFF →
      main_read_seek_source t blkno =
        skip_loop ((blkno * t.source.blksize) % XOFF - t.sfile.source_position)
          { t with sfile := { t.sfile with
              seek_failed := true
              nseek := if t.sfile.seek_failed then t.sfile.nseek else t.sfile.nseek + 1 } }
          ((blkno * t.source.blksize) % XOFF)) := by
  cases hsf : t.sfile.seek_failed with
  | true =>
    refine ⟨fun hgt => ?_, fun hle => ?_⟩
    · simp [main_read_seek_source, hsf, hgt]
    · have hng : ¬ (blkno * t.source.blksize) % XOFF < t.sfile.source_position := not_lt.mpr hle
      simp [main_read_seek_source, hsf, hng]
  | false =>
    have hk : t.sfile.seek_ret ((blkno * t.source.blksize) % XOFF) ≠ 0 := by
      rcases hun with h | h
      · rw [hsf] at h; exact absurd h (by simp)
      · exact h
    refine ⟨fun hgt => ?_, fun hle => ?_⟩
    · simp [main_read_seek_source, hsf, main_file_seek, hk, hgt]
    · have hng : ¬ (blkno * t.source.blksize) % XOFF < t.sfile.source_position := not_lt.mpr hle
      simp [main_read_seek_source, hsf, main_file_seek, hk, hng]

/-- Repositioning under the session invariant. -/
theorem seek_spec (B : Nat) (t : Session) (blkno : Nat) (hg : GInv B t) (hl : Live t) :
    ∃ r s3, main_read_seek_source t blkno = some (r, s3) ∧ GInv B s3 ∧ Live s3 ∧
      (r = 0 → s3.sfile.source_position = (blkno * B) % XOFF) ∧
      (t.sfile.seek_failed = true → t.sfile.source_position ≤ s3.sfile.source_position) ∧
      (FA B t → t.sfile.source_position ≤ (blkno * B) % XOFF →
        FA B s3 ∧ r ≠ XD3_TOOFARBACK ∧ s3.sfile.source_position ≤ (blkno * B) % XOFF) := by
  obtain ⟨hfake, hblk, hB, hBX, hL, hQ, hal⟩ := hg
  have hposlt : (blkno * B) % XOFF < XOFF := Nat.mod_lt _ (by decide)
  have hpos : B ∣ (blkno * B) % XOFF := (Nat.dvd_mod_iff hBX).mpr (dvd_mul_left B blkno)
  by_cases hun : t.sfile.seek_failed = true ∨
      t.sfile.seek_ret ((blkno * t.source.blksize) % XOFF) ≠ 0
  · obtain ⟨hback, hfwd⟩ := seek_unavail t blkno hun
    rw [hblk] at hback hfwd
    have hg' : GInv B { t with sfile := { t.sfile with
        seek_failed := true
        nseek := if t.sfile.seek_failed then t.sfile.nseek else t.sfile.nseek + 1 } } :=
      ⟨hfake, hblk, hB, hBX, hL, hQ, hal⟩
    have hl' : Live { t with sfile := { t.sfile with
        seek_failed := true
        nseek := if t.sfile.seek_failed then t.sfile.nseek else t.sfile.nseek + 1 } } :=
      live_frame hl rfl rfl rfl
    by_cases hgt : t.sfile.source_position > (blkno * B) % XOFF
    · exact ⟨_, _, hback hgt, hg', hl', fun h => absurd h (by decide), fun _ => le_refl _,
        fun _ hle => absurd hgt (not_lt.mpr hle)⟩
    · have hle : t.sfile.source_position ≤ (blkno * B) % XOFF := not_lt.mp hgt
      obtain ⟨r, s3, hres, hg3, hl3, hmono, hle3, hr0, hfa3⟩ :=
        skip_loop_spec B ((blkno * B) % XOFF - t.sfile.source_position) _ ((blkno * B) % XOFF)
          hg' hl' hpos hposlt (le_refl _)
      refine ⟨r, s3, (hfwd hle).trans hres, hg3, hl3,
        fun h0 => le_antisymm (hle3 hle) (hr0 h0), fun _ => hmono, fun hfa _ => ?_⟩
      obtain ⟨h1, h2⟩ := hfa3 (fa_frame hfa rfl rfl rfl (fun _ => rfl) (le_refl _))
      exact ⟨h1, h2, hle3 hle⟩
  · have hsf : t.sfile.seek_failed = false := by
      cases h : t.sfile.seek_failed with
      | true => exact absurd (Or.inl h) hun
      | false => rfl
    have hk : t.sfile.seek_ret ((blkno * t.source.blksize) % XOFF) = 0 := by
      by_contra h
      exact hun (Or.inr h)
    refine ⟨0, _, seek_direct t blkno hsf hk, ?_, live_frame hl rfl rfl rfl,
      fun _ => by rw [hblk], fun h => by rw [hsf] at h; exact absurd h (by simp),
      fun hfa hle => ⟨fa_frame hfa rfl rfl rfl (fun _ => rfl) (by rw [hblk]; exact hle),
        by decide, by rw [hblk]⟩⟩
    refine ⟨hfake, hblk, hB, hBX, hL, le_refl _, Or.inl ?_⟩
    show B ∣ (blkno * t.source.blksize) % XOFF
    rw [hblk]; exact hpos
/-- The state after a failed read in the final part of `main_getblk_func`. -/
theorem fill_err (t : Session) (b3 blkno pos : Nat)
    (hread : t.sfile.read_ret t.sfile.offset ≠ 0) :
    getblk_fill t b3 blkno pos = (t.sfile.read_ret t.sfile.offset,
      { t with sfile := { t.sfile with nread := t.sfile.nread + 1 } }) := by
  simp [getblk_fill, main_read_primary_input, hread]

/-- The final read under the session invariant, entered at the target. -/
theorem fill_spec (B : Nat) (t : Session) (b3 blkno pos : Nat) (hg : GInv B t) (hl : Live t)
    (hsp : t.sfile.source_position = pos) (hpos : B ∣ pos) (hposlt : pos < XOFF) :
    ∃ r s1, getblk_fill t b3 blkno pos = (r, s1) ∧ GInv B s1 ∧ Live s1 ∧
      t.sfile.source_position ≤ s1.sfile.source_position ∧
      (FA B t → pos = blkno * B → b3 = blkno % t.lru_size →
        FA B s1 ∧ Res B blkno s1 ∧ r ≠ XD3_TOOFARBACK) := by
  obtain ⟨hfake, hblk, hB, hBX, hL, hQ, hal⟩ := hg
  by_cases hread : t.sfile.read_ret t.sfile.offset = 0
  · have hnw : pos + min B (t.sfile.length - t.sfile.offset) < XOFF := by
      rw [hsp] at hQ
      rcases Nat.le_total t.sfile.length t.sfile.offset with h | h
      · rw [Nat.sub_eq_zero_of_le h, Nat.min_zero]
        omega
      · have := Nat.min_le_right B (t.sfile.length - t.sfile.offset)
        omega
    have hmod : (pos + min t.source.blksize (t.sfile.length - t.sfile.offset)) % XOFF
        = pos + min B (t.sfile.length - t.sfile.offset) := by
      rw [hblk]; exact Nat.mod_eq_of_lt hnw
    refine ⟨_, _, fill_ok t b3 blkno pos hread, ?_, live_frame hl rfl rfl rfl, ?_, ?_⟩
    · refine ⟨hfake, hblk, hB, hBX, hL, ?_, ?_⟩
      · show (pos + min t.source.blksize (t.sfile.length - t.sfile.offset)) % XOFF
          ≤ t.sfile.offset + min t.source.blksize (t.sfile.length - t.sfile.offset)
        rw [hmod, hblk]
        rw [hsp] at hQ
        omega
      · show B ∣ (pos + min t.source.blksize (t.sfile.length - t.sfile.offset)) % XOFF ∨
          t.sfile.length ≤ t.sfile.offset + min t.source.blksize (t.sfile.length - t.sfile.offset)
        rw [hmod, hblk]
        by_cases hfull : min B (t.sfile.length - t.sfile.offset) = B
        · left
          rw [hfull]
          exact Dvd.dvd.add hpos (dvd_refl B)
        · right
          have : min B (t.sfile.length - t.sfile.offset) = t.sfile.length - t.sfile.offset := by
            rcases Nat.le_total B (t.sfile.length - t.sfile.offset) with h | h
            · exact absurd (Nat.min_eq_left h) hfull
            · exact Nat.min_eq_right h
          rw [this]
          omega
    · show t.sfile.source_position
        ≤ (pos + min t.source.blksize (t.sfile.length - t.sfile.offset)) % XOFF
      rw [hmod, hsp]
      exact Nat.le_add_right _ _
    · intro hfa hpb hb3
      refine ⟨?_, ?_, by decide⟩
      · obtain ⟨hf, hrd, hslots⟩ := hfa
        refine ⟨hf, hrd, fun j hj => ?_⟩
        show (if j = b3 then (⟨(t.lru b3).blk, blkno,
            min t.source.blksize (t.sfile.length - t.sfile.offset)⟩ : main_blklru)
          else t.lru j).blkno = NOBLK ∨
          (if j = b3 then (⟨(t.lru b3).blk, blkno,
            min t.source.blksize (t.sfile.length - t.sfile.offset)⟩ : main_blklru)
          else t.lru j).blkno * B
            ≤ (pos + min t.source.blksize (t.sfile.length - t.sfile.offset)) % XOFF
        rw [hmod]
        by_cases hjb : j = b3
        · right
          simp only [hjb, if_true]
          rw [hpb]
          exact Nat.le_add_right _ _
        · simp only [hjb, if_false]
          rcases hslots j hj with h | h
          · exact Or.inl h
          · right
            rw [hsp] at h
            exact le_trans h (Nat.le_add_right _ _)
      · intro c hc hlt
        change c * B < (pos + min t.source.blksize (t.sfile.length - t.sfile.offset)) % XOFF at hlt
        rw [hmod, hpb] at hlt
        have hmin := Nat.min_le_left B (t.sfile.length - t.sfile.offset)
        have hc1 : c * B < (blkno + 1) * B := by
          have : (blkno + 1) * B = blkno * B + B := by ring
          omega
        have hc2 : c < blkno + 1 := lt_of_mul_lt_mul_right hc1 (Nat.zero_le B)
        have hceq : c = blkno := by omega
        subst hceq
        show (if c % t.lru_size = b3 then (⟨(t.lru b3).blk, c,
            min t.source.blksize (t.sfile.length - t.sfile.offset)⟩ : main_blklru)
          else t.lru (c % t.lru_size)).blkno = c
        rw [if_pos hb3.symm]
  · refine ⟨_, _, fill_err t b3 blkno pos hread,
      ⟨hfake, hblk, hB, hBX, hL, hQ, hal⟩, live_frame hl rfl rfl rfl, le_refl _, ?_⟩
    intro hfa hpb _
    refine ⟨fa_frame hfa rfl rfl rfl (fun _ => rfl) (le_refl _), ?_, hfa.2.1 _⟩
    intro c hc hlt
    change c * B < t.sfile.source_position at hlt
    rw [hsp, hpb] at hlt
    have : c < blkno := lt_of_mul_lt_mul_right hlt (Nat.zero_le B)
    omega
/-- The repositioning part of `main_getblk_func` under the session
invariant. -/
theorem locate_spec (B : Nat) (t2 : Session) (idx blkno : Nat) (hg : GInv B t2) (hl : Live t2) :
    ∃ r b3 s5, getblk_locate t2 idx blkno ((blkno * B) % XOFF) = some (r, b3, s5) ∧
      GInv B s5 ∧ Live s5 ∧
      (r = 0 → s5.sfile.source_position = (blkno * B) % XOFF) ∧
      (t2.sfile.seek_failed = true → t2.sfile.source_position ≤ s5.sfile.source_position) ∧
      (FA B t2 → t2.sfile.source_position ≤ (blkno * B) % XOFF → (blkno * B) % XOFF = blkno * B →
        idx = blkno % t2.lru_size →
        FA B s5 ∧ r ≠ XD3_TOOFARBACK ∧ s5.sfile.source_position ≤ (blkno * B) % XOFF ∧
          (r = 0 → b3 = blkno % s5.lru_size)) := by
  by_cases hp : (blkno * B) % XOFF = t2.sfile.source_position
  · refine ⟨0, idx, t2, by simp [getblk_locate, hp], hg, hl, fun _ => hp.symm,
      fun _ => le_refl _, fun hfa hle _ hidx => ⟨hfa, by decide, hle, fun _ => hidx⟩⟩
  · obtain ⟨r1, s3, h3, hg3, hl3, hr3, hmono3, hfa3⟩ := seek_spec B t2 blkno hg hl
    obtain ⟨hc3, -⟩ := seek_frame h3
    by_cases hr1 : r1 = 0
    swap
    · refine ⟨r1, idx, s3, by simp [getblk_locate, hp, h3, hr1], hg3, hl3, hr3, hmono3, ?_⟩
      intro hfa hle _ _
      obtain ⟨h1, h2, h4⟩ := hfa3 hfa hle
      exact ⟨h1, h2, h4, fun h => absurd h hr1⟩
    · obtain ⟨ret2, b2, n2, s4, h4, hl4⟩ := lookup_total s3 blkno hl3
      obtain ⟨hc4, hf4, -, hsrc4, -⟩ := lru_frame h4
      have hg4 : GInv B s4 := ginv_frame hg3 hc4.2.2.1 hc4.2.2.2 (by rw [hf4]) (by rw [hf4])
        (by rw [hf4])
      refine ⟨ret2, b2, s4, by simp [getblk_locate, hp, h3, hr1, h4], hg4, hl4,
        fun _ => by rw [hf4]; exact hr3 hr1, fun h => by rw [hf4]; exact hmono3 h, ?_⟩
      intro hfa hle hnw _
      obtain ⟨hfa3', -, hle3⟩ := hfa3 hfa hle
      have hB : 0 < B := hg.2.2.1
      have hret2 : ret2 = 0 := by
        refine fa_lookup_ok hfa3' hl3 ?_ h4
        intro v hv
        rw [hr3 hr1, hnw] at hv
        exact le_of_mul_le_mul_right hv hB
      refine ⟨fa_lookup hfa3' h4, by rw [hret2]; decide, by rw [hf4]; exact hle3, fun _ => ?_⟩
      rw [(fifo_cases hfa3'.1 h4).1, hc4.2.1]

/-- One call of `main_getblk_func` under the session invariant: it returns,
keeps the invariant, does not move the position backwards once `seek_failed`
is set, and in the forward discipline, for a request not below the bound `m`
of the residency invariant, keeps the slot invariant, re-establishes residency
from the request on and does not return `XD3_TOOFARBACK`. -/
theorem getblk_spec (B : Nat) (s : Session) (b : Nat) (hg : GInv B s) (hl : Live s) :
    ∃ r s1, main_getblk_func s b = some (r, s1) ∧ GInv B s1 ∧ Live s1 ∧
      (s.sfile.seek_failed = true → s.sfile.source_position ≤ s1.sfile.source_position) ∧
      (∀ m, FA B s → Res B m s → m ≤ b → (b + 1) * B < XOFF →
        FA B s1 ∧ Res B b s1 ∧ r ≠ XD3_TOOFARBACK) := by
  have hfake : s.allow_fake_source = false := hg.1
  have hblk : s.source.blksize = B := hg.2.1
  have hB : 0 < B := hg.2.2.1
  have hBX : B ∣ XOFF := hg.2.2.2.1
  obtain ⟨ret, i, n, t1, h1, hl1⟩ := lookup_total s b hl
  obtain ⟨hc1, hf1, -, hsrc1, -⟩ := lru_frame h1
  have hg1 : GInv B t1 := ginv_frame hg hc1.2.2.1 hc1.2.2.2 (by rw [hf1]) (by rw [hf1])
    (by rw [hf1])
  rw [main_getblk_func_eq s b hfake, h1, hblk]
  have hnowrap : (b + 1) * B < XOFF → (b * B) % XOFF = b * B := by
    intro h
    apply Nat.mod_eq_of_lt
    have : (b + 1) * B = b * B + B := by ring
    omega
  -- the lookup cannot fail in the forward discipline
  have hfifo_ret : ∀ m, FA B s → Res B m s → m ≤ b → ret = 0 := by
    intro m hfa hres hmb
    obtain ⟨hi, hcases⟩ := fifo_cases hfa.1 h1
    have hn : s.lru_size ≠ 0 := by simpa [Live, hfa.1] using hl
    rcases hcases with ⟨h0, -⟩ | ⟨-, -, hne, hgt⟩ | ⟨h0, -⟩
    · exact h0
    · exfalso
      have hilt : i < s.lru_size := by rw [hi]; exact Nat.mod_lt _ (Nat.pos_of_ne_zero hn)
      rcases hfa.2.2 i hilt with h | h
      · exact hne h
      · have hlt : b * B < s.sfile.source_position :=
          lt_of_lt_of_le (Nat.mul_lt_mul_of_pos_right hgt hB) h
        have := hres b hmb hlt
        rw [← hi] at this
        omega
    · exact h0
  by_cases hret : ret = 0
  swap
  · refine ⟨ret, t1, by simp [hret], hg1, hl1, fun _ => by rw [hf1], ?_⟩
    intro m hfa hres hmb _
    exact absurd (hfifo_ret m hfa hres hmb) hret
  by_cases hn : n = false
  · refine ⟨0, hit_state t1 i b, by simp [hret, hn], ?_, live_frame hl1 rfl rfl rfl,
      fun _ => by show s.sfile.source_position ≤ t1.sfile.source_position; rw [hf1], ?_⟩
    · exact ginv_frame hg1 rfl rfl rfl rfl rfl
    · intro m hfa hres hmb _
      have hfa1 := fa_lookup hfa h1
      refine ⟨fa_frame hfa1 rfl rfl rfl (fun _ => rfl) (le_refl _), ?_, by decide⟩
      obtain ⟨-, hcases⟩ := fifo_cases hfa.1 h1
      have ht1 : t1 = s := by
        rcases hcases with ⟨-, -, e, -⟩ | ⟨h0, -⟩ | ⟨-, hn1, -⟩
        · exact e
        · rw [hret] at h0; exact absurd h0 (by decide)
        · rw [hn] at hn1; exact absurd hn1 (by simp)
      intro c hc hlt
      show (t1.lru (c % t1.lru_size)).blkno = c
      rw [ht1]
      exact hres c (le_trans hmb hc) (by
        have : (hit_state t1 i b).sfile.source_position = s.sfile.source_position := by
          show t1.sfile.source_position = _; rw [hf1]
        rw [this] at hlt; exact hlt)
  have hn1 : n = true := by
    cases n with
    | true => rfl
    | false => exact absurd rfl hn
  have hg2 : GInv B { t1 with lru_misses := t1.lru_misses + 1 } :=
    ginv_frame hg1 rfl rfl rfl rfl rfl
  have hl2 : Live { t1 with lru_misses := t1.lru_misses + 1 } := live_frame hl1 rfl rfl rfl
  obtain ⟨r3, b3, s5, hloc, hg5, hl5, hr5, hmono5, hfa5⟩ :=
    locate_spec B { t1 with lru_misses := t1.lru_misses + 1 } i b hg2 hl2
  have hmono5' : s.sfile.seek_failed = true →
      s.sfile.source_position ≤ s5.sfile.source_position := by
    intro h
    have := hmono5 (by show t1.sfile.seek_failed = true; rw [hf1]; exact h)
    have e : ({ t1 with lru_misses := t1.lru_misses + 1 } : Session).sfile.source_position
        = s.sfile.source_position := by
      show t1.sfile.source_position = _; rw [hf1]
    rw [e] at this
    exact this
  -- the forward-discipline facts at the state handed to the repositioning part
  have hfifo2 : ∀ m, FA B s → Res B m s → m ≤ b → (b + 1) * B < XOFF →
      FA B s5 ∧ r3 ≠ XD3_TOOFARBACK ∧ s5.sfile.source_position ≤ b * B ∧
        (r3 = 0 → b3 = b % s5.lru_size) := by
    intro m hfa hres hmb hbnd
    have hnw := hnowrap hbnd
    obtain ⟨hi, hcases⟩ := fifo_cases hfa.1 h1
    have hmiss : (s.lru i).blkno ≠ b := by
      rcases hcases with ⟨-, hn0, -⟩ | ⟨h0, -⟩ | ⟨-, -, -, h, -⟩
      · rw [hn1] at hn0; exact absurd hn0 (by simp)
      · rw [hret] at h0; exact absurd h0 (by decide)
      · exact h
    have hle : s.sfile.source_position ≤ b * B := by
      by_contra hcon
      have := hres b hmb (not_le.mp hcon)
      rw [← hi] at this
      exact hmiss this
    have hfa2 : FA B { t1 with lru_misses := t1.lru_misses + 1 } :=
      fa_frame (fa_lookup hfa h1) rfl rfl rfl (fun _ => rfl) (le_refl _)
    have hle2 : ({ t1 with lru_misses := t1.lru_misses + 1 } : Session).sfile.source_position
        ≤ (b * B) % XOFF := by
      show t1.sfile.source_position ≤ _
      rw [hf1, hnw]; exact hle
    obtain ⟨h5, h6, h7, h8⟩ := hfa5 hfa2 hle2 hnw (by
      show i = b % t1.lru_size
      rw [hc1.2.1]; exact hi)
    rw [hnw] at h7
    exact ⟨h5, h6, h7, h8⟩
  by_cases hr3 : r3 = 0
  swap
  · refine ⟨r3, s5, by simp [hret, hn1, hloc, hr3], hg5, hl5, hmono5', ?_⟩
    intro m hfa hres hmb hbnd
    obtain ⟨h5, h6, h7, -⟩ := hfifo2 m hfa hres hmb hbnd
    refine ⟨h5, ?_, h6⟩
    intro c hc hlt
    have : c * B < b * B := lt_of_lt_of_le hlt h7
    have : c < b := lt_of_mul_lt_mul_right this (Nat.zero_le B)
    omega
  · have hposlt : (b * B) % XOFF < XOFF := Nat.mod_lt _ (by decide)
    have hpos : B ∣ (b * B) % XOFF := (Nat.dvd_mod_iff hBX).mpr (dvd_mul_left B b)
    obtain ⟨r, s1, hfill, hgf, hlf, hmonof, hfaf⟩ :=
      fill_spec B s5 b3 b ((b * B) % XOFF) hg5 hl5 (hr5 hr3) hpos hposlt
    refine ⟨r, s1, by simp [hret, hn1, hloc, hr3, hfill], hgf, hlf,
      fun h => le_trans (hmono5' h) hmonof, ?_⟩
    intro m hfa hres hmb hbnd
    obtain ⟨h5, -, -, h8⟩ := hfifo2 m hfa hres hmb hbnd
    exact hfaf h5 (hnowrap hbnd) (h8 hr3)

theorem pow_split (k : Nat) (h5 : 5 ≤ k) : 2 ^ k / 32 = 2 ^ (k - 5) ∧ 2 ^ k = 32 * 2 ^ (k - 5) := by
  have h : 2 ^ k = 2 ^ 5 * 2 ^ (k - 5) := by
    rw [← pow_add]
    congr 1
    omega
  have h32 : (2 : Nat) ^ 5 = 32 := by norm_num
  rw [h32] at h
  refine ⟨?_, h⟩
  rw [h]
  exact Nat.mul_div_cancel_left _ (by norm_num)

theorem pow_dvd_xoff (j : Nat) (h : j ≤ 64) : 2 ^ j ∣ XOFF := pow_dvd_pow 2 h

/-- The state `main_set_source` returns satisfies the session invariant for
its block size, and its lookup can return. -/
theorem configured_ginv (s : Session) (k : Nat) (h : Fresh s k) (hk5 : 5 ≤ k)
    (hLx : s.sfile.length < XOFF) :
    GInv (configured s (2 ^ k)).source.blksize (configured s (2 ^ k)) ∧
      Live (configured s (2 ^ k)) := by
  obtain ⟨hk, hw, hfake, hfifo, hopen, halloc, hpos, hoff, hread⟩ := h
  obtain ⟨hdiv, hmul⟩ := pow_split k hk5
  by_cases hL : s.sfile.length < 2 ^ k
  · have hm : min (2 ^ k) s.sfile.length = s.sfile.length := min_eq_right (le_of_lt hL)
    refine ⟨⟨?_, rfl, ?_, ?_, ?_, ?_, ?_⟩, ?_⟩
    · simp [configured, hL, probed, hfake]
    · simp [configured, hL, probed]
    · simp only [configured, hL, if_true, probed]
      exact pow_dvd_xoff k (by omega)
    · simpa [configured, hL, probed] using hLx
    · simp [configured, hL, probed]
    · right
      simp [configured, hL, probed, hm]
    · simp [Live, configured, hL, probed, hfifo, rev31]
  · have hm : min (2 ^ k) s.sfile.length = 2 ^ k := min_eq_left (not_lt.mp hL)
    refine ⟨⟨?_, rfl, ?_, ?_, ?_, ?_, ?_⟩, ?_⟩
    · simp [configured, hL, probed, hfake]
    · simp only [configured, hL, if_false, probed]
      rw [hdiv]
      exact Nat.pos_pow_of_pos _ (by norm_num)
    · simp only [configured, hL, if_false, probed]
      rw [hdiv]
      exact pow_dvd_xoff _ (by omega)
    · simpa [configured, hL, probed] using hLx
    · simp [configured, hL, probed]
    · left
      simp only [configured, hL, if_false, probed, hm]
      rw [hdiv]
      exact ⟨32, by rw [hmul]; ring⟩
    · by_cases hst : s.sfile.stat_ret = 0
      · simp [Live, configured, hL, probed, hfifo, rev31, hst]
      · simp [Live, configured, hL, probed, hfifo, rev31, hst]

/-- In the forward discipline the state `main_set_source` returns satisfies
the slot invariant, and all blocks that start before the position are
resident. -/
theorem configured_fifo (s : Session) (k : Nat) (hk5 : 5 ≤ k)
    (hst : s.sfile.stat_ret ≠ 0) (hL : 2 ^ k ≤ s.sfile.length)
    (hrd : ∀ p, s.sfile.read_ret p ≠ XD3_TOOFARBACK) :
    (configured s (2 ^ k)).source.blksize = 2 ^ k / 32 ∧
    (configured s (2 ^ k)).do_src_fifo = true ∧
    FA (2 ^ k / 32) (configured s (2 ^ k)) ∧ Res (2 ^ k / 32) 0 (configured s (2 ^ k)) := by
  obtain ⟨hdiv, hmul⟩ := pow_split k hk5
  have hL2 : ¬ s.sfile.length < 2 ^ k := not_lt.mpr hL
  have hm : min (2 ^ k) s.sfile.length = 2 ^ k := min_eq_left hL
  have hBpos : 0 < 2 ^ (k - 5) := Nat.pos_pow_of_pos _ (by norm_num)
  refine ⟨by simp [configured, hL2, probed], by simp [configured, hL2, hst], ?_, ?_⟩
  · refine ⟨by simp [configured, hL2, hst], ?_, ?_⟩
    · intro p
      simpa [configured, hL2, probed] using hrd p
    · intro i hi
      have hi32 : i < 32 := by simpa [configured, hL2] using hi
      right
      simp only [configured, hL2, if_false, probed, hm, hi32, if_true]
      rw [hdiv, hmul]
      calc i * 2 ^ (k - 5) ≤ 32 * 2 ^ (k - 5) := Nat.mul_le_mul_right _ (le_of_lt hi32)
        _ = 32 * 2 ^ (k - 5) := rfl
  · intro c _ hlt
    simp only [configured, hL2, if_false, probed, hm] at hlt ⊢
    rw [hdiv] at hlt
    rw [hmul] at hlt
    have hc : c < 32 := lt_of_mul_lt_mul_right hlt (Nat.zero_le _)
    have hcm : c % 32 = c := Nat.mod_eq_of_lt hc
    simp [hcm, hc]

theorem run_fifo (B : Nat) : ∀ (bs : List Nat) (s : Session) (m : Nat),
    GInv B s → Live s → FA B s → Res B m s → (∀ b, b ∈ bs → m ≤ b) →
    bs.Pairwise (fun a b => a ≤ b) → (∀ b, b ∈ bs → (b + 1) * B < XOFF) →
    ∃ rs, run_codes s bs = some rs ∧ rs.length = bs.length ∧ XD3_TOOFARBACK ∉ rs := by
  intro bs
  induction bs with
  | nil =>
    intro s m _ _ _ _ _ _ _
    exact ⟨[], rfl, rfl, by simp⟩
  | cons b bs ih =>
    intro s m hg hl hfa hres hm hsorted hbnd
    obtain ⟨r, s1, hcall, hg1, hl1, -, hf⟩ := getblk_spec B s b hg hl
    obtain ⟨hfa1, hres1, hr⟩ := hf m hfa hres (hm b (List.mem_cons_self b bs))
      (hbnd b (List.mem_cons_self b bs))
    obtain ⟨hhead, htail⟩ := List.pairwise_cons.mp hsorted
    obtain ⟨rs, hrun, hlen, hnot⟩ := ih s1 b hg1 hl1 hfa1 hres1 hhead htail
      (fun x hx => hbnd x (List.mem_cons_of_mem b hx))
    refine ⟨r :: rs, by simp [run_codes, hcall, hrun], by simp [hlen], ?_⟩
    intro hmem
    rcases List.mem_cons.mp hmem with h | h
    · exact hr h.symm
    · exact hnot h

/-- C7 (amended): forward discipline, non-decreasing requests. In a session
set up by `main_set_source` on a source whose size is not known (window `2^k`,
block size `2^k / 32`), every sequence of `main_getblk_func` calls with
non-decreasing block indices whose byte ranges fit `xoff_t`, that is
`(b + 1) * (2^k / 32) < 2^64` for every requested `b`, runs to the end, each
call returning, and no call returns `XD3_TOOFARBACK`, provided the reads
themselves never report that code. -/
theorem C7_nondecreasing_never_too_far_back (s : Session) (k : Nat) (h : Fresh s k)
    (hk5 : 5 ≤ k) (hst : s.sfile.stat_ret ≠ 0) (hL : 2 ^ k ≤ s.sfile.length)
    (hLx : s.sfile.length < XOFF) (hrd : ∀ p, s.sfile.read_ret p ≠ XD3_TOOFARBACK)
    (bs : List Nat) (hsorted : bs.Pairwise (fun a b => a ≤ b))
    (hbnd : ∀ b, b ∈ bs → (b + 1) * (2 ^ k / 32) < XOFF) :
    main_set_source s = some (s.set_source_ret, configured s (2 ^ k)) ∧
    (configured s (2 ^ k)).do_src_fifo = true ∧
    ∃ rs, run_codes (configured s (2 ^ k)) bs = some rs ∧ rs.length = bs.length ∧
      XD3_TOOFARBACK ∉ rs := by
  obtain ⟨hblk, hfifo, hfa, hres⟩ := configured_fifo s k hk5 hst hL hrd
  obtain ⟨hg, hl⟩ := configured_ginv s k h hk5 hLx
  rw [hblk] at hg
  exact ⟨main_set_source_eq s k h, hfifo,
    run_fifo (2 ^ k / 32) bs (configured s (2 ^ k)) 0 hg hl hfa hres (fun _ _ => Nat.zero_le _)
      hsorted hbnd⟩

/-- Witness of C7 on a pipe of 10000 bytes with window 4096: the requests
0, 2, 40, 40, 77. -/
theorem C7_nondecreasing_never_too_far_back_witness :
    main_set_source demo_pipe = some (demo_pipe.set_source_ret, configured demo_pipe (2 ^ 12)) ∧
    (configured demo_pipe (2 ^ 12)).do_src_fifo = true ∧
    ∃ rs, run_codes (configured demo_pipe (2 ^ 12)) [0, 2, 40, 40, 77] = some rs ∧
      rs.length = [0, 2, 40, 40, 77].length ∧ XD3_TOOFARBACK ∉ rs :=
  C7_nondecreasing_never_too_far_back demo_pipe 12 fresh_demo_pipe (by decide) (by decide)
    (by decide) (by decide) (fun _ => show (0 : Int) ≠ XD3_TOOFARBACK by decide)
    [0, 2, 40, 40, 77] (by decide) (by decide)

theorem run_ginv (B : Nat) : ∀ (bs : List Nat) (s : Session), GInv B s → Live s →
    ∃ s1, run_calls s bs = some s1 ∧ GInv B s1 ∧ Live s1 := by
  intro bs
  induction bs with
  | nil =>
    intro s hg hl
    exact ⟨s, rfl, hg, hl⟩
  | cons b bs ih =>
    intro s hg hl
    obtain ⟨r, t, hcall, hg1, hl1, -, -⟩ := getblk_spec B s b hg hl
    obtain ⟨s1, hrun, hg2, hl2⟩ := ih t hg1 hl1
    exact ⟨s1, by simp [run_calls, hcall, hrun], hg2, hl2⟩

/-- C18: cursor monotonicity. In a session set up by `main_set_source` on a
real source (window `2^k`, stream length below `2^64`), after any sequence of
`main_getblk_func` calls, every further call returns, and if `seek_failed` is
set before the call then `source_position` after the call is at least its
value before, whatever the call returns. -/
theorem C18_position_monotone (s : Session) (k : Nat) (h : Fresh s k) (hk5 : 5 ≤ k)
    (hLx : s.sfile.length < XOFF) (bs : List Nat) (b : Nat) :
    ∃ s1, run_calls (configured s (2 ^ k)) bs = some s1 ∧
      ∃ r s2, main_getblk_func s1 b = some (r, s2) ∧
        (s1.sfile.seek_failed = true →
          s1.sfile.source_position ≤ s2.sfile.source_position) := by
  obtain ⟨hg, hl⟩ := configured_ginv s k h hk5 hLx
  obtain ⟨s1, hrun, hg1, hl1⟩ := run_ginv _ bs _ hg hl
  obtain ⟨r, s2, hcall, -, -, hmono, -⟩ := getblk_spec _ s1 b hg1 hl1
  exact ⟨s1, hrun, r, s2, hcall, hmono⟩

/-- Witness of C18 on a pipe of 10000 bytes with window 4096: the request for
block 40 makes the seek fail, after which block 50 is requested. -/
theorem C18_position_monotone_witness :
    (run_calls (configured demo_pipe (2 ^ 12)) [40]).map (fun x => x.sfile.seek_failed)
      = some true ∧
    ∃ s1, run_calls (configured demo_pipe (2 ^ 12)) [40] = some s1 ∧
      ∃ r s2, main_getblk_func s1 50 = some (r, s2) ∧
        (s1.sfile.seek_failed = true →
          s1.sfile.source_position ≤ s2.sfile.source_position) :=
  ⟨by decide, C18_position_monotone demo_pipe 12 fresh_demo_pipe (by decide) (by decide) [40] 50⟩

theorem read_nread {s s1 : Session} {buf sz n : Nat} {r : Int}
    (h : main_read_primary_input s buf sz = (r, n, s1)) :
    s1.sfile.nread = s.sfile.nread + 1 := by
  unfold main_read_primary_input at h
  simp only at h
  split at h
  · simp only [Prod.mk.injEq] at h
    obtain ⟨_, _, rfl⟩ := h
    rfl
  · simp only [Prod.mk.injEq] at h
    obtain ⟨_, _, rfl⟩ := h
    rfl

theorem skip_chain_nread (B : Nat) : ∀ (n c : Nat) (s s1 : Session),
    SkipChain B n c s s1 → s1.sfile.nread = s.sfile.nread + n := by
  intro n
  induction n with
  | zero =>
    intro c s s1 h
    simp only [SkipChain] at h
    rw [h]; rfl
  | succ n ih =>
    intro c s s1 h
    simp only [SkipChain] at h
    obtain ⟨b, is_new, u, v, t, -, -, -, -, -, -, -, hn, hch⟩ := h
    rw [ih (c + 1) t s1 hch, hn]
    omega

/-- A skip loop that starts at the beginning of block `c`, targets the
beginning of block `c + n` and returns 0 has read exactly the blocks
`c, ..., c + n - 1` and stands at the target. -/
theorem skip_chain (B : Nat) (hB : 0 < B) : ∀ (n c fuel : Nat) (s s1 : Session),
    s.source.blksize = B → s.sfile.source_position = c * B → (c + n) * B < XOFF →
    skip_loop fuel s ((c + n) * B) = some (0, s1) →
    SkipChain B n c s s1 ∧ s1.sfile.source_position = (c + n) * B := by
  intro n
  induction n with
  | zero =>
    intro c fuel s s1 _ hsp _ h
    have hnlt : ¬ s.sfile.source_position < (c + 0) * B := by rw [hsp]; simp
    cases fuel with
    | zero =>
      simp only [skip_loop, hnlt, if_false, Option.some.injEq, Prod.mk.injEq, true_and] at h
      subst h
      exact ⟨rfl, by rw [hsp]; simp⟩
    | succ fuel =>
      simp only [skip_loop, hnlt, if_false, Option.some.injEq, Prod.mk.injEq, true_and] at h
      subst h
      exact ⟨rfl, by rw [hsp]; simp⟩
  | succ n ih =>
    intro c fuel s s1 hblk hsp hnw h
    have hlt : s.sfile.source_position < (c + (n + 1)) * B := by
      rw [hsp]
      exact Nat.mul_lt_mul_of_pos_right (by omega) hB
    cases fuel with
    | zero => simp [skip_loop, hlt] at h
    | succ fuel =>
      have hc : s.sfile.source_position / s.source.blksize = c := by
        rw [hsp, hblk]
        exact Nat.mul_div_cancel c hB
      simp only [skip_loop, hlt, if_true, hc] at h
      cases hl : main_getblk_lru s c with
      | none => rw [hl] at h; exact absurd h (by simp)
      | some x =>
        obtain ⟨ret, b, is_new, u⟩ := x
        rw [hl] at h
        simp only at h
        obtain ⟨-, hf, -, hsrc, -⟩ := lru_frame hl
        by_cases hret : ret = 0
        swap
        · simp only [hret, ne_eq, not_false_eq_true, if_true, Option.some.injEq,
            Prod.mk.injEq] at h
          exact h.1.elim
        subst hret
        simp only [ne_eq, not_true_eq_false, if_false] at h
        have hblk2 : (set_blkno u b c).source.blksize = B := by
          show u.source.blksize = B; rw [hsrc]; exact hblk
        rw [hblk2] at h
        cases hr : main_read_primary_input (set_blkno u b c) ((set_blkno u b c).lru b).blk B with
        | mk rret y =>
          obtain ⟨nread, v⟩ := y
          rw [hr] at h
          simp only at h
          obtain ⟨-, hlru, -, -, -, -, hspv, hsrcv⟩ := read_frame hr
          have hblkv : v.source.blksize = B := by rw [hsrcv]; exact hblk2
          have hspv2 : v.sfile.source_position = c * B := by
            rw [hspv]; show u.sfile.source_position = _; rw [hf]; exact hsp
          by_cases hrr : rret = 0
          swap
          · simp only [hrr, ne_eq, not_false_eq_true, if_true, Option.some.injEq,
              Prod.mk.injEq] at h
            exact h.1.elim
          subst hrr
          simp only [ne_eq, not_true_eq_false, if_false, hblkv] at h
          by_cases hfull : nread = B
          swap
          · simp only [hfull, not_false_eq_true, if_true, Option.some.injEq, Prod.mk.injEq] at h
            exact absurd h.1 (by decide)
          subst hfull
          simp only [not_true_eq_false, if_false, hspv2] at h
          have hnext : (c * nread + nread) % XOFF = (c + 1) * nread := by
            have e : c * nread + nread = (c + 1) * nread := by ring
            rw [e]
            apply Nat.mod_eq_of_lt
            refine lt_of_le_of_lt (Nat.mul_le_mul_right _ ?_) hnw
            omega
          rw [hnext] at h
          have e2 : (c + (n + 1)) * nread = (c + 1 + n) * nread := by ring
          rw [e2] at h hnw
          obtain ⟨hch, hend⟩ := ih (c + 1) fuel
            (set_size (set_position v ((c + 1) * nread)) b nread) s1 hblkv rfl hnw h
          refine ⟨?_, by rw [hend, e2]⟩
          simp only [SkipChain]
          refine ⟨b, is_new, u, v, _, hsp, hl, hr, rfl, ?_, ?_, rfl, ?_, hch⟩
          · simp [set_size, set_position, hlru, set_blkno]
          · simp [set_size, set_position]
          · show v.sfile.nread = s.sfile.nread + 1
            rw [read_nread hr]
            show u.sfile.nread + 1 = _
            rw [hf]

/-- C15: skip-read postcondition. If direct repositioning is unavailable, the
position is the start `c * B` of a block, the target is `blkno * B` with
`c <= blkno` (and fits `xoff_t`), then whenever `main_read_seek_source (blkno)`
returns 0 it has read exactly the blocks `c, ..., blkno - 1` in that order,
each with exactly `B` bytes into a slot obtained from `main_getblk_lru` and
left with `blkno` the block and `size = B` (the chain `SkipChain`), with
`blkno - c` reads in all, and it ends with `source_position = blkno * B`. -/
theorem C15_skip_read_postcondition (s s1 : Session) (blkno c : Nat)
    (hun : s.sfile.seek_failed = true ∨
      s.sfile.seek_ret ((blkno * s.source.blksize) % XOFF) ≠ 0)
    (hB : 0 < s.source.blksize)
    (hsp : s.sfile.source_position = c * s.source.blksize) (hc : c ≤ blkno)
    (hnw : blkno * s.source.blksize < XOFF)
    (hret : main_read_seek_source s blkno = some (0, s1)) :
    SkipChain s.source.blksize (blkno - c) c
      { s with sfile := { s.sfile with
          seek_failed := true
          nseek := if s.sfile.seek_failed then s.sfile.nseek else s.sfile.nseek + 1 } } s1 ∧
    s1.sfile.source_position = blkno * s.source.blksize ∧
    s1.sfile.nread = s.sfile.nread + (blkno - c) := by
  have hmod : (blkno * s.source.blksize) % XOFF = blkno * s.source.blksize :=
    Nat.mod_eq_of_lt hnw
  have hle : s.sfile.source_position ≤ (blkno * s.source.blksize) % XOFF := by
    rw [hmod, hsp]
    exact Nat.mul_le_mul_right _ hc
  have heq := (seek_unavail s blkno hun).2 hle
  rw [heq, hmod] at hret
  have e : blkno = c + (blkno - c) := by omega
  have hret2 : skip_loop (blkno * s.source.blksize - s.sfile.source_position)
      { s with sfile := { s.sfile with
          seek_failed := true
          nseek := if s.sfile.seek_failed then s.sfile.nseek else s.sfile.nseek + 1 } }
      ((c + (blkno - c)) * s.source.blksize) = some (0, s1) := by
    rw [← e]; exact hret
  obtain ⟨hch, hend⟩ := skip_chain s.source.blksize hB (blkno - c) c _
    { s with sfile := { s.sfile with
        seek_failed := true
        nseek := if s.sfile.seek_failed then s.sfile.nseek else s.sfile.nseek + 1 } }
    s1 rfl hsp (by rw [← e]; exact hnw) hret2
  have hnr := skip_chain_nread _ _ _ _ _ hch
  exact ⟨hch, by rw [hend, ← e], hnr⟩

/-- Witness of C15 in the session set up on a pipe of 10000 bytes (window
4096, block size 128, position 4096 = 32 * 128): repositioning to block 40. -/
theorem C15_skip_read_postcondition_witness :
    ∃ s1, main_read_seek_source (configured demo_pipe (2 ^ 12)) 40 = some (0, s1) ∧
      s1.sfile.source_position = 40 * (configured demo_pipe (2 ^ 12)).source.blksize ∧
      s1.sfile.nread = (configured demo_pipe (2 ^ 12)).sfile.nread + (40 - 32) := by
  have hm : (main_read_seek_source (configured demo_pipe (2 ^ 12)) 40).map (fun x => x.1)
      = some 0 := by decide
  cases hs : main_read_seek_source (configured demo_pipe (2 ^ 12)) 40 with
  | none => rw [hs] at hm; exact absurd hm (by simp)
  | some x =>
    obtain ⟨r, s1⟩ := x
    have hr : r = 0 := by
      rw [hs] at hm
      simpa using hm
    subst hr
    obtain ⟨-, h1, h2⟩ := C15_skip_read_postcondition (configured demo_pipe (2 ^ 12)) s1 40 32
      (Or.inr (by decide)) (by decide) (by decide) (by decide) (by decide) hs
    exact ⟨s1, rfl, h1, h2⟩

/-- The two outcomes of the recency-discipline lookup. -/
theorem lru_cases {s t : Session} {b i : Nat} {ret : Int} {n : Bool}
    (hf : s.do_src_fifo = false) (h : main_getblk_lru s b = some (ret, i, n, t)) :
    ret = 0 ∧
    ((n = false ∧ i < s.lru_size ∧ (s.lru i).blkno = b ∧ t.lru = s.lru) ∨
     (n = true ∧ (t.lru i).blkno = NOBLK)) := by
  cases hs : lru_search s b with
  | some j =>
    rw [lru_hit s b j hf hs] at h
    simp only [Option.some.injEq, Prod.mk.injEq] at h
    obtain ⟨rfl, rfl, rfl, rfl⟩ := h
    obtain ⟨h1, h2⟩ := lru_search_some hs
    exact ⟨rfl, Or.inl ⟨rfl, h1, h2, rfl⟩⟩
  | none =>
    cases hl : s.lru_list with
    | nil => simp [main_getblk_lru, hf, hs, hl] at h
    | cons f rest =>
      rw [lru_miss s b f rest hf hs hl] at h
      simp only [Option.some.injEq, Prod.mk.injEq] at h
      obtain ⟨rfl, rfl, rfl, rfl⟩ := h
      exact ⟨rfl, Or.inr ⟨rfl, by simp [set_blkno]⟩⟩

/-- One call of `main_getblk_func` on a regular file in the recency
discipline: it returns 0, publishes the requested block with as many bytes as
the file has in it, and keeps the invariant. -/
theorem getblk_regular (L B : Nat) (s : Session) (b : Nat) (hr : RInv L B s)
    (hb : b * B < XOFF) (hb2 : b ≠ NOBLK) :
    ∃ s1, main_getblk_func s b = some (0, s1) ∧ s1.source.curblkno = b ∧
      s1.source.onblk = min B (L - b * B) ∧ RInv L B s1 := by
  obtain ⟨hfake, hfifo, hlist, hblk, hlen, hLx, hsf, hseek, hread, hpo, hsizes⟩ := hr
  have hlive : Live s := by simp [Live, hfifo, hlist]
  have hmod : (b * B) % XOFF = b * B := Nat.mod_eq_of_lt hb
  obtain ⟨ret, i, n, t1, h1, hl1⟩ := lookup_total s b hlive
  obtain ⟨hc1, hf1, -, hsrc1, -⟩ := lru_frame h1
  have hslots1 := lru_frame_slots h1
  obtain ⟨hret, hcase⟩ := lru_cases hfifo h1
  subst hret
  have hfifo1 : t1.do_src_fifo = false := hc1.1.trans hfifo
  have hlist1 : t1.lru_list ≠ [] := by simpa [Live, hfifo1] using hl1
  rw [main_getblk_func_eq s b hfake, h1, hblk, hmod]
  rcases hcase with ⟨hn, hi, hbi, hlru⟩ | ⟨hn, hnob⟩
  · subst hn
    refine ⟨hit_state t1 i b, by simp, rfl, ?_, ?_⟩
    · show (t1.lru i).size = _
      rw [hlru, hsizes i hi (by rw [hbi]; exact hb2), hbi]
    · refine ⟨hc1.2.2.1.trans hfake, hfifo1, hlist1, by show t1.source.blksize = B; rw [hsrc1, hblk],
        by show t1.sfile.length = L; rw [hf1, hlen], hLx,
        by show t1.sfile.seek_failed = false; rw [hf1, hsf],
        fun p => by show t1.sfile.seek_ret p = 0; rw [hf1]; exact hseek p,
        fun p => by show t1.sfile.read_ret p = 0; rw [hf1]; exact hread p,
        by show t1.sfile.source_position = t1.sfile.offset; rw [hf1]; exact hpo, ?_⟩
      intro j hj
      show (t1.lru j).blkno ≠ NOBLK → (t1.lru j).size = min B (L - (t1.lru j).blkno * B)
      rw [hlru]
      exact hsizes j (by rw [← hc1.2.1]; exact hj)
  · subst hn
    -- the state handed to the final read: positioned at the target, slot `g` to be filled
    have hkey : ∃ g t4, getblk_locate { t1 with lru_misses := t1.lru_misses + 1 } i b (b * B)
          = some (0, g, t4) ∧
        t4.allow_fake_source = false ∧ t4.do_src_fifo = false ∧ t4.lru_list ≠ [] ∧
        t4.source.blksize = B ∧ t4.lru_size = s.lru_size ∧
        t4.sfile.length = L ∧ t4.sfile.seek_failed = false ∧
        t4.sfile.seek_ret = s.sfile.seek_ret ∧ t4.sfile.read_ret = s.sfile.read_ret ∧
        t4.sfile.source_position = b * B ∧ t4.sfile.offset = b * B ∧
        (∀ j, j ≠ g → j < s.lru_size → (t4.lru j).blkno ≠ NOBLK →
          (t4.lru j).size = min B (L - (t4.lru j).blkno * B)) := by
      have hslot : ∀ j, j < s.lru_size → (t1.lru j).blkno ≠ NOBLK →
          (t1.lru j).size = min B (L - (t1.lru j).blkno * B) := by
        intro j hj hne
        by_cases hji : j = i
        · subst hji; exact absurd hnob hne
        · rw [hslots1 j hji] at hne ⊢
          exact hsizes j hj hne
      by_cases hp : b * B = s.sfile.source_position
      · refine ⟨i, { t1 with lru_misses := t1.lru_misses + 1 }, ?_, hc1.2.2.1.trans hfake,
          hfifo1, hlist1, by show t1.source.blksize = B; rw [hsrc1, hblk], hc1.2.1,
          by show t1.sfile.length = L; rw [hf1, hlen],
          by show t1.sfile.seek_failed = false; rw [hf1, hsf],
          by show t1.sfile.seek_ret = _; rw [hf1], by show t1.sfile.read_ret = _; rw [hf1],
          by show t1.sfile.source_position = _; rw [hf1, hp],
          by show t1.sfile.offset = _; rw [hf1, ← hpo, hp], fun j _ hj hne => hslot j hj hne⟩
        have : b * B = ({ t1 with lru_misses := t1.lru_misses + 1 } : Session).sfile.source_position := by
          show b * B = t1.sfile.source_position; rw [hf1]; exact hp
        simp [getblk_locate, this]
      · have hp2 : b * B ≠
            ({ t1 with lru_misses := t1.lru_misses + 1 } : Session).sfile.source_position := by
          show b * B ≠ t1.sfile.source_position; rw [hf1]; exact hp
        have hblk2 : ({ t1 with lru_misses := t1.lru_misses + 1 } : Session).source.blksize = B := by
          show t1.source.blksize = B; rw [hsrc1, hblk]
        have h3 := seek_direct { t1 with lru_misses := t1.lru_misses + 1 } b
          (by show t1.sfile.seek_failed = false; rw [hf1, hsf])
          (by show t1.sfile.seek_ret _ = 0; rw [hf1]; exact hseek _)
        rw [hblk2, hmod] at h3
        obtain ⟨ret2, g, n2, t4, h4, hl4⟩ := lookup_total
          ({ t1 with
              lru_misses := t1.lru_misses + 1
              sfile := { t1.sfile with
                offset := b * B, nseek := t1.sfile.nseek + 1, source_position := b * B } })
          b (live_frame hl1 rfl rfl rfl)
        obtain ⟨hc4, hf4, -, hsrc4, -⟩ := lru_frame h4
        have hslots4 := lru_frame_slots h4
        obtain ⟨hret2, -⟩ := lru_cases (by exact hfifo1) h4
        subst hret2
        have hfifo4 : t4.do_src_fifo = false := hc4.1.trans hfifo1
        refine ⟨g, t4, by simp [getblk_locate, hp2, h3, h4], (hc4.2.2.1.trans hc1.2.2.1).trans hfake,
          hfifo4, by simpa [Live, hfifo4] using hl4,
          by rw [hsrc4]; show t1.source.blksize = B; rw [hsrc1, hblk],
          hc4.2.1.trans hc1.2.1,
          by rw [hf4]; show t1.sfile.length = L; rw [hf1, hlen],
          by rw [hf4]; show t1.sfile.seek_failed = false; rw [hf1, hsf],
          by rw [hf4]; show t1.sfile.seek_ret = _; rw [hf1],
          by rw [hf4]; show t1.sfile.read_ret = _; rw [hf1],
          by rw [hf4], by rw [hf4], ?_⟩
        intro j hjg hj hne
        rw [hslots4 j hjg] at hne ⊢
        exact hslot j hj hne
    obtain ⟨g, t4, hloc, hfake4, hfifo4, hlist4, hblk4, hsize4, hlen4, hsf4, hseek4, hread4,
      hsp4, hoff4, hslots4⟩ := hkey
    have hrd : t4.sfile.read_ret t4.sfile.offset = 0 := by rw [hread4]; exact hread _
    have hfill := fill_ok t4 g b (b * B) hrd
    rw [hblk4, hlen4, hoff4] at hfill
    have hnw : (b * B + min B (L - b * B)) % XOFF = b * B + min B (L - b * B) := by
      apply Nat.mod_eq_of_lt
      rcases Nat.le_total L (b * B) with h | h
      · rw [Nat.sub_eq_zero_of_le h, Nat.min_zero]; exact hb
      · have := Nat.min_le_right B (L - b * B)
        omega
    have hfin : ∃ s1, getblk_fill t4 g b (b * B) = (0, s1) ∧ s1.source.curblkno = b ∧
        s1.source.onblk = min B (L - b * B) ∧ RInv L B s1 := by
      refine ⟨_, hfill, rfl, rfl, hfake4, hfifo4, hlist4, hblk4, hlen4, hLx,
        hsf4, fun p => by show t4.sfile.seek_ret p = 0; rw [hseek4]; exact hseek p,
        fun p => by show t4.sfile.read_ret p = 0; rw [hread4]; exact hread p, ?_, ?_⟩
      · show (b * B + min B (L - b * B)) % XOFF = b * B + min B (L - b * B)
        exact hnw
      · intro j hj
        show (if j = g then (⟨(t4.lru g).blk, b, min B (L - b * B)⟩ : main_blklru)
            else t4.lru j).blkno ≠ NOBLK →
          (if j = g then (⟨(t4.lru g).blk, b, min B (L - b * B)⟩ : main_blklru)
            else t4.lru j).size = min B (L - (if j = g then
              (⟨(t4.lru g).blk, b, min B (L - b * B)⟩ : main_blklru) else t4.lru j).blkno * B)
        by_cases hjg : j = g
        · simp [hjg]
        · simp only [hjg, if_false]
          exact hslots4 j hjg (by rw [← hsize4]; exact hj)
    obtain ⟨s1, hfill1, h5, h6, h7⟩ := hfin
    exact ⟨s1, by simp [hloc, hfill1], h5, h6, h7⟩

/-- On a regular file of at least one window, on which seeking and reading
succeed, the state `main_set_source` returns satisfies the invariant of the
recency discipline. -/
theorem configured_regular (s : Session) (k : Nat) (h : Fresh s k) (hk5 : 5 ≤ k)
    (hst : s.sfile.stat_ret = 0) (hL : 2 ^ k ≤ s.sfile.length) (hLx : s.sfile.length < XOFF)
    (hsf : s.sfile.seek_failed = false) (hseek : ∀ p, s.sfile.seek_ret p = 0)
    (hread : ∀ p, s.sfile.read_ret p = 0) :
    RInv s.sfile.length (2 ^ k / 32) (configured s (2 ^ k)) := by
  obtain ⟨hk, hw, hfake, hfifo, hopen, halloc, hpos, hoff, hread0⟩ := h
  obtain ⟨hdiv, hmul⟩ := pow_split k hk5
  have hL2 : ¬ s.sfile.length < 2 ^ k := not_lt.mpr hL
  refine ⟨?_, ?_, ?_, ?_, ?_, hLx, ?_, ?_, ?_, ?_, ?_⟩
  · simp [configured, hL2, probed, hfake]
  · simp [configured, hL2, hst]
  · simp [configured, hL2, probed, rev31]
  · simp [configured, hL2, probed]
  · simp [configured, hL2, probed]
  · simp [configured, hL2, probed, hsf]
  · intro p
    simpa [configured, hL2, probed] using hseek p
  · intro p
    simpa [configured, hL2, probed] using hread p
  · simp [configured, hL2, probed]
  · intro i hi _
    have hi32 : i < 32 := by simpa [configured, hL2] using hi
    simp only [configured, hL2, if_false, hi32, if_true]
    rw [hdiv]
    symm
    apply Nat.min_eq_left
    have h1 : (i + 1) * 2 ^ (k - 5) ≤ 32 * 2 ^ (k - 5) := Nat.mul_le_mul_right _ hi32
    have h2 : (i + 1) * 2 ^ (k - 5) = i * 2 ^ (k - 5) + 2 ^ (k - 5) := by ring
    omega

theorem run_regular (L B : Nat) : ∀ (bs : List Nat) (s : Session), RInv L B s →
    (∀ x, x ∈ bs → x * B < XOFF ∧ x ≠ NOBLK) →
    ∃ s1, run_calls s bs = some s1 ∧ RInv L B s1 := by
  intro bs
  induction bs with
  | nil =>
    intro s hr _
    exact ⟨s, rfl, hr⟩
  | cons b bs ih =>
    intro s hr hbs
    obtain ⟨hb, hb2⟩ := hbs b (List.mem_cons_self b bs)
    obtain ⟨t, hcall, -, -, hr1⟩ := getblk_regular L B s b hr hb hb2
    obtain ⟨s1, hrun, hr2⟩ := ih t hr1 (fun x hx => hbs x (List.mem_cons_of_mem b hx))
    exact ⟨s1, by simp [run_calls, hcall, hrun], hr2⟩

/-- C8 (amended): requests at and past the end. In a session set up by
`main_set_source` in split mode on a regular file of `L` bytes (size known,
every seek and read succeeding; window `2^k`, block size `B = 2^k / 32`), after
any sequence of requests, `main_getblk_func (b)` returns 0 with
`curblkno = b` and `onblk = min B (L - b*B)`: for a block at or past the end
(`b*B >= L`) it reports success with 0 valid bytes, and for the last block
(`b*B < L <= (b+1)*B`) it delivers `L - b*B` bytes. -/
theorem C8_past_end_is_empty_success (s : Session) (k : Nat) (h : Fresh s k) (hk5 : 5 ≤ k)
    (hst : s.sfile.stat_ret = 0) (hL : 2 ^ k ≤ s.sfile.length) (hLx : s.sfile.length < XOFF)
    (hsf : s.sfile.seek_failed = false) (hseek : ∀ p, s.sfile.seek_ret p = 0)
    (hread : ∀ p, s.sfile.read_ret p = 0) (bs : List Nat) (b : Nat)
    (hbs : ∀ x, x ∈ b :: bs → x * (2 ^ k / 32) < XOFF ∧ x ≠ NOBLK) :
    main_set_source s = some (s.set_source_ret, configured s (2 ^ k)) ∧
    ∃ s1 s2, run_calls (configured s (2 ^ k)) bs = some s1 ∧
      main_getblk_func s1 b = some (0, s2) ∧ s2.source.curblkno = b ∧
      s2.source.onblk = min (2 ^ k / 32) (s.sfile.length - b * (2 ^ k / 32)) ∧
      (s.sfile.length ≤ b * (2 ^ k / 32) → s2.source.onblk = 0) ∧
      (b * (2 ^ k / 32) < s.sfile.length → s.sfile.length ≤ (b + 1) * (2 ^ k / 32) →
        s2.source.onblk = s.sfile.length - b * (2 ^ k / 32)) := by
  have hr := configured_regular s k h hk5 hst hL hLx hsf hseek hread
  obtain ⟨s1, hrun, hr1⟩ := run_regular _ _ bs _ hr
    (fun x hx => hbs x (List.mem_cons_of_mem b hx))
  obtain ⟨hb, hb2⟩ := hbs b (List.mem_cons_self b bs)
  obtain ⟨s2, hcall, h1, h2, -⟩ := getblk_regular _ _ s1 b hr1 hb hb2
  refine ⟨main_set_source_eq s k h, s1, s2, hrun, hcall, h1, h2, ?_, ?_⟩
  · intro hle
    rw [h2, Nat.sub_eq_zero_of_le hle, Nat.min_zero]
  · intro _ hle
    rw [h2]
    apply Nat.min_eq_right
    have : (b + 1) * (2 ^ k / 32) = b * (2 ^ k / 32) + 2 ^ k / 32 := by ring
    omega

/-- Witness of C8 on a regular file of 10000 bytes with window 4096 (block
size 128): after the requests 5, 78, 3 the request for block 79 succeeds with
0 bytes. -/
theorem C8_past_end_is_empty_success_witness :
    main_set_source demo_regular
      = some (demo_regular.set_source_ret, configured demo_regular (2 ^ 12)) ∧
    ∃ s1 s2, run_calls (configured demo_regular (2 ^ 12)) [5, 78, 3] = some s1 ∧
      main_getblk_func s1 79 = some (0, s2) ∧ s2.source.curblkno = 79 ∧
      s2.source.onblk = min (2 ^ 12 / 32) (demo_regular.sfile.length - 79 * (2 ^ 12 / 32)) ∧
      (demo_regular.sfile.length ≤ 79 * (2 ^ 12 / 32) → s2.source.onblk = 0) ∧
      (79 * (2 ^ 12 / 32) < demo_regular.sfile.length →
        demo_regular.sfile.length ≤ (79 + 1) * (2 ^ 12 / 32) →
        s2.source.onblk = demo_regular.sfile.length - 79 * (2 ^ 12 / 32)) :=
  C8_past_end_is_empty_success demo_regular 12 fresh_demo_regular (by decide) (by decide)
    (by decide) (by decide) (by decide) (fun _ => rfl) (fun _ => rfl) [5, 78, 3] 79 (by decide)

/-- C8 (counterexample): the spec instance. On a regular file of 10000 bytes
with window 4096 (split mode, block size 128) `main_getblk_func (78)` returns
0 with 16 valid bytes, and `main_getblk_func (79)` does not fail: it returns 0
with `curblkno = 79` and 0 valid bytes. -/
theorem C8_block_79_returns_success :
    main_set_source demo_regular = some (0, configured demo_regular (2 ^ 12)) ∧
    (main_getblk_func (configured demo_regular (2 ^ 12)) 78).map
      (fun x => (x.1, x.2.source.curblkno, x.2.source.onblk)) = some (0, 78, 16) ∧
    (main_getblk_func (configured demo_regular (2 ^ 12)) 79).map
      (fun x => (x.1, x.2.source.curblkno, x.2.source.onblk)) = some (0, 79, 0) :=
  ⟨main_set_source_eq demo_regular 12 fresh_demo_regular, by decide, by decide⟩

theorem fifo_miss (s : Session) (b : Nat) (hf : s.do_src_fifo = true) (hn : s.lru_size ≠ 0)
    (h1 : (s.lru (b % s.lru_size)).blkno ≠ b)
    (h2 : ¬ ((s.lru (b % s.lru_size)).blkno ≠ NOBLK ∧ (s.lru (b % s.lru_size)).blkno > b)) :
    main_getblk_lru s b = some (0, b % s.lru_size, true,
      set_blkno { s with lru_filled := s.lru_filled + 1 } (b % s.lru_size) NOBLK) := by
  simp only [main_getblk_lru, hf, if_true, hn, if_false, h1]
  rw [if_neg h2]

theorem fifo_hit (s : Session) (b : Nat) (hf : s.do_src_fifo = true) (hn : s.lru_size ≠ 0)
    (h1 : (s.lru (b % s.lru_size)).blkno = b) :
    main_getblk_lru s b = some (0, b % s.lru_size, false, s) := by
  simp [main_getblk_lru, hf, hn, h1]

theorem skip_done (fuel : Nat) (s : Session) (pos : Nat)
    (h : ¬ s.sfile.source_position < pos) : skip_loop fuel s pos = some (0, s) := by
  cases fuel <;> simp [skip_loop, h]

/-- Two hits in a row in the forward discipline. -/
theorem two_hits (c : Session) (a b : Nat) (hfake : c.allow_fake_source = false)
    (hf : c.do_src_fifo = true) (hn : c.lru_size ≠ 0)
    (ha : (c.lru (a % c.lru_size)).blkno = a) (hb : (c.lru (b % c.lru_size)).blkno = b) :
    ∃ s1 s2, main_getblk_func c a = some (0, s1) ∧ main_getblk_func s1 b = some (0, s2) ∧
      s2.sfile = c.sfile ∧ s2.lru = c.lru ∧ s2.lru_hits = c.lru_hits + 2 ∧
      s2.lru_misses = c.lru_misses ∧ s2.lru_filled = c.lru_filled ∧ s2.mem = c.mem := by
  refine ⟨hit_state c (a % c.lru_size) a,
    hit_state (hit_state c (a % c.lru_size) a) (b % c.lru_size) b, ?_, ?_, rfl, rfl, rfl, rfl,
    rfl, rfl⟩
  · rw [main_getblk_func_eq c a hfake, fifo_hit c a hf hn ha]
    simp
  · rw [main_getblk_func_eq _ b (by exact hfake), fifo_hit _ b (by exact hf) (by exact hn)
      (by exact hb)]
    simp
    rfl
/-- Forward discipline with slots 0, 1, 2 holding blocks 0, 1, 2, the
position at `32 * B` and the seek to block 34 failing: the request for block 32
is read in place, and the request for block 34 that follows skip-reads block
33 into slot 1 and then reads block 34; three reads in all, and the position
ends at `35 * B`. -/
theorem skip_scenario (c : Session) (B : Nat) (hfake : c.allow_fake_source = false)
    (hf : c.do_src_fifo = true) (hsz : c.lru_size = 32) (hblk : c.source.blksize = B)
    (hB : 0 < B) (hL : 35 * B ≤ c.sfile.length) (hLx : c.sfile.length < XOFF)
    (hsp : c.sfile.source_position = 32 * B) (hoff : c.sfile.offset = 32 * B)
    (hsf : c.sfile.seek_failed = false) (hk : c.sfile.seek_ret (34 * B) ≠ 0)
    (hrd : ∀ p, c.sfile.read_ret p = 0)
    (h0 : (c.lru 0).blkno = 0) (h1 : (c.lru 1).blkno = 1) (h2 : (c.lru 2).blkno = 2) :
    (∃ s1, main_getblk_func c 32 = some (0, s1) ∧ s1.sfile.source_position = 33 * B ∧
      s1.sfile.nread = c.sfile.nread + 1) ∧
    (∃ s2, twice c 32 34 = some (0, s2) ∧ s2.sfile.source_position = 35 * B ∧
      s2.sfile.nread = c.sfile.nread + 3 ∧ (s2.lru 1).blkno = 33 ∧ (s2.lru 1).size = B ∧
      s2.source.curblkno = 34 ∧ s2.source.onblk = B ∧ s2.sfile.seek_failed = true) := by
  have hm32 : 32 * B % XOFF = 32 * B := Nat.mod_eq_of_lt (by omega)
  have hm33 : (32 * B + B) % XOFF = 33 * B := by
    have : 32 * B + B = 33 * B := by ring
    rw [this]; exact Nat.mod_eq_of_lt (by omega)
  have hm34 : 34 * B % XOFF = 34 * B := Nat.mod_eq_of_lt (by omega)
  have hmin32 : min B (c.sfile.length - 32 * B) = B := Nat.min_eq_left (by omega)
  have hne : ¬ 34 * B = 33 * B := by omega
  have hlt : 33 * B < 34 * B := by omega
  have hnlt : ¬ 34 * B < 33 * B := by omega
  have hfuel : 34 * B - 33 * B = (B - 1) + 1 := by omega
  have hdiv : 33 * B / B = 33 := Nat.mul_div_cancel 33 hB
  have hm34' : (33 * B + B) % XOFF = 34 * B := by
    have : 33 * B + B = 34 * B := by ring
    rw [this]; exact Nat.mod_eq_of_lt (by omega)
  have hm35 : (34 * B + B) % XOFF = 35 * B := by
    have : 34 * B + B = 35 * B := by ring
    rw [this]; exact Nat.mod_eq_of_lt (by omega)
  have hmin33' : min B (c.sfile.length - (32 * B + B)) = B := Nat.min_eq_left (by omega)
  have hmin34' : min B (c.sfile.length - (32 * B + B + B)) = B := Nat.min_eq_left (by omega)
  have hirr : ¬ 34 * B < 34 * B := lt_irrefl _
  constructor
  · simp [main_getblk_func, main_getblk_lru, hfake, hf, hsz, hblk, h0, NOBLK,
      set_blkno, set_size, set_position, main_read_primary_input, hsp, hoff, hrd, hm32, hm33,
      hmin32]
  · simp [twice, main_getblk_func, main_getblk_lru, hfake, hf, hsz, hblk, h0, h1, h2, NOBLK,
      set_blkno, set_size, set_position, main_read_primary_input, hsp, hoff, hrd, hm32, hm33,
      hm34, hmin32, hne, hlt, hnlt, main_read_seek_source, hsf, main_file_seek,
      hk, XD3_INVALID_INPUT, hfuel, skip_loop, hdiv, hm34', hm35, hmin33', hmin34', skip_done,
      hirr]

/-- C9 (amended): forward-mode scenario. In a session freshly set up by
`main_set_source` on an unseekable stream of unknown size holding at least 35
blocks (window `2^k`, block size `B = 2^k / 32`) the position is `32 * B` and
blocks 0..31 are resident: `main_getblk_func (0)` followed by
`main_getblk_func (2)` are two hits that leave the stream and the position
untouched. The first request past the window, `main_getblk_func (32)`, is read
in place, and the request for block 34 that follows skip-reads the full block
33 (into slot 1) before block 34 is served: the two calls make three reads and
advance `source_position` by exactly `3 * B`. -/
theorem C9_forward_scenario (s : Session) (k : Nat) (h : Fresh s k) (hk5 : 5 ≤ k)
    (hst : s.sfile.stat_ret ≠ 0) (hL : 35 * (2 ^ k / 32) ≤ s.sfile.length)
    (hLx : s.sfile.length < XOFF) (hsf : s.sfile.seek_failed = false)
    (hseek : s.sfile.seek_ret (34 * (2 ^ k / 32)) ≠ 0) (hrd : ∀ p, s.sfile.read_ret p = 0) :
    main_set_source s = some (s.set_source_ret, configured s (2 ^ k)) ∧
    (configured s (2 ^ k)).do_src_fifo = true ∧
    (configured s (2 ^ k)).sfile.source_position = 32 * (2 ^ k / 32) ∧
    (∃ h1 h2, main_getblk_func (configured s (2 ^ k)) 0 = some (0, h1) ∧
      main_getblk_func h1 2 = some (0, h2) ∧ h2.sfile = (configured s (2 ^ k)).sfile ∧
      h2.lru_hits = (configured s (2 ^ k)).lru_hits + 2 ∧
      h2.lru_misses = (configured s (2 ^ k)).lru_misses) ∧
    (∃ s1, main_getblk_func (configured s (2 ^ k)) 32 = some (0, s1) ∧
      s1.sfile.source_position = (configured s (2 ^ k)).sfile.source_position + 2 ^ k / 32) ∧
    (∃ s2, twice (configured s (2 ^ k)) 32 34 = some (0, s2) ∧
      s2.sfile.source_position
        = (configured s (2 ^ k)).sfile.source_position + 3 * (2 ^ k / 32) ∧
      s2.sfile.nread = (configured s (2 ^ k)).sfile.nread + 3 ∧
      (s2.lru 1).blkno = 33 ∧ (s2.lru 1).size = 2 ^ k / 32 ∧
      s2.source.curblkno = 34 ∧ s2.source.onblk = 2 ^ k / 32) := by
  obtain ⟨hdiv, hmul⟩ := pow_split k hk5
  have hBpos : 0 < 2 ^ k / 32 := by rw [hdiv]; exact Nat.pos_pow_of_pos _ (by norm_num)
  have hW : 2 ^ k = 32 * (2 ^ k / 32) := by rw [hdiv]; exact hmul
  have hL1 : 2 ^ k ≤ s.sfile.length := by omega
  have hL2 : ¬ s.sfile.length < 2 ^ k := not_lt.mpr hL1
  have hm : min (2 ^ k) s.sfile.length = 2 ^ k := min_eq_left hL1
  have hfake : (configured s (2 ^ k)).allow_fake_source = false := by
    simp [configured, hL2, probed, h.hfake]
  have hf : (configured s (2 ^ k)).do_src_fifo = true := by simp [configured, hL2, hst]
  have hsz : (configured s (2 ^ k)).lru_size = 32 := by simp [configured, hL2]
  have hblk : (configured s (2 ^ k)).source.blksize = 2 ^ k / 32 := by
    simp [configured, hL2, probed]
  have hlen : (configured s (2 ^ k)).sfile.length = s.sfile.length := by
    simp [configured, hL2, probed]
  have hsp : (configured s (2 ^ k)).sfile.source_position = 32 * (2 ^ k / 32) := by
    simp only [configured, hL2, if_false, probed, hm]
    exact hW
  have hoff : (configured s (2 ^ k)).sfile.offset = 32 * (2 ^ k / 32) := by
    simp only [configured, hL2, if_false, probed, hm]
    exact hW
  have hsf' : (configured s (2 ^ k)).sfile.seek_failed = false := by
    simp [configured, hL2, probed, hsf]
  have hk' : (configured s (2 ^ k)).sfile.seek_ret (34 * (2 ^ k / 32)) ≠ 0 := by
    simpa [configured, hL2, probed] using hseek
  have hrd' : ∀ p, (configured s (2 ^ k)).sfile.read_ret p = 0 := by
    intro p
    simpa [configured, hL2, probed] using hrd p
  have hslot : ∀ j, j < 32 → ((configured s (2 ^ k)).lru j).blkno = j := by
    intro j hj
    simp [configured, hL2, hj]
  obtain ⟨hfirst, hsecond⟩ := skip_scenario (configured s (2 ^ k)) (2 ^ k / 32) hfake hf hsz hblk
    hBpos (by rw [hlen]; exact hL) (by rw [hlen]; exact hLx) hsp hoff hsf' hk' hrd'
    (hslot 0 (by norm_num)) (hslot 1 (by norm_num)) (hslot 2 (by norm_num))
  refine ⟨main_set_source_eq s k h, hf, hsp, ?_, ?_, ?_⟩
  · obtain ⟨h1, h2, e1, e2, e3, -, e5, e6, -, -⟩ := two_hits (configured s (2 ^ k)) 0 2 hfake hf
      (by rw [hsz]; norm_num) (by rw [hsz]; exact hslot 0 (by norm_num))
      (by rw [hsz]; exact hslot 2 (by norm_num))
    exact ⟨h1, h2, e1, e2, e3, e5, e6⟩
  · obtain ⟨s1, e1, e2, -⟩ := hfirst
    exact ⟨s1, e1, by rw [e2, hsp]; ring⟩
  · obtain ⟨s2, e1, e2, e3, e4, e5, e6, e7, -⟩ := hsecond
    exact ⟨s2, e1, by rw [e2, hsp]; ring, e3, e4, e5, e6, e7⟩

/-- Witness of C9 on a pipe of 10000 bytes with window 4096 (block size 128). -/
theorem C9_forward_scenario_witness :
    ∃ s2, twice (configured demo_pipe (2 ^ 12)) 32 34 = some (0, s2) ∧
      s2.sfile.source_position
        = (configured demo_pipe (2 ^ 12)).sfile.source_position + 3 * (2 ^ 12 / 32) ∧
      s2.sfile.nread = (configured demo_pipe (2 ^ 12)).sfile.nread + 3 ∧
      (s2.lru 1).blkno = 33 ∧ (s2.lru 1).size = 2 ^ 12 / 32 ∧
      s2.source.curblkno = 34 ∧ s2.source.onblk = 2 ^ 12 / 32 :=
  (C9_forward_scenario demo_pipe 12 fresh_demo_pipe (by decide) (by decide) (by decide)
    (by decide) (by decide) (by decide) (fun _ => rfl)).2.2.2.2.2

/-- C9 (counterexample): in the session freshly set up on a pipe of 10000
bytes with window 4096 (forward mode, block size 128, position 4096),
`main_getblk_func (0)` followed by `main_getblk_func (2)` returns 0 twice as
cache hits: no read and no seek is made (one read so far, that of the
set-up), two hits are counted, and `source_position` is still 4096: it has
advanced by 0, not by `2 * 128`. -/
theorem C9_zero_then_two_reads_nothing :
    main_set_source demo_pipe = some (0, configured demo_pipe (2 ^ 12)) ∧
    (configured demo_pipe (2 ^ 12)).do_src_fifo = true ∧
    (configured demo_pipe (2 ^ 12)).sfile.source_position = 4096 ∧
    stats (some (0, configured demo_pipe (2 ^ 12))) = some (0, 0, 1, 1, 0, 1) ∧
    stats (main_getblk_func (configured demo_pipe (2 ^ 12)) 0) = some (0, 1, 1, 1, 0, 1) ∧
    stats (twice (configured demo_pipe (2 ^ 12)) 0 2) = some (0, 2, 1, 1, 0, 1) ∧
    (twice (configured demo_pipe (2 ^ 12)) 0 2).map (fun x => x.2.sfile.source_position)
      = some 4096 :=
  ⟨main_set_source_eq demo_pipe 12 fresh_demo_pipe, by decide, by decide, by decide, by decide,
    by decide, by decide⟩

theorem fresh_demo_mid : Fresh demo_mid 12 :=
  ⟨by decide, rfl, rfl, rfl, rfl, rfl, rfl, rfl, rfl⟩

theorem fresh_demo_wide : Fresh demo_wide 19 :=
  ⟨by decide, rfl, rfl, rfl, rfl, rfl, rfl, rfl, rfl⟩

/-- Recency discipline, a request for a resident block: `main_getblk_func`
returns 0 as a hit in the state the lookup left. -/
theorem request_hit (s : Session) (b i : Nat) (hfake : s.allow_fake_source = false)
    (hfifo : s.do_src_fifo = false) (hs : lru_search s b = some i) :
    main_getblk_func s b
      = some (0, hit_state { s with lru_list := s.lru_list.erase i ++ [i] } i b) := by
  rw [main_getblk_func_eq s b hfake, lru_hit s b i hfifo hs]
  simp

/-- Recency discipline, a request for a non-resident block that starts at the
current position: the slot at the front of the list is taken and filled. -/
theorem request_in_place (s : Session) (b f : Nat) (rest : List Nat)
    (hfake : s.allow_fake_source = false) (hfifo : s.do_src_fifo = false)
    (hmiss : ∀ j, j < s.lru_size → (s.lru j).blkno ≠ b) (hl : s.lru_list = f :: rest)
    (hpos : (b * s.source.blksize) % XOFF = s.sfile.source_position)
    (hread : s.sfile.read_ret s.sfile.offset = 0) :
    ∃ s1, main_getblk_func s b = some (0, s1) ∧
      s1.lru_filled = s.lru_filled + 1 ∧ s1.lru_misses = s.lru_misses + 1 ∧
      (s1.lru f).blkno = b ∧ (∀ j, j ≠ f → s1.lru j = s.lru j) ∧
      s1.lru_list = rest ++ [f] ∧
      s1.sfile.nseek = s.sfile.nseek ∧ s1.sfile.nread = s.sfile.nread + 1 := by
  obtain ⟨t1, h1, e1⟩ : ∃ t1, main_getblk_lru s b = some (0, f, true, t1) ∧
      t1 = set_blkno { s with lru_list := rest ++ [f], lru_filled := s.lru_filled + 1 } f NOBLK :=
    ⟨_, lru_miss s b f rest hfifo (lru_search_none.mpr hmiss) hl, rfl⟩
  have hsrc1 : t1.source = s.source := by rw [e1]; rfl
  have hfile1 : t1.sfile = s.sfile := by rw [e1]; rfl
  have hloc : getblk_locate { t1 with lru_misses := t1.lru_misses + 1 } f b
      ((b * s.source.blksize) % XOFF)
      = some (0, f, { t1 with lru_misses := t1.lru_misses + 1 }) := by
    have hp : (b * s.source.blksize) % XOFF
        = ({ t1 with lru_misses := t1.lru_misses + 1 } : Session).sfile.source_position := by
      show _ = t1.sfile.source_position
      rw [hfile1]; exact hpos
    simp [getblk_locate, hp]
  have hread1 : ({ t1 with lru_misses := t1.lru_misses + 1 } : Session).sfile.read_ret
      ({ t1 with lru_misses := t1.lru_misses + 1 } : Session).sfile.offset = 0 := by
    show t1.sfile.read_ret t1.sfile.offset = 0
    rw [hfile1]; exact hread
  rw [main_getblk_func_eq s b hfake, h1]
  simp only [ne_eq, not_true_eq_false, if_false, Bool.not_true, Bool.false_eq_true, hloc,
    fill_ok _ f b _ hread1]
  refine ⟨_, rfl, ?_, ?_, ?_, ?_, ?_, ?_, ?_⟩
  · rw [e1]; rfl
  · rw [e1]; rfl
  · simp
  · intro j hj
    simp only [hj, if_false]
    rw [e1]
    simp [set_blkno, hj]
  · rw [e1]; rfl
  · rw [e1]; rfl
  · rw [e1]; rfl

/-- Recency discipline, a request for a non-resident block that needs
repositioning, with `main_file_seek` succeeding: the lookup runs twice and two
slots are taken from the front of the list. -/
theorem reposition_miss (s : Session) (blkno f g : Nat) (rest : List Nat)
    (hfake : s.allow_fake_source = false) (hfifo : s.do_src_fifo = false)
    (hsf : s.sfile.seek_failed = false) (hb : blkno ≠ NOBLK)
    (hmiss : ∀ j, j < s.lru_size → (s.lru j).blkno ≠ blkno)
    (hl : s.lru_list = f :: g :: rest) (hfg : f ≠ g)
    (hpos : (blkno * s.source.blksize) % XOFF ≠ s.sfile.source_position)
    (hseek : s.sfile.seek_ret ((blkno * s.source.blksize) % XOFF) = 0)
    (hread : s.sfile.read_ret ((blkno * s.source.blksize) % XOFF) = 0) :
    ∃ s1, main_getblk_func s blkno = some (0, s1) ∧
      s1.lru_filled = s.lru_filled + 2 ∧ s1.lru_misses = s.lru_misses + 1 ∧
      (s1.lru f).blkno = NOBLK ∧ (s1.lru g).blkno = blkno ∧
      (∀ j, j ≠ f → j ≠ g → s1.lru j = s.lru j) ∧
      s1.lru_list = rest ++ [f, g] ∧
      s1.sfile.nseek = s.sfile.nseek + 1 ∧ s1.sfile.nread = s.sfile.nread + 1 := by
  obtain ⟨t1, h1, e1⟩ : ∃ t1, main_getblk_lru s blkno = some (0, f, true, t1) ∧
      t1 = set_blkno { s with lru_list := (g :: rest) ++ [f], lru_filled := s.lru_filled + 1 }
        f NOBLK :=
    ⟨_, lru_miss s blkno f (g :: rest) hfifo (lru_search_none.mpr hmiss) hl, rfl⟩
  have hsrc1 : t1.source = s.source := by rw [e1]; rfl
  have hfile1 : t1.sfile = s.sfile := by rw [e1]; rfl
  obtain ⟨t3, h3, e3⟩ : ∃ t3, main_read_seek_source
        { t1 with lru_misses := t1.lru_misses + 1 } blkno = some (0, t3) ∧
      t3 = { t1 with
        lru_misses := t1.lru_misses + 1
        sfile := { t1.sfile with
          offset := (blkno * t1.source.blksize) % XOFF
          nseek := t1.sfile.nseek + 1
          source_position := (blkno * t1.source.blksize) % XOFF } } :=
    ⟨_, seek_direct _ blkno (by show t1.sfile.seek_failed = false; rw [hfile1]; exact hsf)
      (by show t1.sfile.seek_ret ((blkno * t1.source.blksize) % XOFF) = 0
          rw [hfile1, hsrc1]; exact hseek), rfl⟩
  have hnone2 : lru_search t3 blkno = none := by
    apply lru_search_none.mpr
    intro j hj
    rw [e3, e1]
    show ((set_blkno _ f NOBLK).lru j).blkno ≠ blkno
    simp only [set_blkno]
    split
    · exact fun e => hb e.symm
    · exact hmiss j (by rw [e3, e1] at hj; exact hj)
  obtain ⟨t4, h4, e4⟩ : ∃ t4, main_getblk_lru t3 blkno = some (0, g, true, t4) ∧
      t4 = set_blkno { t3 with lru_list := (rest ++ [f]) ++ [g], lru_filled := t3.lru_filled + 1 }
        g NOBLK :=
    ⟨_, lru_miss t3 blkno g (rest ++ [f]) (by rw [e3, e1]; exact hfifo) hnone2
      (by rw [e3, e1]; rfl), rfl⟩
  have hloc : getblk_locate { t1 with lru_misses := t1.lru_misses + 1 } f blkno
      ((blkno * s.source.blksize) % XOFF) = some (0, g, t4) := by
    have hp : (blkno * s.source.blksize) % XOFF ≠ t1.sfile.source_position := by
      rw [hfile1]; exact hpos
    simp only [getblk_locate, ne_eq, hp, not_false_eq_true, if_true, h3, not_true_eq_false,
      if_false, h4]
  have hread4 : t4.sfile.read_ret t4.sfile.offset = 0 := by
    rw [e4, e3]
    show t1.sfile.read_ret ((blkno * t1.source.blksize) % XOFF) = 0
    rw [hfile1, hsrc1]; exact hread
  rw [main_getblk_func_eq s blkno hfake, h1]
  simp only [ne_eq, not_true_eq_false, if_false, Bool.not_true, Bool.false_eq_true, hloc,
    fill_ok t4 g blkno _ hread4]
  refine ⟨_, rfl, ?_, ?_, ?_, ?_, ?_, ?_, ?_, ?_⟩
  · rw [e4, e3, e1]; rfl
  · rw [e4, e3, e1]; rfl
  · have hfg2 : ¬ f = g := hfg
    simp only [hfg2, if_false]
    rw [e4, e3, e1]
    simp [set_blkno, hfg2]
  · simp
  · intro j hjf hjg
    simp only [hjg, if_false]
    rw [e4, e3, e1]
    simp [set_blkno, hjf, hjg]
  · rw [e4, e3, e1]
    simp [set_blkno]
  · rw [e4, e3, e1]; rfl
  · rw [e4, e3, e1]; rfl

/-- C5 (amended): recency discipline. For `main_getblk_lru`: a resident index
is found in a searched slot, which is returned with `is_new = 0`, nothing
changing but that slot moving to the back of the list; for a non-resident
index the slot at the front of the list is returned with `is_new = 1`, its
`blkno` reset to the sentinel, every other slot unchanged, `lru_filled`
incremented, and it moves to the back. For a request through
`main_getblk_func` on a real source: a resident block is a hit that changes no
slot; a non-resident block that starts at the current position takes exactly
the slot at the front of the list; a non-resident block that needs
repositioning (with `main_file_seek` and the read succeeding) takes the two
slots at the front of the list, the first left empty and the second filled,
so that `lru_filled` goes up by 2. -/
theorem C5_recency_discipline (s : Session) (hfifo : s.do_src_fifo = false) :
    (∀ b, (∃ j, j < s.lru_size ∧ (s.lru j).blkno = b) →
      ∃ i, i < s.lru_size ∧ (s.lru i).blkno = b ∧
        main_getblk_lru s b
          = some (0, i, false, { s with lru_list := s.lru_list.erase i ++ [i] })) ∧
    (∀ b f rest, (∀ j, j < s.lru_size → (s.lru j).blkno ≠ b) → s.lru_list = f :: rest →
      ∃ s1, main_getblk_lru s b = some (0, f, true, s1) ∧ (s1.lru f).blkno = NOBLK ∧
        (∀ j, j ≠ f → s1.lru j = s.lru j) ∧ s1.lru_list = rest ++ [f] ∧
        s1.lru_filled = s.lru_filled + 1) ∧
    (∀ b, s.allow_fake_source = false → (∃ j, j < s.lru_size ∧ (s.lru j).blkno = b) →
      ∃ i s1, i < s.lru_size ∧ (s.lru i).blkno = b ∧ main_getblk_func s b = some (0, s1) ∧
        s1.lru = s.lru ∧ s1.lru_list = s.lru_list.erase i ++ [i] ∧
        s1.lru_filled = s.lru_filled ∧ s1.lru_hits = s.lru_hits + 1 ∧
        s1.sfile = s.sfile) ∧
    (∀ b f rest, s.allow_fake_source = false →
      (∀ j, j < s.lru_size → (s.lru j).blkno ≠ b) → s.lru_list = f :: rest →
      (b * s.source.blksize) % XOFF = s.sfile.source_position →
      s.sfile.read_ret s.sfile.offset = 0 →
      ∃ s1, main_getblk_func s b = some (0, s1) ∧ (s1.lru f).blkno = b ∧
        (∀ j, j ≠ f → s1.lru j = s.lru j) ∧ s1.lru_list = rest ++ [f] ∧
        s1.lru_filled = s.lru_filled + 1) ∧
    (∀ b f g rest, s.allow_fake_source = false → s.sfile.seek_failed = false → b ≠ NOBLK →
      (∀ j, j < s.lru_size → (s.lru j).blkno ≠ b) → s.lru_list = f :: g :: rest → f ≠ g →
      (b * s.source.blksize) % XOFF ≠ s.sfile.source_position →
      s.sfile.seek_ret ((b * s.source.blksize) % XOFF) = 0 →
      s.sfile.read_ret ((b * s.source.blksize) % XOFF) = 0 →
      ∃ s1, main_getblk_func s b = some (0, s1) ∧ (s1.lru f).blkno = NOBLK ∧
        (s1.lru g).blkno = b ∧ (∀ j, j ≠ f → j ≠ g → s1.lru j = s.lru j) ∧
        s1.lru_list = rest ++ [f, g] ∧ s1.lru_filled = s.lru_filled + 2) := by
  refine ⟨?_, ?_, ?_, ?_, ?_⟩
  · intro b hres
    cases hs : lru_search s b with
    | none =>
      obtain ⟨j, hj, hb⟩ := hres
      exact absurd hb (lru_search_none.mp hs j hj)
    | some i =>
      obtain ⟨hi, hb⟩ := lru_search_some hs
      exact ⟨i, hi, hb, lru_hit s b i hfifo hs⟩
  · intro b f rest hnone hl
    refine ⟨_, lru_miss s b f rest hfifo (lru_search_none.mpr hnone) hl, ?_, ?_, rfl, rfl⟩
    · simp [set_blkno]
    · intro j hj
      simp [set_blkno, hj]
  · intro b hfake hres
    cases hs : lru_search s b with
    | none =>
      obtain ⟨j, hj, hb⟩ := hres
      exact absurd hb (lru_search_none.mp hs j hj)
    | some i =>
      obtain ⟨hi, hb⟩ := lru_search_some hs
      exact ⟨i, _, hi, hb, request_hit s b i hfake hfifo hs, rfl, rfl, rfl, rfl, rfl⟩
  · intro b f rest hfake hmiss hl hpos hread
    obtain ⟨s1, h, h1, -, h3, h4, h5, -, -⟩ :=
      request_in_place s b f rest hfake hfifo hmiss hl hpos hread
    exact ⟨s1, h, h3, h4, h5, h1⟩
  · intro b f g rest hfake hsf hb hmiss hl hfg hpos hseek hread
    obtain ⟨s1, h, h1, -, h3, h4, h5, h6, -, -⟩ :=
      reposition_miss s b f g rest hfake hfifo hsf hb hmiss hl hfg hpos hseek hread
    exact ⟨s1, h, h3, h4, h5, h6, h1⟩

/-- Witness of C5 in the session set up on a regular file of 10000 bytes
(window 4096, 32 slots, position 4096): block 32 starts at the position and
takes slot 30, the front of the list. -/
theorem C5_recency_discipline_witness :
    (configured demo_regular (2 ^ 12)).do_src_fifo = false ∧
    ∃ s1, main_getblk_func (configured demo_regular (2 ^ 12)) 32 = some (0, s1) ∧
      (s1.lru 30).blkno = 32 ∧
      (∀ j, j ≠ 30 → s1.lru j = (configured demo_regular (2 ^ 12)).lru j) ∧
      s1.lru_list = [29, 28, 27, 26, 25, 24, 23, 22, 21, 20, 19, 18, 17, 16, 15, 14, 13, 12, 11,
        10, 9, 8, 7, 6, 5, 4, 3, 2, 1, 0, 31] ++ [30] ∧
      s1.lru_filled = (configured demo_regular (2 ^ 12)).lru_filled + 1 :=
  ⟨by decide, (C5_recency_discipline (configured demo_regular (2 ^ 12)) (by decide)).2.2.2.1
    32 30 [29, 28, 27, 26, 25, 24, 23, 22, 21, 20, 19, 18, 17, 16, 15, 14, 13, 12, 11,
        10, 9, 8, 7, 6, 5, 4, 3, 2, 1, 0, 31]
    (by decide) (by decide) (by decide) (by decide) (by decide)⟩

/-- C5 (counterexample to the last sentence): in the session set up on a
regular file of 20000 bytes with window 4096 (recency discipline, 32 searched
slots, the recency list holding exactly these slots) the 17 distinct requests
33, 35, ..., 65 all return 0; block 33 is resident (in slot 29) after the
first 16 of them and is evicted by the 17th, long before 32 distinct indices
have been requested: each of these requests needs repositioning and takes two
slots. The same happens with the window of 512 KiB on a file of 4 MiB. -/
theorem C5_seventeen_requests_evict_the_first :
    main_set_source demo_mid = some (0, configured demo_mid (2 ^ 12)) ∧
    (configured demo_mid (2 ^ 12)).do_src_fifo = false ∧
    (configured demo_mid (2 ^ 12)).lru_size = 32 ∧
    run_codes (configured demo_mid (2 ^ 12))
        [33, 35, 37, 39, 41, 43, 45, 47, 49, 51, 53, 55, 57, 59, 61, 63, 65]
      = some [0, 0, 0, 0, 0, 0, 0, 0, 0, 0, 0, 0, 0, 0, 0, 0, 0] ∧
    (run_calls (configured demo_mid (2 ^ 12))
        [33, 35, 37, 39, 41, 43, 45, 47, 49, 51, 53, 55, 57, 59, 61, 63]).map
      (fun x => lru_search x 33) = some (some 29) ∧
    (run_calls (configured demo_mid (2 ^ 12))
        [33, 35, 37, 39, 41, 43, 45, 47, 49, 51, 53, 55, 57, 59, 61, 63, 65]).map
      (fun x => lru_search x 33) = some none ∧
    main_set_source demo_wide = some (0, configured demo_wide (2 ^ 19)) ∧
    (run_calls (configured demo_wide (2 ^ 19))
        [33, 35, 37, 39, 41, 43, 45, 47, 49, 51, 53, 55, 57, 59, 61, 63]).map
      (fun x => lru_search x 33) = some (some 29) ∧
    (run_calls (configured demo_wide (2 ^ 19))
        [33, 35, 37, 39, 41, 43, 45, 47, 49, 51, 53, 55, 57, 59, 61, 63, 65]).map
      (fun x => lru_search x 33) = some none :=
  ⟨main_set_source_eq demo_mid 12 fresh_demo_mid, by decide, by decide, by decide, by decide,
    by decide, main_set_source_eq demo_wide 19 fresh_demo_wide, by decide, by decide⟩

theorem fresh_demo_wide_pipe : Fresh demo_wide_pipe 19 :=
  ⟨by decide, rfl, rfl, rfl, rfl, rfl, rfl, rfl, rfl⟩

/-- C7 (counterexample): in the forward-mode session set up on a pipe of 10000
bytes with window 4096 (block size 128) the non-decreasing requests 0, 2^57
return 0 and then `XD3_TOOFARBACK`: the byte offset 2^57 * 128 = 2^64 of the
second request wraps to 0 in `xoff_t`, which lies behind the position 4096 of
the stream that cannot seek. The same happens with the window of 512 KiB
(block size 16384) on a pipe of 4 MiB for the requests 0, 2^50. -/
theorem C7_wrapping_request_is_too_far_back :
    main_set_source demo_pipe = some (0, configured demo_pipe (2 ^ 12)) ∧
    (configured demo_pipe (2 ^ 12)).do_src_fifo = true ∧
    [0, 2 ^ 57].Pairwise (fun a b => a ≤ b) ∧
    run_codes (configured demo_pipe (2 ^ 12)) [0, 2 ^ 57] = some [0, XD3_TOOFARBACK] ∧
    main_set_source demo_wide_pipe = some (0, configured demo_wide_pipe (2 ^ 19)) ∧
    (configured demo_wide_pipe (2 ^ 19)).do_src_fifo = true ∧
    run_codes (configured demo_wide_pipe (2 ^ 19)) [0, 2 ^ 50] = some [0, XD3_TOOFARBACK] :=
  ⟨main_set_source_eq demo_pipe 12 fresh_demo_pipe, by decide, by decide, by decide,
    main_set_source_eq demo_wide_pipe 19 fresh_demo_wide_pipe, by decide, by decide⟩

end Xdelta
